import Mathlib

/-!
# LOGITacker injection processor: task buffer and injection engine

A shallow embedding of `logitacker/logitacker_processor_inject.c`.

* Machine words are natural numbers; `int retransmit_counter` is an integer.
  The target is a 32-bit little-endian Cortex-M4, so `size_t`, `uint32_t`,
  enums and data pointers are four bytes each and `sizeof(inject_task_t) = 20`.
* The global `m_ringbuf` is passed and returned explicitly.
* Out-parameters (`inject_task_t * p_task`, `uint8_t * p_task_data_buf`) are
  passed in with their previous contents and returned with the new ones.
* The engine works on an `inject_world`: the context `*self`, the ring buffer,
  and the list of calls made to the timer, the radio and the payload provider.
* `transfer_state` and `logitacker_processor_inject_run_next_task` call each
  other; the recursion is made structural by a bound on its depth, and
  `run_next_task_done` shows that a call made the way the engine makes it
  (state Idle, `execute` set) never reaches the bound.
-/

namespace Logitacker

/-! ## Constants of the source file -/

/-- Source: `#define INJECT_TX_DELAY_MS 8`. -/
def INJECT_TX_DELAY_MS : Nat := 8

/-- Source: `#define INJECT_RETRANSMIT_BEFORE_FAIL 10`. -/
def INJECT_RETRANSMIT_BEFORE_FAIL : Nat := 10

/-- Source: `#define INJECT_RINGBUF_BYTES (1<<15)`. -/
def INJECT_RINGBUF_BYTES : Nat := 32768

/-- Source: `#define INJECT_MAX_TASK_DATA_SIZE 256`. -/
def INJECT_MAX_TASK_DATA_SIZE : Nat := 256

/-- The SDK's success code, `NRF_SUCCESS`. -/
def NRF_SUCCESS : Nat := 0

/-- Enumerator `INJECT_TASK_TYPE_TYPE_STRING` of `inject_task_type_t`. -/
def INJECT_TASK_TYPE_TYPE_STRING : Nat := 0

/-- Enumerator `INJECT_TASK_TYPE_PRESS_KEYS` of `inject_task_type_t`. -/
def INJECT_TASK_TYPE_PRESS_KEYS : Nat := 1

/-- Enumerator `INJECT_TASK_TYPE_DELAY` of `inject_task_type_t`. -/
def INJECT_TASK_TYPE_DELAY : Nat := 2

/-! ## The task header -/

/-- The struct `inject_task_t`.  The enum fields are kept as numbers because a
header read back from the ring buffer may carry any value.  The union member
`p_data_u8` is the raw pointer value; the bytes it points to are handed to the
functions that dereference it. -/
structure inject_task where
  type : Nat
  data_len : Nat
  lang : Nat
  delay_ms : Nat
  p_data_u8 : Nat
deriving DecidableEq, Repr

/-- The value of `sizeof(inject_task_t)` on the 32-bit target: five 4-byte members. -/
def sizeof_inject_task_t : Nat := 20

/-- The four bytes of a 32-bit word, least significant first. -/
def le32 (n : Nat) : List Nat :=
  [n % 256, n / 256 % 256, n / 65536 % 256, n / 16777216 % 256]

/-- The 32-bit word stored at byte offset `off` of `bs` (absent bytes read as zero). -/
def le32_at (bs : List Nat) (off : Nat) : Nat :=
  bs.getD off 0 + 256 * bs.getD (off + 1) 0 + 65536 * bs.getD (off + 2) 0
    + 16777216 * bs.getD (off + 3) 0

/-- The object representation of an `inject_task_t`: what `(uint8_t *) &task` points to. -/
def task_bytes (t : inject_task) : List Nat :=
  le32 t.type ++ le32 t.data_len ++ le32 t.lang ++ le32 t.delay_ms ++ le32 t.p_data_u8

/-- The `inject_task_t` whose object representation is `bs`. -/
def task_of_bytes (bs : List Nat) : inject_task :=
  { type := le32_at bs 0
    data_len := le32_at bs 4
    lang := le32_at bs 8
    delay_ms := le32_at bs 12
    p_data_u8 := le32_at bs 16 }

/-- A header whose members are representable in their C types. -/
def inject_task.wf (t : inject_task) : Prop :=
  t.type < 4294967296 ∧ t.data_len < 4294967296 ∧ t.lang < 4294967296 ∧
    t.delay_ms < 4294967296 ∧ t.p_data_u8 < 4294967296

instance (t : inject_task) : Decidable t.wf := by
  unfold inject_task.wf; infer_instance

/-! ## The byte ring buffer (`ringbuf.h`) -/

/-- Modelled from the spec: `ringbuf.h`/`ringbuf.c` (type `ringbuf_t`, macro
`RINGBUF_DEF`) are not among the sources.  The spec's TaskBuffer is "a
fixed-capacity (32 KiB) circular byte log" with a write cursor and "two read
cursors": "a consume cursor (advanced by pop) and a peek cursor (advanced by
peek, restorable to the consume cursor)".  The cursors count bytes (the source
names them `wr_idx` and `peek_rd_idx`); a byte with running index `i` lives in
cell `i % 32768`. -/
structure ringbuf where
  p_buffer : Nat → Nat
  wr_idx : Nat
  rd_idx : Nat
  peek_rd_idx : Nat

/-- The result of a `ringbuf_push_data` call: return code, buffer, and the
length written back through `p_length`. -/
structure ringbuf_push_out where
  err : Nat
  rb : ringbuf
  len : Nat

/-- The result of a `ringbuf_fetch_data`/`ringbuf_peek_data` call: return
code, buffer, destination memory, and the length written back through
`p_length`. -/
structure ringbuf_read_out where
  err : Nat
  rb : ringbuf
  dst : List Nat
  len : Nat

/-- Store the bytes `bs` into the cells of running indices `idx, idx+1, ...`. -/
def write_bytes (mem : Nat → Nat) (idx : Nat) : List Nat → Nat → Nat
  | [] => mem
  | b :: bs =>
    write_bytes (fun i => if i = idx % INJECT_RINGBUF_BYTES then b % 256 else mem i) (idx + 1) bs

/-- The `n` bytes held by the cells of running indices `idx, idx+1, ...`. -/
def read_bytes (mem : Nat → Nat) (idx : Nat) : Nat → List Nat
  | 0 => []
  | n + 1 => mem (idx % INJECT_RINGBUF_BYTES) :: read_bytes mem (idx + 1) n

/-- The first `n` bytes of the source memory `src` (bytes past its end read as zero). -/
def src_bytes (src : List Nat) (n : Nat) : List Nat :=
  (src ++ List.replicate (n - src.length) 0).take n

/-- Modelled from the spec: `ringbuf_available_fetch` is not among the sources.
It is the spec's "available capacity (to the next wrap boundary plus free
region)": the capacity minus the bytes pushed and not yet consumed; the
flushed buffer has "available capacity = 32768". -/
def ringbuf_available_fetch (rb : ringbuf) : Nat :=
  INJECT_RINGBUF_BYTES - (rb.wr_idx - rb.rd_idx)

/-- Modelled from the spec: `ringbuf_available_peek` is not among the sources.
The same quantity seen from the peek cursor: the capacity minus the bytes
pushed and not yet peeked. -/
def ringbuf_available_peek (rb : ringbuf) : Nat :=
  INJECT_RINGBUF_BYTES - (rb.wr_idx - rb.peek_rd_idx)

/-- Modelled from the spec: `ringbuf_push_data` is not among the sources.  It
appends up to `len` bytes of `p_data` at the write cursor, limited by the
available capacity, and reports the number of bytes written. -/
def ringbuf_push_data (rb : ringbuf) (p_data : List Nat) (len : Nat) : ringbuf_push_out :=
  let n := min len (ringbuf_available_fetch rb)
  { err := NRF_SUCCESS
    rb := { rb with p_buffer := write_bytes rb.p_buffer rb.wr_idx (src_bytes p_data n)
                    wr_idx := rb.wr_idx + n }
    len := n }

/-- Modelled from the spec: `ringbuf_fetch_data` is not among the sources.  It
copies up to `len` stored bytes from the consume cursor into `dst`, advances
the consume cursor past them and reports the number of bytes copied.  "The
peek cursor never trails the consume cursor". -/
def ringbuf_fetch_data (rb : ringbuf) (dst : List Nat) (len : Nat) : ringbuf_read_out :=
  let n := min len (rb.wr_idx - rb.rd_idx)
  { err := NRF_SUCCESS
    rb := { rb with rd_idx := rb.rd_idx + n
                    peek_rd_idx := max rb.peek_rd_idx (rb.rd_idx + n) }
    dst := read_bytes rb.p_buffer rb.rd_idx n ++ dst.drop n
    len := n }

/-- Modelled from the spec: `ringbuf_peek_data` is not among the sources.  It
copies up to `len` stored bytes from the peek cursor into `dst` "without
advancing the consume cursor; advances the peek cursor". -/
def ringbuf_peek_data (rb : ringbuf) (dst : List Nat) (len : Nat) : ringbuf_read_out :=
  let n := min len (rb.wr_idx - rb.peek_rd_idx)
  { err := NRF_SUCCESS
    rb := { rb with peek_rd_idx := rb.peek_rd_idx + n }
    dst := read_bytes rb.p_buffer rb.peek_rd_idx n ++ dst.drop n
    len := n }

/-- Modelled from the spec: `ringbuf_peek_rewind` is not among the sources.
It "snaps the peek cursor back to the consume cursor". -/
def ringbuf_peek_rewind (rb : ringbuf) : ringbuf :=
  { rb with peek_rd_idx := rb.rd_idx }

/-- Modelled from the spec: `ringbuf_reset` is not among the sources.  It
"resets both cursors; discards all queued tasks", returning the buffer "to its
just-constructed state (available capacity = 32768)". -/
def ringbuf_reset (rb : ringbuf) : ringbuf :=
  { rb with wr_idx := 0, rd_idx := 0, peek_rd_idx := 0 }

/-- The cursors of a buffer are consistent: the peek cursor lies between the
consume cursor and the write cursor, and at most 32768 bytes are stored. -/
def ringbuf.wf (rb : ringbuf) : Prop :=
  rb.rd_idx ≤ rb.peek_rd_idx ∧ rb.peek_rd_idx ≤ rb.wr_idx ∧
    rb.wr_idx ≤ rb.rd_idx + INJECT_RINGBUF_BYTES

/-! ## Task buffer operations -/

/-- The error line `push_task` logs before it returns false. -/
inductive push_error where
  | too_large
  | no_space
  | short_header
  | header_error
  | short_data
deriving DecidableEq, Repr

/-- The result of `push_task`: return value, the buffer, and the logged error. -/
structure push_out where
  ret : Bool
  rb : ringbuf
  log : Option push_error

/-- Source: `bool push_task(inject_task_t task)`.  `p_data` is the memory
`task.p_data_u8` points to. -/
def push_task (rb : ringbuf) (task : inject_task) (p_data : List Nat) : push_out :=
  let len_hdr := sizeof_inject_task_t
  let len_data := task.data_len
  let len := len_hdr + len_data
  if len_data > INJECT_MAX_TASK_DATA_SIZE then
    { ret := false, rb := rb, log := some push_error.too_large }
  else if len > ringbuf_available_fetch rb then
    { ret := false, rb := rb, log := some push_error.no_space }
  else
    let r1 := ringbuf_push_data rb (task_bytes task) len_hdr
    if r1.len ≠ sizeof_inject_task_t then
      { ret := false, rb := r1.rb, log := some push_error.short_header }
    else if r1.err ≠ NRF_SUCCESS then
      { ret := false, rb := r1.rb, log := some push_error.header_error }
    else if len_data > 0 then
      let r2 := ringbuf_push_data r1.rb p_data len_data
      if r2.len ≠ task.data_len then
        { ret := false, rb := r2.rb, log := some push_error.short_data }
      else
        { ret := true, rb := r2.rb, log := none }
    else
      { ret := true, rb := r1.rb, log := none }

/-- The C library's `strlen`: the number of bytes before the first NUL. -/
def strlen (str : List Nat) : Nat :=
  (str.takeWhile (fun c => c != 0)).length

/-- Source: `bool push_task_string(logitacker_keyboard_map_lang_t lang, char * str)`.
`p_str` is the pointer value and `str` the memory it points to. -/
def push_task_string (rb : ringbuf) (lang : Nat) (p_str : Nat) (str : List Nat) : push_out :=
  let tmp_task : inject_task :=
    { type := INJECT_TASK_TYPE_TYPE_STRING
      data_len := strlen str + 1
      lang := lang
      delay_ms := 0
      p_data_u8 := p_str }
  push_task rb tmp_task str

/-- Source: `bool push_task_delay(uint32_t delay_ms)`. -/
def push_task_delay (rb : ringbuf) (delay_ms : Nat) : push_out :=
  let tmp_task : inject_task :=
    { type := INJECT_TASK_TYPE_DELAY
      data_len := 0
      lang := 0
      delay_ms := delay_ms
      p_data_u8 := 0 }
  push_task rb tmp_task []

/-- Source: `bool push_task_press(logitacker_keyboard_map_lang_t lang, char * str_combo)`. -/
def push_task_press (rb : ringbuf) (lang : Nat) (p_str : Nat) (str_combo : List Nat) :
    push_out :=
  let tmp_task : inject_task :=
    { type := INJECT_TASK_TYPE_PRESS_KEYS
      data_len := strlen str_combo + 1
      lang := lang
      delay_ms := 0
      p_data_u8 := p_str }
  push_task rb tmp_task str_combo

/-- Source: `bool flush_tasks()`. -/
def flush_tasks (rb : ringbuf) : ringbuf :=
  ringbuf_reset rb

/-- The result of `pop_task`/`peek_task`: return value, the buffer, and the
contents of the two out-parameters. -/
structure task_out where
  ret : Bool
  rb : ringbuf
  task : inject_task
  data_buf : List Nat

/-- Source: the tail of `pop_task` at `label_error_flush_ringbuf`. -/
def label_error_flush_ringbuf (rb : ringbuf) (p_task : inject_task) (buf : List Nat) :
    task_out :=
  { ret := false
    rb := flush_tasks rb
    task := { p_task with data_len := 0, delay_ms := 0, type := INJECT_TASK_TYPE_DELAY }
    data_buf := buf }

/-- Source: `bool pop_task(inject_task_t * p_task, uint8_t * p_task_data_buf)`.
`p_task` is the previous content of `*p_task`, `p_task_data_buf` the pointer
value and `buf` the previous content of the memory it points to. -/
def pop_task (rb : ringbuf) (p_task : inject_task) (p_task_data_buf : Nat) (buf : List Nat) :
    task_out :=
  if ringbuf_available_fetch rb = INJECT_RINGBUF_BYTES then
    label_error_flush_ringbuf rb p_task buf
  else
    let r1 := ringbuf_fetch_data rb (task_bytes p_task) sizeof_inject_task_t
    let t1 := task_of_bytes r1.dst
    if r1.len ≠ sizeof_inject_task_t then
      label_error_flush_ringbuf r1.rb t1 buf
    else if r1.err ≠ NRF_SUCCESS then
      label_error_flush_ringbuf r1.rb t1 buf
    else
      let t2 := { t1 with p_data_u8 := p_task_data_buf }
      if t2.data_len > INJECT_MAX_TASK_DATA_SIZE then
        label_error_flush_ringbuf r1.rb t2 buf
      else
        let r2 := ringbuf_fetch_data r1.rb buf t2.data_len
        if r2.len ≠ t2.data_len then
          label_error_flush_ringbuf r2.rb t2 r2.dst
        else if r2.err ≠ NRF_SUCCESS then
          label_error_flush_ringbuf r2.rb t2 r2.dst
        else
          { ret := true, rb := r2.rb, task := t2, data_buf := r2.dst }

/-- Source: the tail of `peek_task` at `label_reset_peek`. -/
def label_reset_peek (rb : ringbuf) (p_task : inject_task) (buf : List Nat) : task_out :=
  { ret := false
    rb := ringbuf_peek_rewind rb
    task := { p_task with data_len := 0, delay_ms := 0, type := INJECT_TASK_TYPE_DELAY }
    data_buf := buf }

/-- Source: `bool peek_task(inject_task_t * p_task, uint8_t * p_task_data_buf)`. -/
def peek_task (rb : ringbuf) (p_task : inject_task) (p_task_data_buf : Nat) (buf : List Nat) :
    task_out :=
  if ringbuf_available_peek rb = INJECT_RINGBUF_BYTES then
    label_reset_peek rb p_task buf
  else
    let r1 := ringbuf_peek_data rb (task_bytes p_task) sizeof_inject_task_t
    let t1 := task_of_bytes r1.dst
    if r1.len ≠ sizeof_inject_task_t then
      label_reset_peek r1.rb t1 buf
    else if r1.err ≠ NRF_SUCCESS then
      label_reset_peek r1.rb t1 buf
    else
      let t2 := { t1 with p_data_u8 := p_task_data_buf }
      if t2.data_len > INJECT_MAX_TASK_DATA_SIZE then
        label_reset_peek r1.rb t2 buf
      else
        let r2 := ringbuf_peek_data r1.rb buf t2.data_len
        if r2.len ≠ t2.data_len then
          label_reset_peek r2.rb t2 r2.dst
        else if r2.err ≠ NRF_SUCCESS then
          label_reset_peek r2.rb t2 r2.dst
        else
          { ret := true, rb := r2.rb, task := t2, data_buf := r2.dst }

/-! ## The injection engine -/

/-- The enum `inject_state_t`. -/
inductive inject_state where
  | INJECT_STATE_IDLE
  | INJECT_STATE_WORKING
  | INJECT_STATE_SUCCEEDED
  | INJECT_STATE_FAILED
  | INJECT_STATE_NOT_INITIALIZED
deriving DecidableEq, Repr

open inject_state

/-- The SDK struct `nrf_esb_payload_t` (declared in `nrf_esb.h`, not among the
sources): a radio frame. -/
structure nrf_esb_payload where
  length : Nat
  pipe : Nat
  rssi : Nat
  noack : Bool
  pid : Nat
  data : List Nat
deriving DecidableEq, Repr

/-- The radio event ids the handler of the source switches on (`nrf_esb_evt_id_t`). -/
inductive nrf_esb_evt_id where
  | NRF_ESB_EVENT_TX_SUCCESS
  | NRF_ESB_EVENT_TX_SUCCESS_ACK_PAY
  | NRF_ESB_EVENT_TX_FAILED
  | NRF_ESB_EVENT_RX_RECEIVED
deriving DecidableEq, Repr

open nrf_esb_evt_id

/-- Modelled from the spec: `logitacker_tx_payload_provider.h` is not among the
sources.  A provider is "an abstraction with two operations: `reset` (return to
the beginning of its frame sequence) and `next(out frame) → bool` (fill
`frame`; return false when exhausted)"; "implementations hold their own cursor
state".  `p_ctx` is that state, of an arbitrary type `σ`; the two function
members are the struct's function pointers. -/
structure logitacker_tx_payload_provider (σ : Type) where
  p_ctx : σ
  p_get_next : σ → nrf_esb_payload → Bool × σ × nrf_esb_payload
  p_reset : σ → σ

/-- The radio modes the source file selects (`nrf_esb_mode_t`). -/
inductive nrf_esb_mode where
  | NRF_ESB_MODE_PTX
  | NRF_ESB_MODE_PROMISCOUS
deriving DecidableEq, Repr

/-- The TX power the source file selects (`nrf_esb_tx_power_t`). -/
inductive nrf_esb_tx_power where
  | NRF_ESB_TX_POWER_8DBM
deriving DecidableEq, Repr

/-- The calls the engine makes to its collaborators (timer, radio, provider),
in program order, together with two kinds of bookkeeping records: the two
`NRF_LOG_INFO` callback placeholders of `transfer_state`, and every store to
the `state` member. -/
inductive effect where
  | app_timer_stop
  | app_timer_start (ms : Nat)
  | nrf_esb_start_tx
  | nrf_esb_flush_rx
  | nrf_esb_write_payload (p : nrf_esb_payload)
  | new_payload_provider_string
  | new_payload_provider_press
  | p_get_next (ret : Bool)
  | p_reset
  | log_inject_task_succeeded
  | log_inject_task_failed
  | state_store (s : inject_state)
  | radio_disable_rx_timeout_event
  | radio_stop_channel_hopping
  | nrf_esb_stop_rx
  | nrf_esb_enable_pipes (enable_mask : Nat)
  | nrf_esb_set_base_address_0 (p_addr : List Nat)
  | nrf_esb_update_prefix (pipe : Nat) (prefix_byte : Nat)
  | nrf_esb_set_mode (mode : nrf_esb_mode)
  | nrf_esb_enable_all_channel_tx_failover (enabled : Bool)
  | nrf_esb_set_all_channel_tx_failover_loop_count (loop_count : Nat)
  | nrf_esb_set_retransmit_count (count : Nat)
  | nrf_esb_set_retransmit_delay (delay : Nat)
  | nrf_esb_set_tx_power (tx_output_power : nrf_esb_tx_power)
deriving DecidableEq, Repr

/-- The struct `logitacker_processor_inject_ctx_t`.  `logitacker_mainstate` is
the object `p_logitacker_mainstate` points to, `p_device` an opaque handle,
and `p_payload_provider = none` the NULL pointer. -/
structure logitacker_processor_inject_ctx (σ : Type) where
  logitacker_mainstate : Nat
  current_rf_address : List Nat
  base_addr : List Nat
  prefix_byte : Nat
  tx_delay_ms : Nat
  timer_next_action : Nat
  state : inject_state
  tmp_tx_payload : nrf_esb_payload
  retransmit_counter : Int
  execute : Bool
  current_task : inject_task
  current_task_data : List Nat
  p_device : Nat
  p_payload_provider : Option (logitacker_tx_payload_provider σ)

/-- The collaborators of the engine that are outside the source file: the two
provider constructors, the checksum helper, and the address of the member
array `current_task_data` of the static context. -/
structure inject_env (σ : Type) where
  new_payload_provider_string : Nat → Nat → List Nat → logitacker_tx_payload_provider σ
  new_payload_provider_press : Nat → Nat → List Nat → logitacker_tx_payload_provider σ
  unifying_payload_update_checksum : List Nat → Nat → List Nat
  p_current_task_data : Nat

/-- The collaborators of construction, initialisation and teardown that are
outside the source file: the two values of `logitacker_mainstate_t` the file
stores, the address helper, the device inventory lookup (0 is NULL) and the
address of the file's static `tmp_device`. -/
structure inject_lifecycle_env where
  LOGITACKER_MAINSTATE_INJECT : Nat
  LOGITACKER_MAINSTATE_IDLE : Nat
  helper_addr_to_base_and_prefix : List Nat → List Nat × Nat
  logitacker_devices_get_device : List Nat → Nat
  p_tmp_device : Nat

/-- The program state the engine works on: the context `*self`, the file
globals `m_ringbuf` and `m_ringbuf_initialized`, and the calls made so far. -/
structure inject_world (σ : Type) where
  self : logitacker_processor_inject_ctx σ
  m_ringbuf : ringbuf
  m_ringbuf_initialized : Bool
  trace : List effect

/-- Record a call. -/
def inject_world.emit {σ : Type} (w : inject_world σ) (e : effect) : inject_world σ :=
  { w with trace := w.trace ++ [e] }

/-- The statement `self->state = s;`. -/
def inject_world.set_state {σ : Type} (w : inject_world σ) (s : inject_state) :
    inject_world σ :=
  { w with self := { w.self with state := s }, trace := w.trace ++ [effect.state_store s] }

/-- The statement `self->retransmit_counter = 0;`. -/
def inject_world.zero_counter {σ : Type} (w : inject_world σ) : inject_world σ :=
  { w with self := { w.self with retransmit_counter := 0 } }

/-- Call `p_get_next` of the current (non-NULL) provider `p` on `tmp_tx_payload`. -/
def inject_world.call_get_next {σ : Type} (w : inject_world σ)
    (p : logitacker_tx_payload_provider σ) : Bool × inject_world σ :=
  let r := p.p_get_next p.p_ctx w.self.tmp_tx_payload
  (r.1,
   { w with
     self := { w.self with
               p_payload_provider := some { p with p_ctx := r.2.1 }
               tmp_tx_payload := r.2.2 }
     trace := w.trace ++ [effect.p_get_next r.1] })

/-- Source: `if (self->p_payload_provider != NULL)
(*self->p_payload_provider->p_reset)(self->p_payload_provider);`. -/
def inject_world.reset_payload_provider {σ : Type} (w : inject_world σ) : inject_world σ :=
  match w.self.p_payload_provider with
  | some p =>
    { w with
      self := { w.self with p_payload_provider := some { p with p_ctx := p.p_reset p.p_ctx } }
      trace := w.trace ++ [effect.p_reset] }
  | none => w

/-- Source: the two `if` statements that end `transfer_state`, for the cases
that set both `reset_payload_provider` and `run_next_task`.  `rnt` is
`logitacker_processor_inject_run_next_task`. -/
def transfer_state_finish {σ : Type} (rnt : inject_world σ → Option (inject_world σ))
    (w : inject_world σ) : Option (inject_world σ) :=
  let w1 := w.reset_payload_provider
  if w1.self.execute then rnt w1 else some w1

/-- Source: `void transfer_state(logitacker_processor_inject_ctx_t *self,
inject_state_t new_state)`, with its callee
`logitacker_processor_inject_run_next_task` as the argument `rnt`. -/
def transfer_state_with {σ : Type} (rnt : inject_world σ → Option (inject_world σ))
    (w : inject_world σ) (new_state : inject_state) : Option (inject_world σ) :=
  if new_state = w.self.state then some w
  else
    match new_state with
    | INJECT_STATE_IDLE =>
      let w1 := (w.emit effect.app_timer_stop).zero_counter
      let w2 := (w1.set_state new_state).set_state new_state
      let w3 := { w2 with self := { w2.self with execute := false } }
      transfer_state_finish rnt w3
    | INJECT_STATE_SUCCEEDED =>
      let w1 := ((w.emit effect.log_inject_task_succeeded).emit effect.app_timer_stop).zero_counter
      transfer_state_finish rnt (w1.set_state INJECT_STATE_IDLE)
    | INJECT_STATE_FAILED =>
      let w1 := ((w.emit effect.log_inject_task_failed).emit effect.app_timer_stop).zero_counter
      transfer_state_finish rnt (w1.set_state INJECT_STATE_IDLE)
    | _ => some (w.set_state new_state)

/-- Source: `logitacker_processor_inject_process_task_string`. -/
def process_task_string_with {σ : Type} (env : inject_env σ)
    (rnt : inject_world σ → Option (inject_world σ)) (w : inject_world σ) :
    Option (inject_world σ) :=
  let p := env.new_payload_provider_string w.self.p_device w.self.current_task.lang
    w.self.current_task_data
  let r := (w.emit effect.new_payload_provider_string).call_get_next p
  if !r.1 then transfer_state_with rnt r.2 INJECT_STATE_FAILED
  else
    (transfer_state_with rnt r.2 INJECT_STATE_WORKING).map
      (fun w1 => w1.emit (effect.app_timer_start w1.self.tx_delay_ms))

/-- Source: `logitacker_processor_inject_process_task_press`. -/
def process_task_press_with {σ : Type} (env : inject_env σ)
    (rnt : inject_world σ → Option (inject_world σ)) (w : inject_world σ) :
    Option (inject_world σ) :=
  let p := env.new_payload_provider_press w.self.p_device w.self.current_task.lang
    w.self.current_task_data
  let r := (w.emit effect.new_payload_provider_press).call_get_next p
  if !r.1 then transfer_state_with rnt r.2 INJECT_STATE_FAILED
  else
    (transfer_state_with rnt r.2 INJECT_STATE_WORKING).map
      (fun w1 => w1.emit (effect.app_timer_start w1.self.tx_delay_ms))

/-- Source: `logitacker_processor_inject_process_task_delay`. -/
def process_task_delay_with {σ : Type} (rnt : inject_world σ → Option (inject_world σ))
    (w : inject_world σ) : Option (inject_world σ) :=
  let w1 := { w with self := { w.self with p_payload_provider := none } }
  if w1.self.current_task.delay_ms = 0 then transfer_state_with rnt w1 INJECT_STATE_SUCCEEDED
  else
    (transfer_state_with rnt w1 INJECT_STATE_WORKING).map
      (fun w2 => w2.emit (effect.app_timer_start w2.self.current_task.delay_ms))

/-- Source: the call `peek_task(&self->current_task, self->current_task_data)`. -/
def inject_world.call_peek_task {σ : Type} (env : inject_env σ) (w : inject_world σ) :
    Bool × inject_world σ :=
  let r := peek_task w.m_ringbuf w.self.current_task env.p_current_task_data
    w.self.current_task_data
  (r.ret,
   { w with
     m_ringbuf := r.rb
     self := { w.self with current_task := r.task, current_task_data := r.data_buf } })

/-- Source: the statements of `logitacker_processor_inject_run_next_task` that
follow a failed `peek_task`, after the `transfer_state(self, INJECT_STATE_IDLE)`. -/
def inject_world.end_of_script {σ : Type} (w : inject_world σ) : inject_world σ :=
  { w with
    m_ringbuf := ringbuf_peek_rewind w.m_ringbuf
    self := { w.self with execute := false } }

/-- Source: `logitacker_processor_inject_run_next_task`.  The recursion
through `transfer_state` is bounded by the first argument; `none` means the
bound was too small. -/
def run_next_task_fuel {σ : Type} (env : inject_env σ) :
    Nat → inject_world σ → Option (inject_world σ)
  | 0, _ => none
  | fuel + 1, w =>
    if w.self.state ≠ INJECT_STATE_IDLE then some w
    else
      let r := w.call_peek_task env
      if !r.1 then
        (transfer_state_with (run_next_task_fuel env fuel) r.2 INJECT_STATE_IDLE).map
          inject_world.end_of_script
      else if r.2.self.current_task.type = INJECT_TASK_TYPE_PRESS_KEYS then
        process_task_press_with env (run_next_task_fuel env fuel) r.2
      else if r.2.self.current_task.type = INJECT_TASK_TYPE_TYPE_STRING then
        process_task_string_with env (run_next_task_fuel env fuel) r.2
      else if r.2.self.current_task.type = INJECT_TASK_TYPE_DELAY then
        process_task_delay_with (run_next_task_fuel env fuel) r.2
      else
        transfer_state_with (run_next_task_fuel env fuel) r.2 INJECT_STATE_FAILED

/-- A recursion bound that is always large enough: every nested call of
`run_next_task` follows a successful peek, which moves the peek cursor at
least one header closer to the write cursor. -/
def run_next_task_bound (rb : ringbuf) : Nat :=
  rb.wr_idx - rb.peek_rd_idx + 1

/-- Source: `void logitacker_processor_inject_run_next_task(
logitacker_processor_inject_ctx_t *self)`. -/
def logitacker_processor_inject_run_next_task {σ : Type} (env : inject_env σ)
    (w : inject_world σ) : Option (inject_world σ) :=
  run_next_task_fuel env (run_next_task_bound w.m_ringbuf) w

/-- Source: `void transfer_state(logitacker_processor_inject_ctx_t *self,
inject_state_t new_state)`. -/
def transfer_state {σ : Type} (env : inject_env σ) (w : inject_world σ)
    (new_state : inject_state) : Option (inject_world σ) :=
  transfer_state_with (logitacker_processor_inject_run_next_task env) w new_state

/-- Source: the `NRF_ESB_EVENT_TX_SUCCESS` case of the radio handler. -/
def esb_tx_success {σ : Type} (env : inject_env σ) (w : inject_world σ) :
    Option (inject_world σ) :=
  let w1 := w.zero_counter
  match w1.self.p_payload_provider with
  | none => transfer_state env w1 INJECT_STATE_IDLE
  | some p =>
    let r := w1.call_get_next p
    if r.1 then some (r.2.emit (effect.app_timer_start r.2.self.tx_delay_ms))
    else transfer_state env r.2 INJECT_STATE_SUCCEEDED

/-- Source: the `switch (p_esb_event->evt_id)` of the radio handler. -/
def esb_handler_switch {σ : Type} (env : inject_env σ) (w : inject_world σ)
    (evt_id : nrf_esb_evt_id) : Option (inject_world σ) :=
  match evt_id with
  | NRF_ESB_EVENT_TX_FAILED =>
    let w1 := w.emit effect.nrf_esb_start_tx
    some { w1 with self := { w1.self with retransmit_counter := w1.self.retransmit_counter + 1 } }
  | NRF_ESB_EVENT_TX_SUCCESS_ACK_PAY => esb_tx_success env (w.emit effect.nrf_esb_flush_rx)
  | NRF_ESB_EVENT_TX_SUCCESS => esb_tx_success env w
  | NRF_ESB_EVENT_RX_RECEIVED => some w

/-- Source: `void processor_inject_esb_handler_func_(
logitacker_processor_inject_ctx_t *self, nrf_esb_evt_t *p_esb_event)`. -/
def processor_inject_esb_handler_func_ {σ : Type} (env : inject_env σ) (w : inject_world σ)
    (evt_id : nrf_esb_evt_id) : Option (inject_world σ) :=
  (if w.self.retransmit_counter ≥ (INJECT_RETRANSMIT_BEFORE_FAIL : Int) then
      transfer_state env w INJECT_STATE_FAILED
    else some w).bind fun w1 =>
  if w1.self.state = INJECT_STATE_FAILED then transfer_state env w1 INJECT_STATE_IDLE
  else esb_handler_switch env w1 evt_id

/-- Source: `void processor_inject_timer_handler_func_(
logitacker_processor_inject_ctx_t *self, void *p_timer_ctx)`. -/
def processor_inject_timer_handler_func_ {σ : Type} (env : inject_env σ)
    (w : inject_world σ) : Option (inject_world σ) :=
  if w.self.state = INJECT_STATE_WORKING then
    if w.self.current_task.type = INJECT_TASK_TYPE_DELAY then
      transfer_state env w INJECT_STATE_SUCCEEDED
    else if w.self.current_task.type = INJECT_TASK_TYPE_PRESS_KEYS ∨
        w.self.current_task.type = INJECT_TASK_TYPE_TYPE_STRING then
      let pay : nrf_esb_payload :=
        { w.self.tmp_tx_payload with
          data := env.unifying_payload_update_checksum w.self.tmp_tx_payload.data
            w.self.tmp_tx_payload.length }
      let w1 : inject_world σ := { w with self := { w.self with tmp_tx_payload := pay } }
      some (w1.emit (effect.nrf_esb_write_payload pay))
    else some w
  else some w

/-- Source: the two statements that end each of
`logitacker_processor_inject_string`, `_press` and `_delay`. -/
def inject_autostart {σ : Type} (env : inject_env σ) (w : inject_world σ) :
    Option (inject_world σ) :=
  if w.self.state = INJECT_STATE_IDLE then
    if w.self.execute then logitacker_processor_inject_run_next_task env w else some w
  else some w

/-- Source: `void logitacker_processor_inject_string(logitacker_processor_t *
p_processor_inject, logitacker_keyboard_map_lang_t lang, char * str)`. -/
def logitacker_processor_inject_string {σ : Type} (env : inject_env σ) (w : inject_world σ)
    (lang : Nat) (p_str : Nat) (str : List Nat) : Option (inject_world σ) :=
  inject_autostart env { w with m_ringbuf := (push_task_string w.m_ringbuf lang p_str str).rb }

/-- Source: `void logitacker_processor_inject_press(logitacker_processor_t *
p_processor_inject, logitacker_keyboard_map_lang_t lang, char * combo_str)`. -/
def logitacker_processor_inject_press {σ : Type} (env : inject_env σ) (w : inject_world σ)
    (lang : Nat) (p_str : Nat) (combo_str : List Nat) : Option (inject_world σ) :=
  inject_autostart env
    { w with m_ringbuf := (push_task_press w.m_ringbuf lang p_str combo_str).rb }

/-- Source: `void logitacker_processor_inject_delay(logitacker_processor_t *
p_processor_inject, uint32_t delay_ms)`. -/
def logitacker_processor_inject_delay {σ : Type} (env : inject_env σ) (w : inject_world σ)
    (delay_ms : Nat) : Option (inject_world σ) :=
  inject_autostart env { w with m_ringbuf := (push_task_delay w.m_ringbuf delay_ms).rb }

/-- Source: `void logitacker_processor_inject_clear_tasks(logitacker_processor_t *
p_processor_inject)`. -/
def logitacker_processor_inject_clear_tasks {σ : Type} (w : inject_world σ) : inject_world σ :=
  { w with m_ringbuf := ringbuf_reset w.m_ringbuf }

/-- Source: `void logitacker_processor_inject_start_execution(logitacker_processor_t *
p_processor_inject, bool execute)`. -/
def logitacker_processor_inject_start_execution {σ : Type} (env : inject_env σ)
    (w : inject_world σ) (execute : Bool) : Option (inject_world σ) :=
  let w1 : inject_world σ := { w with self := { w.self with execute := execute } }
  if w1.self.execute then logitacker_processor_inject_run_next_task env w1 else some w1

/-- Source: `void processor_inject_bsp_handler_func_(
logitacker_processor_inject_ctx_t *self, bsp_event_t event)`: "do nothing". -/
def processor_inject_bsp_handler_func_ {σ : Type} (w : inject_world σ) : inject_world σ :=
  w

/-- An all-zero `nrf_esb_payload_t`, as after `memset(&payload, 0, sizeof(payload))`. -/
def nrf_esb_payload_zero : nrf_esb_payload :=
  { length := 0, pipe := 0, rssi := 0, noack := false, pid := 0, data := List.replicate 32 0 }

/-- Record the calls of `es`, in order. -/
def inject_world.emit_all {σ : Type} (w : inject_world σ) (es : List effect) : inject_world σ :=
  { w with trace := w.trace ++ es }

/-- Source: `void processor_inject_init_func_(logitacker_processor_inject_ctx_t *self)`. -/
def processor_inject_init_func_ {σ : Type} (lenv : inject_lifecycle_env) (w : inject_world σ) :
    inject_world σ :=
  let bp := lenv.helper_addr_to_base_and_prefix w.self.current_rf_address
  let w1 : inject_world σ :=
    { w with
      self := { w.self with
                logitacker_mainstate := lenv.LOGITACKER_MAINSTATE_INJECT
                tx_delay_ms := INJECT_TX_DELAY_MS
                base_addr := bp.1
                prefix_byte := bp.2 } }
  let w2 := w1.emit_all
    [effect.radio_disable_rx_timeout_event, effect.radio_stop_channel_hopping,
     effect.nrf_esb_stop_rx, effect.nrf_esb_enable_pipes 0,
     effect.nrf_esb_set_base_address_0 bp.1, effect.nrf_esb_update_prefix 0 bp.2,
     effect.nrf_esb_enable_pipes 1]
  let w3 : inject_world σ :=
    { w2 with self := { w2.self with tmp_tx_payload := nrf_esb_payload_zero } }
  let w4 := (w3.set_state INJECT_STATE_IDLE).zero_counter
  w4.emit_all
    [effect.nrf_esb_set_mode nrf_esb_mode.NRF_ESB_MODE_PTX,
     effect.nrf_esb_enable_all_channel_tx_failover true,
     effect.nrf_esb_set_all_channel_tx_failover_loop_count 2,
     effect.nrf_esb_set_retransmit_count 1,
     effect.nrf_esb_set_retransmit_delay 250,
     effect.nrf_esb_set_tx_power nrf_esb_tx_power.NRF_ESB_TX_POWER_8DBM]

/-- Source: `void processor_inject_deinit_func_(logitacker_processor_inject_ctx_t *self)`. -/
def processor_inject_deinit_func_ {σ : Type} (lenv : inject_lifecycle_env)
    (w : inject_world σ) : inject_world σ :=
  let w1 : inject_world σ :=
    { w with self := { w.self with logitacker_mainstate := lenv.LOGITACKER_MAINSTATE_IDLE } }
  let w2 := w1.emit_all
    [effect.radio_disable_rx_timeout_event, effect.radio_stop_channel_hopping,
     effect.nrf_esb_stop_rx,
     effect.nrf_esb_set_mode nrf_esb_mode.NRF_ESB_MODE_PROMISCOUS,
     effect.nrf_esb_enable_pipes 0]
  let w3 : inject_world σ :=
    { w2 with
      self := { w2.self with
                prefix_byte := 0
                base_addr := List.replicate 4 0
                current_rf_address := List.replicate 5 0
                tmp_tx_payload := nrf_esb_payload_zero } }
  let w4 := (w3.set_state INJECT_STATE_NOT_INITIALIZED).zero_counter
  let w5 : inject_world σ := { w4 with m_ringbuf := flush_tasks w4.m_ringbuf }
  w5.emit (effect.nrf_esb_enable_all_channel_tx_failover false)

/-- Source: `logitacker_processor_t * new_processor_inject(uint8_t const
*target_rf_address, app_timer_id_t timer_next_action)`.  The `memset` makes the
pointer `p_logitacker_mainstate` NULL; the object it pointed to is not
touched. -/
def new_processor_inject {σ : Type} (lenv : inject_lifecycle_env) (w : inject_world σ)
    (target_rf_address : List Nat) (timer_next_action : Nat) : inject_world σ :=
  let rb := if !w.m_ringbuf_initialized then ringbuf_reset w.m_ringbuf else w.m_ringbuf
  let addr := src_bytes target_rf_address 5
  let dev := lenv.logitacker_devices_get_device addr
  { w with
    m_ringbuf := rb
    m_ringbuf_initialized := true
    self :=
      { logitacker_mainstate := w.self.logitacker_mainstate
        current_rf_address := addr
        base_addr := List.replicate 4 0
        prefix_byte := 0
        tx_delay_ms := 0
        timer_next_action := timer_next_action
        state := INJECT_STATE_IDLE
        tmp_tx_payload := nrf_esb_payload_zero
        retransmit_counter := 0
        execute := false
        current_task := { type := 0, data_len := 0, lang := 0, delay_ms := 0, p_data_u8 := 0 }
        current_task_data := List.replicate INJECT_MAX_TASK_DATA_SIZE 0
        p_device := if dev = 0 then lenv.p_tmp_device else dev
        p_payload_provider := none } }

/-! ## The script listing -/

/-- The colours the listing passes to `nrf_cli_fprintf`. -/
inductive nrf_cli_color where
  | NRF_CLI_DEFAULT
  | NRF_CLI_VT100_COLOR_GREEN
  | NRF_CLI_VT100_COLOR_YELLOW
deriving DecidableEq, Repr

/-- One `nrf_cli_fprintf` call: the colour and the formatted text. -/
structure cli_chunk where
  color : nrf_cli_color
  text : String
deriving DecidableEq, Repr

/-- The decimal digit `d % 10` as a character. -/
def digit_char (d : Nat) : Char :=
  Char.ofNat (48 + d % 10)

/-- The conversion `%04d` of a task number: four digits, zero-padded, and the
plain decimal number from 10000 on. -/
def fmt_04d (n : Nat) : String :=
  if n < 10000 then
    String.mk [digit_char (n / 1000), digit_char (n / 100), digit_char (n / 10), digit_char n]
  else Nat.repr n

/-- The conversion `%d` of a 32-bit argument, which is read as a signed `int`. -/
def fmt_d (n : Nat) : String :=
  if n % 4294967296 < 2147483648 then Nat.repr (n % 4294967296)
  else String.mk [Char.ofNat 45] ++ Nat.repr (4294967296 - n % 4294967296)

/-- The conversion `%s` of the memory `buf`: the bytes before the first NUL. -/
def fmt_s (buf : List Nat) : String :=
  String.mk ((buf.takeWhile (fun c => c != 0)).map Char.ofNat)

/-- Source: the body of the `while` loop of
`logitacker_processor_inject_list_tasks`, without the `task_num++`: what is
printed for the task just peeked. -/
def list_tasks_entry (task : inject_task) (task_data : List Nat) (task_num : Nat) :
    List cli_chunk :=
  { color := nrf_cli_color.NRF_CLI_DEFAULT, text := fmt_04d task_num ++ ": inject " } ::
    (if task.type = INJECT_TASK_TYPE_DELAY then
      [{ color := nrf_cli_color.NRF_CLI_VT100_COLOR_YELLOW, text := "delay " },
       { color := nrf_cli_color.NRF_CLI_DEFAULT, text := fmt_d task.delay_ms ++ "\r\n" }]
    else if task.type = INJECT_TASK_TYPE_TYPE_STRING then
      [{ color := nrf_cli_color.NRF_CLI_VT100_COLOR_YELLOW, text := "string " },
       { color := nrf_cli_color.NRF_CLI_DEFAULT, text := fmt_s task_data ++ "\r\n" }]
    else if task.type = INJECT_TASK_TYPE_PRESS_KEYS then
      [{ color := nrf_cli_color.NRF_CLI_VT100_COLOR_YELLOW, text := "press " },
       { color := nrf_cli_color.NRF_CLI_DEFAULT, text := fmt_s task_data ++ "\r\n" }]
    else
      [{ color := nrf_cli_color.NRF_CLI_DEFAULT,
         text := fmt_04d task_num ++ ": unknown task type " ++ fmt_d task.type ++ "\r\n" }])

/-- Source: the `while (peek_task(&task, task_data))` loop of
`logitacker_processor_inject_list_tasks`.  The first argument bounds the number
of iterations; `none` means the bound was too small.  (`task_num` is a
`uint32_t`; it stays far below its range, since a task takes at least 20 of the
32768 bytes.) -/
def list_tasks_loop (p_task_data : Nat) :
    Nat → ringbuf → inject_task → List Nat → Nat → List cli_chunk →
      Option (ringbuf × List cli_chunk)
  | 0, _, _, _, _, _ => none
  | fuel + 1, rb, task, task_data, task_num, out =>
    let r := peek_task rb task p_task_data task_data
    if r.ret then
      list_tasks_loop p_task_data fuel r.rb r.task r.data_buf (task_num + 1)
        (out ++ list_tasks_entry r.task r.data_buf task_num)
    else some (r.rb, out)

/-- Source: `void logitacker_processor_inject_list_tasks(logitacker_processor_t
*p_processor_inject, nrf_cli_t const * p_cli)`.  `p_task_data` is the address
of the local array `task_data` and `task_data` its content on entry (it is not
initialised); the result is the program state and the text printed. -/
def logitacker_processor_inject_list_tasks {σ : Type} (w : inject_world σ)
    (p_task_data : Nat) (task_data : List Nat) : Option (inject_world σ × List cli_chunk) :=
  let rb1 := ringbuf_peek_rewind w.m_ringbuf
  (list_tasks_loop p_task_data (run_next_task_bound rb1) rb1
      { type := 0, data_len := 0, lang := 0, delay_ms := 0, p_data_u8 := 0 } task_data 1
      [{ color := nrf_cli_color.NRF_CLI_VT100_COLOR_GREEN, text := "script start\r\n" }]).map
    (fun r =>
      ({ w with m_ringbuf := ringbuf_peek_rewind r.1 },
       r.2 ++ [{ color := nrf_cli_color.NRF_CLI_VT100_COLOR_GREEN, text := "script end\r\n" }]))

/-! ## Notions used to state the properties -/

/-- The stored bytes from running index `s` up to the write cursor, in push order. -/
def ringbuf.bytes_from (rb : ringbuf) (s : Nat) : List Nat :=
  read_bytes rb.p_buffer s (rb.wr_idx - s)

/-- A task as the caller of `push_task` holds it: the header and the payload
memory its `p_data_u8` points to. -/
abbrev queued_task : Type := inject_task × List Nat

/-- The header is representable, and the payload memory holds exactly
`data_len` bytes. -/
def queued_task.wf (td : queued_task) : Prop :=
  td.1.wf ∧ td.2.length = td.1.data_len ∧ ∀ b ∈ td.2, b < 256

/-- The serialized form of a list of tasks: each header followed by its payload. -/
def tasks_bytes : List queued_task → List Nat
  | [] => []
  | td :: ts => task_bytes td.1 ++ td.2 ++ tasks_bytes ts

/-- Push the tasks one after the other; `none` as soon as one push returns false. -/
def push_tasks (rb : ringbuf) : List queued_task → Option ringbuf
  | [] => some rb
  | td :: ts =>
    if (push_task rb td.1 td.2).ret then push_tasks (push_task rb td.1 td.2).rb ts else none

/-- The results of `n` successive `pop_task` calls on the same out-parameters. -/
def pop_tasks : Nat → ringbuf → inject_task → Nat → List Nat → List task_out
  | 0, _, _, _, _ => []
  | n + 1, rb, p_task, p_task_data_buf, buf =>
    let r := pop_task rb p_task p_task_data_buf buf
    r :: pop_tasks n r.rb r.task p_task_data_buf r.data_buf

/-- The results of `n` successive `peek_task` calls on the same out-parameters. -/
def peek_tasks : Nat → ringbuf → inject_task → Nat → List Nat → List task_out
  | 0, _, _, _, _ => []
  | n + 1, rb, p_task, p_task_data_buf, buf =>
    let r := peek_task rb p_task p_task_data_buf buf
    r :: peek_tasks n r.rb r.task p_task_data_buf r.data_buf

/-- What the caller gets from one `pop_task`/`peek_task` call: nothing when it
returned false, else kind, language, delay, payload length and the payload. -/
def task_out.view (r : task_out) : Option (Nat × Nat × Nat × Nat × List Nat) :=
  if r.ret then
    some (r.task.type, r.task.lang, r.task.delay_ms, r.task.data_len,
      r.data_buf.take r.task.data_len)
  else none

/-- The same view of a task that was pushed. -/
def queued_task.view (td : queued_task) : Option (Nat × Nat × Nat × Nat × List Nat) :=
  some (td.1.type, td.1.lang, td.1.delay_ms, td.1.data_len, td.2)

/-- The total size of a list of tasks in the buffer: for each task the header
size `sizeof(inject_task_t)` plus its `data_len`. -/
def tasks_size : List queued_task → Nat
  | [] => 0
  | td :: ts => sizeof_inject_task_t + td.1.data_len + tasks_size ts

/-- The `data_len` member of the header stored at running index `s`. -/
def stored_data_len (rb : ringbuf) (s : Nat) : Nat :=
  le32_at (read_bytes rb.p_buffer s sizeof_inject_task_t) 4

/-- The four conditions under which reading a task at cursor `s` fails: nothing
is stored from `s` on, fewer bytes than a header are stored, the stored
`data_len` exceeds the maximum, or fewer than `data_len` bytes follow the
header. -/
def framing_fault (rb : ringbuf) (s : Nat) : Prop :=
  rb.wr_idx - s = 0 ∨ rb.wr_idx - s < sizeof_inject_task_t ∨
    stored_data_len rb s > INJECT_MAX_TASK_DATA_SIZE ∨
    rb.wr_idx - (s + sizeof_inject_task_t) < stored_data_len rb s

instance (rb : ringbuf) (s : Nat) : Decidable (framing_fault rb s) := by
  unfold framing_fault; infer_instance

/-- What a call of `run_next_task` made in state Idle with `execute` set
guarantees about its result `r`: the consume cursor, the write cursor and the
stored bytes are those of the start `w`; a zero retransmit counter stays zero;
and the engine is either Working on a task with `execute` still set, or Idle
at the end of the script with `execute` cleared and the peek cursor rewound. -/
def run_next_task_post {σ : Type} (w r : inject_world σ) : Prop :=
  r.m_ringbuf.rd_idx = w.m_ringbuf.rd_idx ∧
  r.m_ringbuf.wr_idx = w.m_ringbuf.wr_idx ∧
  r.m_ringbuf.p_buffer = w.m_ringbuf.p_buffer ∧
  (w.self.retransmit_counter = 0 → r.self.retransmit_counter = 0) ∧
  ((r.self.state = INJECT_STATE_WORKING ∧ r.self.execute = true) ∨
   (r.self.state = INJECT_STATE_IDLE ∧ r.self.execute = false ∧
      r.m_ringbuf.peek_rd_idx = r.m_ringbuf.rd_idx))

/-- The radio handler run on a sequence of events, one call per event. -/
def processor_inject_esb_events {σ : Type} (env : inject_env σ) :
    inject_world σ → List nrf_esb_evt_id → Option (inject_world σ)
  | w, [] => some w
  | w, e :: es =>
    (processor_inject_esb_handler_func_ env w e).bind
      (fun w1 => processor_inject_esb_events env w1 es)

/-- What the listing prints for the queued tasks `ts`, numbered from `task_num` on. -/
def list_entries : List queued_task → Nat → List cli_chunk
  | [], _ => []
  | td :: ts, task_num => list_tasks_entry td.1 td.2 task_num ++ list_entries ts (task_num + 1)

/-- The payload of a task that is printed with `%s` holds its terminating NUL. -/
def queued_task.printable (td : queued_task) : Prop :=
  td.1.type = INJECT_TASK_TYPE_TYPE_STRING ∨ td.1.type = INJECT_TASK_TYPE_PRESS_KEYS → 0 ∈ td.2

/-- The first line of a listing. -/
def script_start : cli_chunk :=
  { color := nrf_cli_color.NRF_CLI_VT100_COLOR_GREEN, text := "script start\r\n" }

/-- The last line of a listing. -/
def script_end : cli_chunk :=
  { color := nrf_cli_color.NRF_CLI_VT100_COLOR_GREEN, text := "script end\r\n" }

/-- An entry into the engine: a public operation, a lifecycle callback, a timer
expiry, a radio event or a button event. -/
inductive inject_op where
  | inject_string (lang : Nat) (p_str : Nat) (str : List Nat)
  | inject_press (lang : Nat) (p_str : Nat) (combo_str : List Nat)
  | inject_delay (delay_ms : Nat)
  | list_tasks (p_task_data : Nat) (task_data : List Nat)
  | clear_tasks
  | start_execution (execute : Bool)
  | timer_handler
  | esb_handler (evt_id : nrf_esb_evt_id)
  | bsp_handler
  | init
  | deinit

/-- Run one entry into the engine to its return. -/
def inject_step {σ : Type} (env : inject_env σ) (lenv : inject_lifecycle_env)
    (w : inject_world σ) : inject_op → Option (inject_world σ)
  | inject_op.inject_string lang p_str str =>
    logitacker_processor_inject_string env w lang p_str str
  | inject_op.inject_press lang p_str combo_str =>
    logitacker_processor_inject_press env w lang p_str combo_str
  | inject_op.inject_delay delay_ms => logitacker_processor_inject_delay env w delay_ms
  | inject_op.list_tasks p_task_data task_data =>
    (logitacker_processor_inject_list_tasks w p_task_data task_data).map (fun r => r.1)
  | inject_op.clear_tasks => some (logitacker_processor_inject_clear_tasks w)
  | inject_op.start_execution execute =>
    logitacker_processor_inject_start_execution env w execute
  | inject_op.timer_handler => processor_inject_timer_handler_func_ env w
  | inject_op.esb_handler evt_id => processor_inject_esb_handler_func_ env w evt_id
  | inject_op.bsp_handler => some (processor_inject_bsp_handler_func_ w)
  | inject_op.init => some (processor_inject_init_func_ lenv w)
  | inject_op.deinit => some (processor_inject_deinit_func_ lenv w)

/-- Run a sequence of entries into the engine, each to its return. -/
def inject_run {σ : Type} (env : inject_env σ) (lenv : inject_lifecycle_env) :
    inject_world σ → List inject_op → Option (inject_world σ)
  | w, [] => some w
  | w, op :: ops => (inject_step env lenv w op).bind (fun w1 => inject_run env lenv w1 ops)

/-- The state member holds one of the three values an entry into the engine
can leave behind, and the retransmit counter lies between 0 and the budget. -/
def inject_world.at_rest {σ : Type} (w : inject_world σ) : Prop :=
  (w.self.state = INJECT_STATE_IDLE ∨ w.self.state = INJECT_STATE_WORKING ∨
    w.self.state = INJECT_STATE_NOT_INITIALIZED) ∧
  0 ≤ w.self.retransmit_counter ∧
  w.self.retransmit_counter ≤ (INJECT_RETRANSMIT_BEFORE_FAIL : Int)

instance {σ : Type} (w : inject_world σ) : Decidable w.at_rest := by
  unfold inject_world.at_rest; infer_instance

/-- What `transfer_state` to Succeeded or to Failed does to the context before
it looks at `execute`: the callback placeholder line, the timer stop, the
counter, the state, and the provider reset. -/
def inject_world.task_done {σ : Type} (w : inject_world σ) (new_state : inject_state) :
    inject_world σ :=
  ((((w.emit (if new_state = INJECT_STATE_SUCCEEDED then effect.log_inject_task_succeeded
      else effect.log_inject_task_failed)).emit effect.app_timer_stop).zero_counter).set_state
    INJECT_STATE_IDLE).reset_payload_provider

/-- What a transition of the engine guarantees about its result `r`, whatever
the state `w` it starts from: the consume cursor, the write cursor and the
stored bytes stay, and the retransmit counter is zeroed or stays. -/
def transition_post {σ : Type} (w r : inject_world σ) : Prop :=
  r.m_ringbuf.rd_idx = w.m_ringbuf.rd_idx ∧
  r.m_ringbuf.wr_idx = w.m_ringbuf.wr_idx ∧
  r.m_ringbuf.p_buffer = w.m_ringbuf.p_buffer ∧
  (r.self.retransmit_counter = 0 ∨ r.self.retransmit_counter = w.self.retransmit_counter)

/-- The state in which the statements of the `NRF_ESB_EVENT_TX_SUCCESS` case
start: after the `nrf_esb_flush_rx()` of the `NRF_ESB_EVENT_TX_SUCCESS_ACK_PAY`
case for that event, the state as it is for every other event. -/
def inject_world.tx_success_entry {σ : Type} (w : inject_world σ) (evt_id : nrf_esb_evt_id) :
    inject_world σ :=
  if evt_id = NRF_ESB_EVENT_TX_SUCCESS_ACK_PAY then w.emit effect.nrf_esb_flush_rx else w

/-- Whenever the engine is Idle, its execute flag is false. -/
def inject_world.idle_paused {σ : Type} (w : inject_world σ) : Prop :=
  w.self.state = INJECT_STATE_IDLE → w.self.execute = false

instance {σ : Type} (w : inject_world σ) : Decidable w.idle_paused := by
  unfold inject_world.idle_paused; infer_instance

/-- The number of tasks that successive `peek_task` calls return, starting at
the peek cursor; the first argument bounds the number of calls. -/
def tasks_ahead : Nat → ringbuf → Nat
  | 0, _ => 0
  | fuel + 1, rb =>
    let r := peek_task rb { type := 0, data_len := 0, lang := 0, delay_ms := 0, p_data_u8 := 0 }
      0 []
    if r.ret then 1 + tasks_ahead fuel r.rb else 0

/-- The number of tasks between the peek cursor and the write cursor: how many
times in a row `peek_task` returns true.  A task takes at least the 20 bytes of
its header, so the number of bytes is bound enough. -/
def ringbuf.queued_ahead (rb : ringbuf) : Nat :=
  tasks_ahead (rb.wr_idx - rb.peek_rd_idx) rb

/-- The entries into the engine that run a script: `start_execution`, a timer
expiry and a radio event. -/
def inject_op.runs_script : inject_op → Bool
  | inject_op.start_execution _ => true
  | inject_op.timer_handler => true
  | inject_op.esb_handler _ => true
  | _ => false

/-! ## Concrete inputs used to exercise the theorems -/

/-- A flushed buffer over zeroed memory. -/
def example_flushed : ringbuf :=
  { p_buffer := fun _ => 0, wr_idx := 0, rd_idx := 0, peek_rd_idx := 0 }

/-- An empty buffer whose cursors stand eight bytes before the wrap boundary. -/
def example_near_wrap : ringbuf :=
  { p_buffer := fun _ => 0, wr_idx := 32760, rd_idx := 32760, peek_rd_idx := 32760 }

/-- A buffer holding five stray bytes: less than a header. -/
def example_short_header : ringbuf :=
  { p_buffer := fun _ => 0, wr_idx := 5, rd_idx := 0, peek_rd_idx := 0 }

/-- The task `string "hi"` with language tag 7. -/
def example_string_task : queued_task :=
  ({ type := INJECT_TASK_TYPE_TYPE_STRING, data_len := 3, lang := 7, delay_ms := 0,
     p_data_u8 := 1000 }, [104, 105, 0])

/-- The task `delay 500`. -/
def example_delay_task : queued_task :=
  ({ type := INJECT_TASK_TYPE_DELAY, data_len := 0, lang := 0, delay_ms := 500,
     p_data_u8 := 0 }, [])

/-- The task `delay 0`. -/
def example_delay_zero : inject_task :=
  { type := INJECT_TASK_TYPE_DELAY, data_len := 0, lang := 0, delay_ms := 0, p_data_u8 := 0 }

/-- A string task with a payload of `n` bytes (`n - 1` letters are not spelled
out: the payload memory is `n` times the letter A). -/
def example_sized_task (n : Nat) : queued_task :=
  ({ type := INJECT_TASK_TYPE_TYPE_STRING, data_len := n, lang := 0, delay_ms := 0,
     p_data_u8 := 1000 }, List.replicate n 65)

/-- An all-zero `inject_task_t`, as after `inject_task_t task = {0}`. -/
def example_zero_task : inject_task :=
  { type := 0, data_len := 0, lang := 0, delay_ms := 0, p_data_u8 := 0 }

/-- A 256-byte scratch buffer. -/
def example_scratch : List Nat := List.replicate 256 0

/-- A provider that hands out `n` frames; its state is the number of frames left. -/
def example_provider (n : Nat) : logitacker_tx_payload_provider Nat :=
  { p_ctx := n
    p_get_next := fun c pay => (decide (0 < c), c - 1, pay)
    p_reset := fun _ => n }

/-- Collaborators for the examples: two frames per character or combo. -/
def example_env : inject_env Nat :=
  { new_payload_provider_string := fun _ _ data => example_provider (2 * strlen data)
    new_payload_provider_press := fun _ _ _ => example_provider 2
    unifying_payload_update_checksum := fun data _ => data
    p_current_task_data := 0 }

/-- An initialised, idle engine with an empty queue. -/
def example_world : inject_world Nat :=
  { self :=
      { logitacker_mainstate := 0
        current_rf_address := [1, 2, 3, 4, 5]
        base_addr := [4, 3, 2, 1]
        prefix_byte := 5
        tx_delay_ms := INJECT_TX_DELAY_MS
        timer_next_action := 0
        state := INJECT_STATE_IDLE
        tmp_tx_payload := { length := 0, pipe := 0, rssi := 0, noack := false, pid := 0, data := [] }
        retransmit_counter := 0
        execute := false
        current_task := example_zero_task
        current_task_data := example_scratch
        p_device := 0
        p_payload_provider := none }
    m_ringbuf := example_flushed
    m_ringbuf_initialized := true
    trace := [] }

/-- The example engine while it works on the queued task `string "x"`: the
state after `inject string x` and `inject execute`. -/
def example_working : Option (inject_world Nat) :=
  (logitacker_processor_inject_string example_env example_world 0 1000 [120, 0]).bind
    (fun w => logitacker_processor_inject_start_execution example_env w true)

/-- A buffer with 32760 bytes in use: less than a header is free. -/
def example_almost_full : ringbuf :=
  { p_buffer := fun _ => 0, wr_idx := 32760, rd_idx := 0, peek_rd_idx := 0 }

/-- The example engine in state Working on a peeked `delay 500` task, with
`execute` set and the timer running. -/
def example_delay_working : inject_world Nat :=
  { example_world with
    self := { example_world.self with
              state := INJECT_STATE_WORKING
              execute := true
              current_task := example_delay_task.1 }
    m_ringbuf := (peek_task (push_task_delay example_flushed 500).rb example_zero_task 0
      example_scratch).rb }

/-- The example engine in state Working on a peeked `string "x"` task whose
provider has no frame left. -/
def example_string_working : inject_world Nat :=
  { example_world with
    self := { example_world.self with
              state := INJECT_STATE_WORKING
              execute := true
              current_task := { example_string_task.1 with data_len := 2 }
              p_payload_provider := some (example_provider 0) }
    m_ringbuf := (peek_task (push_task_string example_flushed 0 1000 [120, 0]).rb
      example_zero_task 0 example_scratch).rb }

/-- Collaborators of construction and initialisation for the examples. -/
def example_lifecycle_env : inject_lifecycle_env :=
  { LOGITACKER_MAINSTATE_INJECT := 5
    LOGITACKER_MAINSTATE_IDLE := 0
    helper_addr_to_base_and_prefix := fun addr => ((addr.take 4).reverse, addr.getD 4 0)
    logitacker_devices_get_device := fun _ => 0
    p_tmp_device := 4096 }

/-- A freshly constructed and initialised engine. -/
def example_initialised : inject_world Nat :=
  processor_inject_init_func_ example_lifecycle_env
    (new_processor_inject example_lifecycle_env example_world [1, 2, 3, 4, 5] 0)

/-- The example queue of the spec: `delay 100`, `string hi`, `press GUI+L`. -/
def example_script : List queued_task :=
  [({ type := INJECT_TASK_TYPE_DELAY, data_len := 0, lang := 0, delay_ms := 100,
      p_data_u8 := 0 }, []),
   ({ type := INJECT_TASK_TYPE_TYPE_STRING, data_len := 3, lang := 0, delay_ms := 0,
      p_data_u8 := 1000 }, [104, 105, 0]),
   ({ type := INJECT_TASK_TYPE_PRESS_KEYS, data_len := 6, lang := 0, delay_ms := 0,
      p_data_u8 := 1000 }, [71, 85, 73, 43, 76, 0])]

/-- The example engine with the example queue stored and the peek cursor left
behind the first task. -/
def example_listing_world : inject_world Nat :=
  { example_world with
    m_ringbuf :=
      (peek_task
        (push_task_press (push_task_string (push_task_delay example_flushed 100).rb 0 1000
          [104, 105, 0]).rb 0 1000 [71, 85, 73, 43, 76, 0]).rb
        example_zero_task 0 example_scratch).rb }

/-- The example engine paused while it works on `string "x"`: Working, the
provider exhausted, `execute` cleared. -/
def example_paused : inject_world Nat :=
  { example_string_working with
    self := { example_string_working.self with execute := false } }

/-- The example engine paused while it works on `delay 500`. -/
def example_delay_paused : inject_world Nat :=
  { example_delay_working with
    self := { example_delay_working.self with execute := false } }

/-- The example engine in state Working on a peeked `string "x"` task whose
provider has one frame left, with two retransmissions counted. -/
def example_string_sending : inject_world Nat :=
  { example_string_working with
    self := { example_string_working.self with
              retransmit_counter := 2
              p_payload_provider := some (example_provider 1) } }

/-- The example engine, idle, with the one task `delay 500` queued. -/
def example_delay_queued : inject_world Nat :=
  { example_world with m_ringbuf := (push_task_delay example_flushed 500).rb }

/-- The example engine, idle, with the one task `string "x"` queued. -/
def example_string_queued : inject_world Nat :=
  { example_world with m_ringbuf := (push_task_string example_flushed 0 1000 [120, 0]).rb }

/-- The example engine, idle, with one queued task whose kind is none of the
three. -/
def example_unknown_queued : inject_world Nat :=
  { example_world with
    m_ringbuf := (push_task example_flushed { example_zero_task with type := 9 } []).rb }

/-- A buffer holding 40 bytes whose first header is corrupt: its `data_len`
field reads 768. -/
def example_corrupt : ringbuf :=
  { p_buffer := fun i => if i = 5 then 3 else 0, wr_idx := 40, rd_idx := 0, peek_rd_idx := 0 }

/-- The example engine, idle, over a buffer that holds five stray bytes. -/
def example_short_header_world : inject_world Nat :=
  { example_world with m_ringbuf := example_short_header }

/-- The example engine in state Working on `string "x"` with the retransmit
budget used up: ten retransmissions counted. -/
def example_budget_spent : inject_world Nat :=
  { example_string_working with
    self := { example_string_working.self with retransmit_counter := 10 } }

/-- A provider that hands out `n` frames which can be told apart: frame `k`
(counted from 1) carries the data bytes `[tag, k]`; its state is the number of
frames handed out. -/
def example_numbered_provider (tag n : Nat) : logitacker_tx_payload_provider Nat :=
  { p_ctx := 0
    p_get_next := fun c pay =>
      if c < n then (true, c + 1, { pay with data := [tag, c + 1] }) else (false, c, pay)
    p_reset := fun _ => 0 }

/-- Collaborators for the examples whose frames can be told apart: two frames
per character of a string, tagged with the first character, and two frames per
combo. -/
def example_numbered_env : inject_env Nat :=
  { new_payload_provider_string := fun _ _ data =>
      example_numbered_provider (data.headD 0) (2 * strlen data)
    new_payload_provider_press := fun _ _ data => example_numbered_provider (data.headD 0) 2
    unifying_payload_update_checksum := fun data _ => data
    p_current_task_data := 0 }

/-! ## Bytes, headers and the ring buffer -/

theorem task_of_bytes_task_bytes (t : inject_task) (h : t.wf) (l : List Nat) :
    task_of_bytes (task_bytes t ++ l) = t := by
  obtain ⟨a, b, c, d, e⟩ := t
  obtain ⟨h1, h2, h3, h4, h5⟩ := h
  simp only [task_of_bytes, task_bytes, le32, le32_at, List.append_assoc, List.cons_append,
    List.nil_append, List.getD_cons_zero, List.getD_cons_succ, inject_task.mk.injEq] at *
  refine ⟨?_, ?_, ?_, ?_, ?_⟩ <;> omega

theorem length_task_bytes (t : inject_task) : (task_bytes t).length = 20 := by
  simp [task_bytes, le32]

theorem map_mod_task_bytes (t : inject_task) :
    (task_bytes t).map (fun b => b % 256) = task_bytes t := by
  simp [task_bytes, le32]

theorem length_src_bytes (src : List Nat) (n : Nat) : (src_bytes src n).length = n := by
  simp [src_bytes]
  omega

theorem src_bytes_length (src : List Nat) : src_bytes src src.length = src := by
  simp [src_bytes]

theorem length_read_bytes (mem : Nat → Nat) (n : Nat) :
    ∀ idx, (read_bytes mem idx n).length = n := by
  induction n with
  | zero => intro idx; rfl
  | succ n ih => intro idx; simp [read_bytes, ih]

theorem read_bytes_add (mem : Nat → Nat) (a b : Nat) :
    ∀ idx, read_bytes mem idx (a + b) = read_bytes mem idx a ++ read_bytes mem (idx + a) b := by
  induction a with
  | zero => intro idx; simp [read_bytes]
  | succ a ih =>
    intro idx
    have h : a + 1 + b = (a + b) + 1 := by omega
    rw [h]
    simp only [read_bytes, List.cons_append, ih (idx + 1)]
    have h2 : idx + 1 + a = idx + (a + 1) := by omega
    rw [h2]

theorem read_bytes_congr (m1 m2 : Nat → Nat) (n : Nat) :
    ∀ idx, (∀ k, k < n → m1 ((idx + k) % INJECT_RINGBUF_BYTES) = m2 ((idx + k) % INJECT_RINGBUF_BYTES)) →
      read_bytes m1 idx n = read_bytes m2 idx n := by
  induction n with
  | zero => intro idx _; rfl
  | succ n ih =>
    intro idx h
    simp only [read_bytes]
    have h0 := h 0 (by omega)
    simp only [Nat.add_zero] at h0
    rw [h0, ih (idx + 1)]
    intro k hk
    have := h (k + 1) (by omega)
    have e : idx + (k + 1) = idx + 1 + k := by omega
    rw [e] at this
    exact this

theorem write_bytes_other (bs : List Nat) :
    ∀ (mem : Nat → Nat) (idx j : Nat),
      (∀ k, k < bs.length → (idx + k) % INJECT_RINGBUF_BYTES ≠ j) →
      write_bytes mem idx bs j = mem j := by
  induction bs with
  | nil => intro mem idx j _; rfl
  | cons b bs ih =>
    intro mem idx j h
    simp only [write_bytes]
    rw [ih]
    · have h0 := h 0 (by simp)
      simp only [Nat.add_zero] at h0
      simp [Ne.symm h0]
    · intro k hk
      have := h (k + 1) (by simp; omega)
      have e : idx + (k + 1) = idx + 1 + k := by omega
      rw [e] at this
      exact this

theorem read_write_same (bs : List Nat) :
    ∀ (mem : Nat → Nat) (idx : Nat), bs.length ≤ INJECT_RINGBUF_BYTES →
      read_bytes (write_bytes mem idx bs) idx bs.length = bs.map (fun b => b % 256) := by
  induction bs with
  | nil => intro mem idx _; rfl
  | cons b bs ih =>
    intro mem idx h
    simp only [List.length_cons] at h
    simp only [List.length_cons, read_bytes, write_bytes, List.map_cons]
    rw [ih _ _ (by omega), write_bytes_other]
    · simp
    · intro k hk
      simp only [INJECT_RINGBUF_BYTES] at *
      omega

theorem read_write_frame (bs : List Nat) (mem : Nat → Nat) (w r n : Nat)
    (h1 : r + n ≤ w) (h2 : w + bs.length ≤ r + INJECT_RINGBUF_BYTES) :
    read_bytes (write_bytes mem w bs) r n = read_bytes mem r n := by
  apply read_bytes_congr
  intro k hk
  apply write_bytes_other
  intro k2 hk2
  simp only [INJECT_RINGBUF_BYTES] at *
  omega

theorem ringbuf_push_data_full (rb : ringbuf) (src : List Nat) (len : Nat)
    (hrd : rb.rd_idx ≤ rb.wr_idx) (hcap : rb.wr_idx ≤ rb.rd_idx + INJECT_RINGBUF_BYTES)
    (hlen : len ≤ ringbuf_available_fetch rb) :
    (ringbuf_push_data rb src len).len = len ∧
    (ringbuf_push_data rb src len).err = NRF_SUCCESS ∧
    (ringbuf_push_data rb src len).rb.wr_idx = rb.wr_idx + len ∧
    (ringbuf_push_data rb src len).rb.rd_idx = rb.rd_idx ∧
    (ringbuf_push_data rb src len).rb.peek_rd_idx = rb.peek_rd_idx ∧
    ∀ s, rb.rd_idx ≤ s → s ≤ rb.wr_idx →
      (ringbuf_push_data rb src len).rb.bytes_from s =
        rb.bytes_from s ++ (src_bytes src len).map (fun b => b % 256) := by
  have hmin : min len (ringbuf_available_fetch rb) = len := Nat.min_eq_left hlen
  simp only [ringbuf_push_data, hmin, ringbuf.bytes_from, true_and]
  intro s hs1 hs2
  simp only [ringbuf_available_fetch, INJECT_RINGBUF_BYTES] at hlen hcap
  have e : rb.wr_idx + len - s = (rb.wr_idx - s) + len := by omega
  rw [e, read_bytes_add]
  have e2 : s + (rb.wr_idx - s) = rb.wr_idx := by omega
  rw [e2]
  congr 1
  · apply read_write_frame
    · omega
    · simp only [length_src_bytes, INJECT_RINGBUF_BYTES]; omega
  · have := read_write_same (src_bytes src len) rb.p_buffer rb.wr_idx
      (by simp only [length_src_bytes, INJECT_RINGBUF_BYTES]; omega)
    rw [length_src_bytes] at this
    exact this

theorem push_task_accepts (rb : ringbuf) (task : inject_task) (p_data : List Nat)
    (hrd : rb.rd_idx ≤ rb.wr_idx) (hcap : rb.wr_idx ≤ rb.rd_idx + INJECT_RINGBUF_BYTES)
    (h1 : task.data_len ≤ INJECT_MAX_TASK_DATA_SIZE)
    (h2 : sizeof_inject_task_t + task.data_len ≤ ringbuf_available_fetch rb) :
    (push_task rb task p_data).ret = true ∧
    (push_task rb task p_data).log = none ∧
    (push_task rb task p_data).rb.wr_idx = rb.wr_idx + sizeof_inject_task_t + task.data_len ∧
    (push_task rb task p_data).rb.rd_idx = rb.rd_idx ∧
    (push_task rb task p_data).rb.peek_rd_idx = rb.peek_rd_idx ∧
    ∀ s, rb.rd_idx ≤ s → s ≤ rb.wr_idx →
      (push_task rb task p_data).rb.bytes_from s =
        rb.bytes_from s ++ task_bytes task ++
          (src_bytes p_data task.data_len).map (fun b => b % 256) := by
  have a1 := ringbuf_push_data_full rb (task_bytes task) sizeof_inject_task_t hrd hcap
    (by omega)
  obtain ⟨l1, e1, w1, r1, p1, b1⟩ := a1
  have hav : ringbuf_available_fetch (ringbuf_push_data rb (task_bytes task) sizeof_inject_task_t).rb
      = ringbuf_available_fetch rb - sizeof_inject_task_t := by
    simp only [ringbuf_available_fetch, w1, r1]
    simp only [ringbuf_available_fetch] at h2
    omega
  have a2 := ringbuf_push_data_full
    (ringbuf_push_data rb (task_bytes task) sizeof_inject_task_t).rb p_data task.data_len
    (by rw [w1, r1]; omega)
    (by rw [w1, r1]; simp only [ringbuf_available_fetch] at h2; omega) (by rw [hav]; omega)
  obtain ⟨l2, e2, w2, r2, p2, b2⟩ := a2
  have hsrc : src_bytes (task_bytes task) sizeof_inject_task_t = task_bytes task := by
    have := src_bytes_length (task_bytes task)
    rw [length_task_bytes] at this
    exact this
  unfold push_task
  simp only [gt_iff_lt, Nat.not_lt.mpr h1, if_false, Nat.not_lt.mpr h2, l1, e1, ne_eq,
    not_true_eq_false]
  by_cases hz : 0 < task.data_len
  · simp only [hz, if_true, l2, not_true_eq_false, if_false, true_and, w2, w1, r2, r1, p2, p1]
    intro s hs1 hs2
    rw [b2 s (by rw [r1]; exact hs1) (by rw [w1]; omega), b1 s hs1 hs2, hsrc,
      map_mod_task_bytes]
  · simp only [hz, if_false, true_and, w1, r1, p1]
    have hz0 : task.data_len = 0 := by omega
    refine ⟨by omega, ?_⟩
    intro s hs1 hs2
    rw [b1 s hs1 hs2, hsrc, map_mod_task_bytes, hz0]
    simp [src_bytes]

theorem push_task_ret_true (rb : ringbuf) (task : inject_task) (p_data : List Nat)
    (h : (push_task rb task p_data).ret = true) :
    task.data_len ≤ INJECT_MAX_TASK_DATA_SIZE ∧
      sizeof_inject_task_t + task.data_len ≤ ringbuf_available_fetch rb := by
  unfold push_task at h
  by_cases h1 : task.data_len > INJECT_MAX_TASK_DATA_SIZE
  · simp [h1] at h
  by_cases h2 : sizeof_inject_task_t + task.data_len > ringbuf_available_fetch rb
  · simp [h1, h2] at h
  exact ⟨by omega, by omega⟩

theorem read_bytes_split (mem : Nat → Nat) (idx n m : Nat) (A B : List Nat)
    (h : read_bytes mem idx (n + m) = A ++ B) (hA : A.length = n) :
    read_bytes mem idx n = A ∧ read_bytes mem (idx + n) m = B := by
  rw [read_bytes_add] at h
  exact List.append_inj h (by rw [length_read_bytes, hA])

theorem bytes_from_split (rb : ringbuf) (s : Nat) (t : inject_task) (d rest : List Nat)
    (hs : s ≤ rb.wr_idx)
    (h : rb.bytes_from s = task_bytes t ++ d ++ rest) :
    rb.wr_idx - s = sizeof_inject_task_t + d.length + rest.length ∧
    read_bytes rb.p_buffer s sizeof_inject_task_t = task_bytes t ∧
    read_bytes rb.p_buffer (s + sizeof_inject_task_t) d.length = d ∧
    read_bytes rb.p_buffer (s + sizeof_inject_task_t + d.length)
      (rb.wr_idx - (s + sizeof_inject_task_t + d.length)) = rest := by
  have hl := congrArg List.length h
  simp only [ringbuf.bytes_from, length_read_bytes, List.length_append, length_task_bytes] at hl
  simp only [ringbuf.bytes_from] at h
  have e : rb.wr_idx - s = 20 + (d.length + rest.length) := by omega
  rw [e, List.append_assoc] at h
  obtain ⟨h1, h2⟩ := read_bytes_split _ _ _ _ _ _ h (length_task_bytes t)
  obtain ⟨h3, h4⟩ := read_bytes_split _ _ _ _ _ _ h2 rfl
  refine ⟨by simp only [sizeof_inject_task_t]; omega, h1, h3, ?_⟩
  have e2 : rb.wr_idx - (s + sizeof_inject_task_t + d.length) = rest.length := by
    simp only [sizeof_inject_task_t]; omega
  rw [e2]
  exact h4

theorem drop_task_bytes (p : inject_task) : (task_bytes p).drop sizeof_inject_task_t = [] := by
  simp [task_bytes, le32, sizeof_inject_task_t]

theorem pop_task_head_eq (rb : ringbuf) (t : inject_task) (d rest : List Nat)
    (p_task : inject_task) (p_task_data_buf : Nat) (buf : List Nat)
    (hrd : rb.rd_idx ≤ rb.wr_idx)
    (h : rb.bytes_from rb.rd_idx = task_bytes t ++ d ++ rest)
    (ht : t.wf) (hd : d.length = t.data_len) (hmax : t.data_len ≤ INJECT_MAX_TASK_DATA_SIZE) :
    pop_task rb p_task p_task_data_buf buf =
      { ret := true
        rb := { rb with
                rd_idx := rb.rd_idx + sizeof_inject_task_t + t.data_len
                peek_rd_idx := max (max rb.peek_rd_idx (rb.rd_idx + sizeof_inject_task_t))
                  (rb.rd_idx + sizeof_inject_task_t + t.data_len) }
        task := { t with p_data_u8 := p_task_data_buf }
        data_buf := d ++ buf.drop t.data_len } := by
  obtain ⟨hl, h1, h2, -⟩ := bytes_from_split rb rb.rd_idx t d rest hrd h
  rw [hd] at hl h2
  have hne : ringbuf_available_fetch rb ≠ INJECT_RINGBUF_BYTES := by
    simp only [ringbuf_available_fetch, INJECT_RINGBUF_BYTES, sizeof_inject_task_t] at *
    omega
  have hm1 : min sizeof_inject_task_t (rb.wr_idx - rb.rd_idx) = sizeof_inject_task_t := by
    omega
  have hm2 : min t.data_len (rb.wr_idx - (rb.rd_idx + sizeof_inject_task_t)) = t.data_len := by
    omega
  have hdec : task_of_bytes (task_bytes t ++ []) = t := task_of_bytes_task_bytes t ht []
  unfold pop_task
  simp only [hne, if_false, ringbuf_fetch_data, hm1, h1, drop_task_bytes, hdec, ne_eq,
    not_true_eq_false, gt_iff_lt, Nat.not_lt.mpr hmax, hm2, h2]

theorem pop_task_head (rb : ringbuf) (t : inject_task) (d rest : List Nat)
    (p_task : inject_task) (p_task_data_buf : Nat) (buf : List Nat)
    (hrd : rb.rd_idx ≤ rb.wr_idx)
    (h : rb.bytes_from rb.rd_idx = task_bytes t ++ d ++ rest)
    (ht : t.wf) (hd : d.length = t.data_len) (hmax : t.data_len ≤ INJECT_MAX_TASK_DATA_SIZE) :
    (pop_task rb p_task p_task_data_buf buf).rb.rd_idx ≤
      (pop_task rb p_task p_task_data_buf buf).rb.wr_idx ∧
    (pop_task rb p_task p_task_data_buf buf).rb.bytes_from
      (pop_task rb p_task p_task_data_buf buf).rb.rd_idx = rest := by
  obtain ⟨hl, -, -, h3⟩ := bytes_from_split rb rb.rd_idx t d rest hrd h
  rw [hd] at hl h3
  rw [pop_task_head_eq rb t d rest p_task p_task_data_buf buf hrd h ht hd hmax]
  simp only [ringbuf.bytes_from]
  exact ⟨by omega, h3⟩

theorem peek_task_head_eq (rb : ringbuf) (t : inject_task) (d rest : List Nat)
    (p_task : inject_task) (p_task_data_buf : Nat) (buf : List Nat)
    (hrd : rb.peek_rd_idx ≤ rb.wr_idx)
    (h : rb.bytes_from rb.peek_rd_idx = task_bytes t ++ d ++ rest)
    (ht : t.wf) (hd : d.length = t.data_len) (hmax : t.data_len ≤ INJECT_MAX_TASK_DATA_SIZE) :
    peek_task rb p_task p_task_data_buf buf =
      { ret := true
        rb := { rb with peek_rd_idx := rb.peek_rd_idx + sizeof_inject_task_t + t.data_len }
        task := { t with p_data_u8 := p_task_data_buf }
        data_buf := d ++ buf.drop t.data_len } := by
  obtain ⟨hl, h1, h2, -⟩ := bytes_from_split rb rb.peek_rd_idx t d rest hrd h
  rw [hd] at hl h2
  have hne : ringbuf_available_peek rb ≠ INJECT_RINGBUF_BYTES := by
    simp only [ringbuf_available_peek, INJECT_RINGBUF_BYTES, sizeof_inject_task_t] at *
    omega
  have hm1 : min sizeof_inject_task_t (rb.wr_idx - rb.peek_rd_idx) = sizeof_inject_task_t := by
    omega
  have hm2 : min t.data_len (rb.wr_idx - (rb.peek_rd_idx + sizeof_inject_task_t)) =
      t.data_len := by
    omega
  have hdec : task_of_bytes (task_bytes t ++ []) = t := task_of_bytes_task_bytes t ht []
  unfold peek_task
  simp only [hne, if_false, ringbuf_peek_data, hm1, h1, drop_task_bytes, hdec, ne_eq,
    not_true_eq_false, gt_iff_lt, Nat.not_lt.mpr hmax, hm2, h2]

theorem peek_task_head (rb : ringbuf) (t : inject_task) (d rest : List Nat)
    (p_task : inject_task) (p_task_data_buf : Nat) (buf : List Nat)
    (hrd : rb.peek_rd_idx ≤ rb.wr_idx)
    (h : rb.bytes_from rb.peek_rd_idx = task_bytes t ++ d ++ rest)
    (ht : t.wf) (hd : d.length = t.data_len) (hmax : t.data_len ≤ INJECT_MAX_TASK_DATA_SIZE) :
    (peek_task rb p_task p_task_data_buf buf).rb.peek_rd_idx ≤
      (peek_task rb p_task p_task_data_buf buf).rb.wr_idx ∧
    (peek_task rb p_task p_task_data_buf buf).rb.bytes_from
      (peek_task rb p_task p_task_data_buf buf).rb.peek_rd_idx = rest := by
  obtain ⟨hl, -, -, h3⟩ := bytes_from_split rb rb.peek_rd_idx t d rest hrd h
  rw [hd] at hl h3
  rw [peek_task_head_eq rb t d rest p_task p_task_data_buf buf hrd h ht hd hmax]
  simp only [ringbuf.bytes_from]
  exact ⟨by omega, h3⟩

/-! ## The task buffer as a FIFO -/

theorem src_bytes_queued (td : queued_task) (h : td.wf) :
    (src_bytes td.2 td.1.data_len).map (fun b => b % 256) = td.2 := by
  obtain ⟨-, h2, h3⟩ := h
  rw [← h2, src_bytes_length]
  conv => rhs; rw [← List.map_id td.2]
  apply List.map_congr_left
  intro b hb
  exact Nat.mod_eq_of_lt (h3 b hb)

theorem push_tasks_stored (ts : List queued_task) :
    ∀ (rb rb1 : ringbuf), rb.rd_idx ≤ rb.wr_idx → rb.wr_idx ≤ rb.rd_idx + INJECT_RINGBUF_BYTES →
      (∀ td ∈ ts, queued_task.wf td) → push_tasks rb ts = some rb1 →
      rb1.rd_idx = rb.rd_idx ∧ rb1.peek_rd_idx = rb.peek_rd_idx ∧ rb.wr_idx ≤ rb1.wr_idx ∧
      (∀ td ∈ ts, td.1.data_len ≤ INJECT_MAX_TASK_DATA_SIZE) ∧
      ∀ s, rb.rd_idx ≤ s → s ≤ rb.wr_idx → rb1.bytes_from s = rb.bytes_from s ++ tasks_bytes ts := by
  induction ts with
  | nil =>
    intro rb rb1 _ _ _ h
    simp only [push_tasks, Option.some.injEq] at h
    subst h
    simp [tasks_bytes]
  | cons td ts ih =>
    intro rb rb1 hrd hcap hwf h
    simp only [push_tasks] at h
    by_cases hr : (push_task rb td.1 td.2).ret = true
    · simp only [hr, if_true] at h
      obtain ⟨g1, g2⟩ := push_task_ret_true rb td.1 td.2 hr
      obtain ⟨-, -, a3, a4, a5, a6⟩ := push_task_accepts rb td.1 td.2 hrd hcap g1 g2
      have hav : sizeof_inject_task_t + td.1.data_len ≤ INJECT_RINGBUF_BYTES - (rb.wr_idx - rb.rd_idx) := g2
      obtain ⟨b1, b2, b3, b4, b5⟩ := ih (push_task rb td.1 td.2).rb rb1
        (by rw [a3, a4]; omega) (by rw [a3, a4]; omega)
        (fun x hx => hwf x (List.mem_cons_of_mem _ hx)) h
      refine ⟨by rw [b1, a4], by rw [b2, a5], by rw [a3] at b3; omega, ?_, ?_⟩
      · intro x hx
        rcases List.mem_cons.mp hx with rfl | hx
        · exact g1
        · exact b4 x hx
      · intro s hs1 hs2
        rw [b5 s (by rw [a4]; exact hs1) (by rw [a3]; omega), a6 s hs1 hs2,
          src_bytes_queued td (hwf td (List.mem_cons_self _ _))]
        simp [tasks_bytes]
    · simp [hr] at h

theorem pop_tasks_succ (n : Nat) (rb : ringbuf) (p : inject_task) (a : Nat) (buf : List Nat) :
    pop_tasks (n + 1) rb p a buf =
      pop_task rb p a buf ::
        pop_tasks n (pop_task rb p a buf).rb (pop_task rb p a buf).task a
          (pop_task rb p a buf).data_buf := rfl

theorem peek_tasks_succ (n : Nat) (rb : ringbuf) (p : inject_task) (a : Nat) (buf : List Nat) :
    peek_tasks (n + 1) rb p a buf =
      peek_task rb p a buf ::
        peek_tasks n (peek_task rb p a buf).rb (peek_task rb p a buf).task a
          (peek_task rb p a buf).data_buf := rfl

theorem pop_tasks_stored (ts : List queued_task) :
    ∀ (rb : ringbuf) (p_task : inject_task) (a : Nat) (buf : List Nat),
      rb.rd_idx ≤ rb.wr_idx → rb.bytes_from rb.rd_idx = tasks_bytes ts →
      (∀ td ∈ ts, queued_task.wf td) → (∀ td ∈ ts, td.1.data_len ≤ INJECT_MAX_TASK_DATA_SIZE) →
      (pop_tasks (ts.length + 1) rb p_task a buf).map task_out.view =
        ts.map queued_task.view ++ [none] := by
  induction ts with
  | nil =>
    intro rb p_task a buf hrd h _ _
    have hl := congrArg List.length h
    simp only [ringbuf.bytes_from, length_read_bytes, tasks_bytes, List.length_nil] at hl
    have hav : ringbuf_available_fetch rb = INJECT_RINGBUF_BYTES := by
      simp only [ringbuf_available_fetch, hl, Nat.sub_zero]
    simp [pop_tasks, pop_task, hav, label_error_flush_ringbuf, task_out.view]
  | cons td ts ih =>
    intro rb p_task a buf hrd h hwf hmax
    have hw := hwf td (List.mem_cons_self _ _)
    have hm := hmax td (List.mem_cons_self _ _)
    simp only [tasks_bytes] at h
    have e := pop_task_head_eq rb td.1 td.2 (tasks_bytes ts) p_task a buf hrd h hw.1 hw.2.1 hm
    obtain ⟨c1, c2⟩ := pop_task_head rb td.1 td.2 (tasks_bytes ts) p_task a buf hrd h hw.1 hw.2.1 hm
    rw [List.length_cons, pop_tasks_succ, List.map_cons, List.map_cons, List.cons_append, ih _ _ _ _ c1 c2 (fun x hx => hwf x (List.mem_cons_of_mem _ hx))
      (fun x hx => hmax x (List.mem_cons_of_mem _ hx))]
    congr 1
    rw [e]
    simp [task_out.view, queued_task.view, ← hw.2.1]

theorem peek_tasks_stored (ts : List queued_task) :
    ∀ (rb : ringbuf) (p_task : inject_task) (a : Nat) (buf : List Nat),
      rb.peek_rd_idx ≤ rb.wr_idx → rb.bytes_from rb.peek_rd_idx = tasks_bytes ts →
      (∀ td ∈ ts, queued_task.wf td) → (∀ td ∈ ts, td.1.data_len ≤ INJECT_MAX_TASK_DATA_SIZE) →
      (peek_tasks (ts.length + 1) rb p_task a buf).map task_out.view =
        ts.map queued_task.view ++ [none] := by
  induction ts with
  | nil =>
    intro rb p_task a buf hrd h _ _
    have hl := congrArg List.length h
    simp only [ringbuf.bytes_from, length_read_bytes, tasks_bytes, List.length_nil] at hl
    have hav : ringbuf_available_peek rb = INJECT_RINGBUF_BYTES := by
      simp only [ringbuf_available_peek, hl, Nat.sub_zero]
    simp [peek_tasks, peek_task, hav, label_reset_peek, task_out.view]
  | cons td ts ih =>
    intro rb p_task a buf hrd h hwf hmax
    have hw := hwf td (List.mem_cons_self _ _)
    have hm := hmax td (List.mem_cons_self _ _)
    simp only [tasks_bytes] at h
    have e := peek_task_head_eq rb td.1 td.2 (tasks_bytes ts) p_task a buf hrd h hw.1 hw.2.1 hm
    obtain ⟨c1, c2⟩ := peek_task_head rb td.1 td.2 (tasks_bytes ts) p_task a buf hrd h hw.1 hw.2.1 hm
    rw [List.length_cons, peek_tasks_succ, List.map_cons, List.map_cons, List.cons_append, ih _ _ _ _ c1 c2 (fun x hx => hwf x (List.mem_cons_of_mem _ hx))
      (fun x hx => hmax x (List.mem_cons_of_mem _ hx))]
    congr 1
    rw [e]
    simp [task_out.view, queued_task.view, ← hw.2.1]

/-- C1: round trip / FIFO.  Take an empty buffer with its three cursors at any
position (the flushed buffer, or one emptied by earlier pops, so that the
pushed bytes may straddle the 32768-byte wrap boundary) and any sequence of
well-formed tasks that `push_task` accepts one after the other.  Then
`ts.length` successive `pop_task` calls, and likewise `ts.length` successive
`peek_task` calls, return true and yield the tasks in push order, each with
its kind, language, `delay_ms`, `data_len` and payload bytes, and the next
call returns false. -/
theorem fifo_round_trip (rb rb1 : ringbuf) (ts : List queued_task)
    (p_task : inject_task) (p_task_data_buf : Nat) (buf : List Nat)
    (hempty : rb.wr_idx = rb.rd_idx ∧ rb.peek_rd_idx = rb.rd_idx)
    (hwf : ∀ td ∈ ts, queued_task.wf td)
    (hpush : push_tasks rb ts = some rb1) :
    (pop_tasks (ts.length + 1) rb1 p_task p_task_data_buf buf).map task_out.view =
        ts.map queued_task.view ++ [none] ∧
    (peek_tasks (ts.length + 1) rb1 p_task p_task_data_buf buf).map task_out.view =
        ts.map queued_task.view ++ [none] := by
  obtain ⟨hw, hp⟩ := hempty
  obtain ⟨b1, b2, b3, b4, b5⟩ := push_tasks_stored ts rb rb1 (by omega) (by omega) hwf hpush
  have hb := b5 rb.rd_idx (Nat.le_refl _) (by omega)
  have h0 : rb.bytes_from rb.rd_idx = [] := by
    simp [ringbuf.bytes_from, hw, read_bytes]
  rw [h0, List.nil_append] at hb
  refine ⟨pop_tasks_stored ts rb1 _ _ _ (by omega) (by rw [b1]; exact hb) hwf b4,
    peek_tasks_stored ts rb1 _ _ _ (by omega) (by rw [b2, hp]; exact hb) hwf b4⟩

theorem push_tasks_fit (ts : List queued_task) :
    ∀ (rb : ringbuf), rb.rd_idx ≤ rb.wr_idx →
      (rb.wr_idx - rb.rd_idx) + tasks_size ts ≤ INJECT_RINGBUF_BYTES →
      (∀ td ∈ ts, td.1.data_len ≤ INJECT_MAX_TASK_DATA_SIZE) →
      ∃ rb1, push_tasks rb ts = some rb1 := by
  induction ts with
  | nil => intro rb _ _ _; exact ⟨rb, rfl⟩
  | cons td ts ih =>
    intro rb hrd hsz hmax
    simp only [tasks_size] at hsz
    have g1 := hmax td (List.mem_cons_self _ _)
    have g2 : sizeof_inject_task_t + td.1.data_len ≤ ringbuf_available_fetch rb := by
      simp only [ringbuf_available_fetch]; omega
    obtain ⟨a1, -, a3, a4, -, -⟩ := push_task_accepts rb td.1 td.2 hrd (by omega) g1 g2
    simp only [push_tasks, a1, if_true]
    apply ih
    · rw [a3, a4]; omega
    · rw [a3, a4]; omega
    · exact fun x hx => hmax x (List.mem_cons_of_mem _ hx)

theorem push_task_refuses (rb : ringbuf) (task : inject_task) (p_data : List Nat)
    (h : task.data_len > INJECT_MAX_TASK_DATA_SIZE ∨
      sizeof_inject_task_t + task.data_len > ringbuf_available_fetch rb) :
    (push_task rb task p_data).ret = false ∧ (push_task rb task p_data).rb = rb ∧
      ((push_task rb task p_data).log = some push_error.too_large ↔
        task.data_len > INJECT_MAX_TASK_DATA_SIZE) := by
  unfold push_task
  by_cases h1 : task.data_len > INJECT_MAX_TASK_DATA_SIZE
  · simp [h1]
  · have h2 : sizeof_inject_task_t + task.data_len > ringbuf_available_fetch rb := by
      rcases h with h | h
      · exact absurd h h1
      · exact h
    simp [h1, h2]

theorem push_task_full_write (rb : ringbuf) (task : inject_task) (p_data : List Nat)
    (h1 : task.data_len ≤ INJECT_MAX_TASK_DATA_SIZE)
    (h2 : sizeof_inject_task_t + task.data_len ≤ ringbuf_available_fetch rb) :
    (push_task rb task p_data).ret = true := by
  have l1 : (ringbuf_push_data rb (task_bytes task) sizeof_inject_task_t).len =
      sizeof_inject_task_t := by
    simp only [ringbuf_push_data]; omega
  have l2 : (ringbuf_push_data (ringbuf_push_data rb (task_bytes task) sizeof_inject_task_t).rb
      p_data task.data_len).len = task.data_len := by
    simp only [ringbuf_push_data, ringbuf_available_fetch, INJECT_RINGBUF_BYTES,
      sizeof_inject_task_t] at *
    omega
  have e1 : (ringbuf_push_data rb (task_bytes task) sizeof_inject_task_t).err = NRF_SUCCESS := rfl
  unfold push_task
  simp only [gt_iff_lt, Nat.not_lt.mpr h1, if_false, Nat.not_lt.mpr h2, l1, e1, ne_eq,
    not_true_eq_false, l2]
  split <;> rfl

/-- C3: a failed push leaves the buffer unchanged.  Whenever `push_task` returns
false, the buffer it leaves (cursors and stored bytes) is the buffer it was
given, and the failure is one of the two checks made before any byte is
written (payload too large, not enough space): against the ring buffer as
modelled, the header and payload writes that follow the space check are never
short, so no partial task is ever stored. -/
theorem push_task_failed_unchanged (rb : ringbuf) (task : inject_task) (p_data : List Nat)
    (h : (push_task rb task p_data).ret = false) :
    (push_task rb task p_data).rb = rb ∧
      ((push_task rb task p_data).log = some push_error.too_large ∨
        (push_task rb task p_data).log = some push_error.no_space) := by
  by_cases h1 : task.data_len > INJECT_MAX_TASK_DATA_SIZE
  · unfold push_task; simp [h1]
  by_cases h2 : sizeof_inject_task_t + task.data_len > ringbuf_available_fetch rb
  · unfold push_task; simp [h1, h2]
  have := push_task_full_write rb task p_data (by omega) (by omega)
  rw [this] at h
  exact absurd h (by simp)

/-! ## Framing faults -/

theorem pop_task_fault (rb : ringbuf) (p : inject_task) (a : Nat) (buf : List Nat)
    (h : framing_fault rb rb.rd_idx) :
    (pop_task rb p a buf).ret = false ∧
    (pop_task rb p a buf).task.type = INJECT_TASK_TYPE_DELAY ∧
    (pop_task rb p a buf).task.data_len = 0 ∧
    (pop_task rb p a buf).task.delay_ms = 0 ∧
    (pop_task rb p a buf).rb = flush_tasks rb := by
  unfold pop_task
  by_cases c1 : ringbuf_available_fetch rb = INJECT_RINGBUF_BYTES
  · simp [c1, label_error_flush_ringbuf]
  have c1' : ¬ rb.wr_idx - rb.rd_idx = 0 := by
    intro hz; apply c1; simp [ringbuf_available_fetch, hz]
  by_cases c2 : rb.wr_idx - rb.rd_idx < sizeof_inject_task_t
  · have hm : min sizeof_inject_task_t (rb.wr_idx - rb.rd_idx) ≠ sizeof_inject_task_t := by omega
    simp [c1, ringbuf_fetch_data, hm, label_error_flush_ringbuf, flush_tasks, ringbuf_reset]
  have hm : min sizeof_inject_task_t (rb.wr_idx - rb.rd_idx) = sizeof_inject_task_t := by omega
  have hdl : (task_of_bytes (read_bytes rb.p_buffer rb.rd_idx sizeof_inject_task_t ++ [])).data_len
      = stored_data_len rb rb.rd_idx := by
    simp [task_of_bytes, stored_data_len]
  simp only [c1, if_false, ringbuf_fetch_data, hm, drop_task_bytes, ne_eq, not_true_eq_false,
    hdl]
  by_cases c3 : stored_data_len rb rb.rd_idx > INJECT_MAX_TASK_DATA_SIZE
  · simp [c3, label_error_flush_ringbuf, flush_tasks, ringbuf_reset]
  have c4 : rb.wr_idx - (rb.rd_idx + sizeof_inject_task_t) < stored_data_len rb rb.rd_idx := by
    rcases h with h | h | h | h
    · exact absurd h c1'
    · exact absurd h c2
    · exact absurd h c3
    · exact h
  have hm2 : min (stored_data_len rb rb.rd_idx) (rb.wr_idx - (rb.rd_idx + sizeof_inject_task_t))
      ≠ stored_data_len rb rb.rd_idx := by omega
  simp [c3, hm2, label_error_flush_ringbuf, flush_tasks, ringbuf_reset]

theorem peek_task_fault (rb : ringbuf) (p : inject_task) (a : Nat) (buf : List Nat)
    (h : framing_fault rb rb.peek_rd_idx) :
    (peek_task rb p a buf).ret = false ∧
    (peek_task rb p a buf).task.type = INJECT_TASK_TYPE_DELAY ∧
    (peek_task rb p a buf).task.data_len = 0 ∧
    (peek_task rb p a buf).task.delay_ms = 0 ∧
    (peek_task rb p a buf).rb = ringbuf_peek_rewind rb := by
  unfold peek_task
  by_cases c1 : ringbuf_available_peek rb = INJECT_RINGBUF_BYTES
  · simp [c1, label_reset_peek]
  have c1' : ¬ rb.wr_idx - rb.peek_rd_idx = 0 := by
    intro hz; apply c1; simp [ringbuf_available_peek, hz]
  by_cases c2 : rb.wr_idx - rb.peek_rd_idx < sizeof_inject_task_t
  · have hm : min sizeof_inject_task_t (rb.wr_idx - rb.peek_rd_idx) ≠ sizeof_inject_task_t := by
      omega
    simp [c1, ringbuf_peek_data, hm, label_reset_peek, ringbuf_peek_rewind]
  have hm : min sizeof_inject_task_t (rb.wr_idx - rb.peek_rd_idx) = sizeof_inject_task_t := by
    omega
  have hdl : (task_of_bytes
      (read_bytes rb.p_buffer rb.peek_rd_idx sizeof_inject_task_t ++ [])).data_len
      = stored_data_len rb rb.peek_rd_idx := by
    simp [task_of_bytes, stored_data_len]
  simp only [c1, if_false, ringbuf_peek_data, hm, drop_task_bytes, ne_eq, not_true_eq_false,
    hdl]
  by_cases c3 : stored_data_len rb rb.peek_rd_idx > INJECT_MAX_TASK_DATA_SIZE
  · simp [c3, label_reset_peek, ringbuf_peek_rewind]
  have c4 : rb.wr_idx - (rb.peek_rd_idx + sizeof_inject_task_t) <
      stored_data_len rb rb.peek_rd_idx := by
    rcases h with h | h | h | h
    · exact absurd h c1'
    · exact absurd h c2
    · exact absurd h c3
    · exact h
  have hm2 : min (stored_data_len rb rb.peek_rd_idx)
      (rb.wr_idx - (rb.peek_rd_idx + sizeof_inject_task_t))
      ≠ stored_data_len rb rb.peek_rd_idx := by omega
  simp [c3, hm2, label_reset_peek, ringbuf_peek_rewind]

theorem peek_task_no_fault (rb : ringbuf) (p : inject_task) (a : Nat) (buf : List Nat)
    (h : ¬ framing_fault rb rb.peek_rd_idx) :
    peek_task rb p a buf =
      { ret := true
        rb := { rb with peek_rd_idx := rb.peek_rd_idx + sizeof_inject_task_t +
                  stored_data_len rb rb.peek_rd_idx }
        task := { task_of_bytes (read_bytes rb.p_buffer rb.peek_rd_idx sizeof_inject_task_t)
                  with p_data_u8 := a }
        data_buf := read_bytes rb.p_buffer (rb.peek_rd_idx + sizeof_inject_task_t)
                      (stored_data_len rb rb.peek_rd_idx) ++
                    buf.drop (stored_data_len rb rb.peek_rd_idx) } := by
  simp only [framing_fault, not_or, Nat.not_lt, gt_iff_lt] at h
  obtain ⟨c1, c2, c3, c4⟩ := h
  have c0 : ringbuf_available_peek rb ≠ INJECT_RINGBUF_BYTES := by
    simp only [ringbuf_available_peek, INJECT_RINGBUF_BYTES, sizeof_inject_task_t] at *
    omega
  have hm : min sizeof_inject_task_t (rb.wr_idx - rb.peek_rd_idx) = sizeof_inject_task_t := by
    omega
  have hdl : (task_of_bytes
      (read_bytes rb.p_buffer rb.peek_rd_idx sizeof_inject_task_t)).data_len
      = stored_data_len rb rb.peek_rd_idx := by
    simp [task_of_bytes, stored_data_len]
  have hm2 : min (stored_data_len rb rb.peek_rd_idx)
      (rb.wr_idx - (rb.peek_rd_idx + sizeof_inject_task_t))
      = stored_data_len rb rb.peek_rd_idx := by omega
  unfold peek_task
  simp only [c0, if_false, ringbuf_peek_data, hm, drop_task_bytes, List.append_nil, ne_eq,
    not_true_eq_false, hdl, gt_iff_lt, Nat.not_lt.mpr c3, hm2]

theorem pop_task_no_fault_eq (rb : ringbuf) (p : inject_task) (a : Nat) (buf : List Nat)
    (h : ¬ framing_fault rb rb.rd_idx) :
    pop_task rb p a buf =
      { ret := true
        rb := { rb with
                rd_idx := rb.rd_idx + sizeof_inject_task_t + stored_data_len rb rb.rd_idx
                peek_rd_idx := max (max rb.peek_rd_idx (rb.rd_idx + sizeof_inject_task_t))
                  (rb.rd_idx + sizeof_inject_task_t + stored_data_len rb rb.rd_idx) }
        task := { task_of_bytes (read_bytes rb.p_buffer rb.rd_idx sizeof_inject_task_t)
                  with p_data_u8 := a }
        data_buf := read_bytes rb.p_buffer (rb.rd_idx + sizeof_inject_task_t)
                      (stored_data_len rb rb.rd_idx) ++
                    buf.drop (stored_data_len rb rb.rd_idx) } := by
  simp only [framing_fault, not_or, Nat.not_lt, gt_iff_lt] at h
  obtain ⟨c1, c2, c3, c4⟩ := h
  have c0 : ringbuf_available_fetch rb ≠ INJECT_RINGBUF_BYTES := by
    simp only [ringbuf_available_fetch, INJECT_RINGBUF_BYTES, sizeof_inject_task_t] at *
    omega
  have hm : min sizeof_inject_task_t (rb.wr_idx - rb.rd_idx) = sizeof_inject_task_t := by omega
  have hdl : (task_of_bytes (read_bytes rb.p_buffer rb.rd_idx sizeof_inject_task_t)).data_len
      = stored_data_len rb rb.rd_idx := by
    simp [task_of_bytes, stored_data_len]
  have hm2 : min (stored_data_len rb rb.rd_idx) (rb.wr_idx - (rb.rd_idx + sizeof_inject_task_t))
      = stored_data_len rb rb.rd_idx := by omega
  unfold pop_task
  simp only [c0, if_false, ringbuf_fetch_data, hm, drop_task_bytes, List.append_nil, ne_eq,
    not_true_eq_false, hdl, gt_iff_lt, Nat.not_lt.mpr c3, hm2]

/-! ## Termination and frame of the engine -/

theorem peek_task_frame (rb : ringbuf) (p : inject_task) (a : Nat) (buf : List Nat) :
    (peek_task rb p a buf).rb.rd_idx = rb.rd_idx ∧
    (peek_task rb p a buf).rb.wr_idx = rb.wr_idx ∧
    (peek_task rb p a buf).rb.p_buffer = rb.p_buffer := by
  by_cases h : framing_fault rb rb.peek_rd_idx
  · rw [(peek_task_fault rb p a buf h).2.2.2.2]
    exact ⟨rfl, rfl, rfl⟩
  · rw [peek_task_no_fault rb p a buf h]
    exact ⟨rfl, rfl, rfl⟩

theorem peek_task_progress (rb : ringbuf) (p : inject_task) (a : Nat) (buf : List Nat)
    (h : (peek_task rb p a buf).ret = true) :
    (peek_task rb p a buf).rb.wr_idx - (peek_task rb p a buf).rb.peek_rd_idx <
      rb.wr_idx - rb.peek_rd_idx := by
  by_cases hf : framing_fault rb rb.peek_rd_idx
  · rw [(peek_task_fault rb p a buf hf).1] at h
    exact absurd h (by simp)
  · rw [peek_task_no_fault rb p a buf hf]
    simp only [framing_fault, not_or, Nat.not_lt, gt_iff_lt, sizeof_inject_task_t] at hf ⊢
    omega

theorem reset_payload_provider_fields {σ : Type} (w : inject_world σ) :
    w.reset_payload_provider.m_ringbuf = w.m_ringbuf ∧
    w.reset_payload_provider.self.state = w.self.state ∧
    w.reset_payload_provider.self.execute = w.self.execute ∧
    w.reset_payload_provider.self.retransmit_counter = w.self.retransmit_counter := by
  unfold inject_world.reset_payload_provider
  cases w.self.p_payload_provider <;> exact ⟨rfl, rfl, rfl, rfl⟩

theorem transfer_state_finish_done {σ : Type}
    (rnt : inject_world σ → Option (inject_world σ)) (k : Nat)
    (hrnt : ∀ w : inject_world σ, w.m_ringbuf.wr_idx - w.m_ringbuf.peek_rd_idx < k →
      w.self.state = INJECT_STATE_IDLE → w.self.execute = true →
      ∃ r, rnt w = some r ∧ run_next_task_post w r)
    (w : inject_world σ)
    (hk : w.m_ringbuf.wr_idx - w.m_ringbuf.peek_rd_idx < k)
    (hst : w.self.state = INJECT_STATE_IDLE) (hex : w.self.execute = true)
    (hc : w.self.retransmit_counter = 0) :
    ∃ r, transfer_state_finish rnt w = some r ∧
      r.m_ringbuf.rd_idx = w.m_ringbuf.rd_idx ∧
      r.m_ringbuf.wr_idx = w.m_ringbuf.wr_idx ∧
      r.m_ringbuf.p_buffer = w.m_ringbuf.p_buffer ∧
      r.self.retransmit_counter = 0 ∧
      ((r.self.state = INJECT_STATE_WORKING ∧ r.self.execute = true) ∨
       (r.self.state = INJECT_STATE_IDLE ∧ r.self.execute = false ∧
          r.m_ringbuf.peek_rd_idx = r.m_ringbuf.rd_idx)) := by
  obtain ⟨f1, f2, f3, f4⟩ := reset_payload_provider_fields w
  obtain ⟨r, hr, p1, p2, p3, p4, p5⟩ := hrnt w.reset_payload_provider
    (by rw [f1]; exact hk) (by rw [f2]; exact hst) (by rw [f3]; exact hex)
  refine ⟨r, ?_, ?_, ?_, ?_, p4 (by rw [f4]; exact hc), p5⟩
  · unfold transfer_state_finish
    simp only [f3, hex, if_true]
    exact hr
  · rw [p1, f1]
  · rw [p2, f1]
  · rw [p3, f1]

theorem transfer_state_with_done {σ : Type} (rnt : inject_world σ → Option (inject_world σ))
    (k : Nat)
    (hrnt : ∀ w : inject_world σ, w.m_ringbuf.wr_idx - w.m_ringbuf.peek_rd_idx < k →
      w.self.state = INJECT_STATE_IDLE → w.self.execute = true →
      ∃ r, rnt w = some r ∧ run_next_task_post w r)
    (w : inject_world σ) (s : inject_state)
    (hs : s = INJECT_STATE_SUCCEEDED ∨ s = INJECT_STATE_FAILED)
    (hne : w.self.state ≠ s)
    (hk : w.m_ringbuf.wr_idx - w.m_ringbuf.peek_rd_idx < k)
    (hex : w.self.execute = true) :
    ∃ r, transfer_state_with rnt w s = some r ∧
      r.m_ringbuf.rd_idx = w.m_ringbuf.rd_idx ∧
      r.m_ringbuf.wr_idx = w.m_ringbuf.wr_idx ∧
      r.m_ringbuf.p_buffer = w.m_ringbuf.p_buffer ∧
      r.self.retransmit_counter = 0 ∧
      ((r.self.state = INJECT_STATE_WORKING ∧ r.self.execute = true) ∨
       (r.self.state = INJECT_STATE_IDLE ∧ r.self.execute = false ∧
          r.m_ringbuf.peek_rd_idx = r.m_ringbuf.rd_idx)) := by
  have hne' : ¬ s = w.self.state := fun h => hne h.symm
  rcases hs with rfl | rfl
  · simp only [transfer_state_with, hne', if_false]
    exact transfer_state_finish_done rnt k hrnt _ hk rfl hex rfl
  · simp only [transfer_state_with, hne', if_false]
    exact transfer_state_finish_done rnt k hrnt _ hk rfl hex rfl

theorem call_get_next_fields {σ : Type} (w : inject_world σ)
    (p : logitacker_tx_payload_provider σ) :
    (w.call_get_next p).2.m_ringbuf = w.m_ringbuf ∧
    (w.call_get_next p).2.self.state = w.self.state ∧
    (w.call_get_next p).2.self.execute = w.self.execute ∧
    (w.call_get_next p).2.self.retransmit_counter = w.self.retransmit_counter :=
  ⟨rfl, rfl, rfl, rfl⟩

theorem transfer_state_with_working {σ : Type}
    (rnt : inject_world σ → Option (inject_world σ)) (w : inject_world σ)
    (h : w.self.state = INJECT_STATE_IDLE) :
    transfer_state_with rnt w INJECT_STATE_WORKING = some (w.set_state INJECT_STATE_WORKING) := by
  simp [transfer_state_with, h]

theorem provider_task_done {σ : Type} (rnt : inject_world σ → Option (inject_world σ))
    (k : Nat)
    (hrnt : ∀ w : inject_world σ, w.m_ringbuf.wr_idx - w.m_ringbuf.peek_rd_idx < k →
      w.self.state = INJECT_STATE_IDLE → w.self.execute = true →
      ∃ r, rnt w = some r ∧ run_next_task_post w r)
    (w : inject_world σ) (e : effect) (p : logitacker_tx_payload_provider σ)
    (hk : w.m_ringbuf.wr_idx - w.m_ringbuf.peek_rd_idx < k)
    (hst : w.self.state = INJECT_STATE_IDLE) (hex : w.self.execute = true) :
    ∃ r,
      (if !((w.emit e).call_get_next p).1 then
          transfer_state_with rnt ((w.emit e).call_get_next p).2 INJECT_STATE_FAILED
        else
          (transfer_state_with rnt ((w.emit e).call_get_next p).2 INJECT_STATE_WORKING).map
            (fun w1 => w1.emit (effect.app_timer_start w1.self.tx_delay_ms))) = some r ∧
      run_next_task_post w r := by
  obtain ⟨f1, f2, f3, f4⟩ := call_get_next_fields (w.emit e) p
  have g1 : (w.emit e).m_ringbuf = w.m_ringbuf := rfl
  have g2 : (w.emit e).self = w.self := rfl
  rw [g1] at f1
  rw [g2] at f2 f3 f4
  cases hok : ((w.emit e).call_get_next p).1 with
  | false =>
    simp only [Bool.not_false, if_true]
    obtain ⟨r, hr, p1, p2, p3, p4, p5⟩ := transfer_state_with_done rnt k hrnt
      ((w.emit e).call_get_next p).2 INJECT_STATE_FAILED (Or.inr rfl)
      (by rw [f2, hst]; decide) (by rw [f1]; exact hk) (by rw [f3]; exact hex)
    refine ⟨r, hr, ?_, ?_, ?_, fun _ => p4, p5⟩
    · rw [p1, f1]
    · rw [p2, f1]
    · rw [p3, f1]
  | true =>
    simp only [Bool.not_true, Bool.false_eq_true, if_false]
    rw [transfer_state_with_working rnt ((w.emit e).call_get_next p).2 (by rw [f2]; exact hst)]
    refine ⟨_, rfl, ?_, ?_, ?_, ?_, Or.inl ⟨rfl, ?_⟩⟩
    · show ((w.emit e).call_get_next p).2.m_ringbuf.rd_idx = _
      rw [f1]
    · show ((w.emit e).call_get_next p).2.m_ringbuf.wr_idx = _
      rw [f1]
    · show ((w.emit e).call_get_next p).2.m_ringbuf.p_buffer = _
      rw [f1]
    · intro hc
      show ((w.emit e).call_get_next p).2.self.retransmit_counter = 0
      rw [f4]; exact hc
    · show ((w.emit e).call_get_next p).2.self.execute = true
      rw [f3]; exact hex

theorem process_task_delay_done {σ : Type} (rnt : inject_world σ → Option (inject_world σ))
    (k : Nat)
    (hrnt : ∀ w : inject_world σ, w.m_ringbuf.wr_idx - w.m_ringbuf.peek_rd_idx < k →
      w.self.state = INJECT_STATE_IDLE → w.self.execute = true →
      ∃ r, rnt w = some r ∧ run_next_task_post w r)
    (w : inject_world σ)
    (hk : w.m_ringbuf.wr_idx - w.m_ringbuf.peek_rd_idx < k)
    (hst : w.self.state = INJECT_STATE_IDLE) (hex : w.self.execute = true) :
    ∃ r, process_task_delay_with rnt w = some r ∧ run_next_task_post w r := by
  unfold process_task_delay_with
  by_cases hz : w.self.current_task.delay_ms = 0
  · simp only [hz, if_true]
    obtain ⟨r, hr, p1, p2, p3, p4, p5⟩ := transfer_state_with_done rnt k hrnt
      { w with self := { w.self with p_payload_provider := none } } INJECT_STATE_SUCCEEDED
      (Or.inl rfl) (by show w.self.state ≠ _; rw [hst]; decide) hk hex
    exact ⟨r, hr, p1, p2, p3, fun _ => p4, p5⟩
  · simp only [hz, if_false]
    rw [transfer_state_with_working]
    · exact ⟨_, rfl, rfl, rfl, rfl, fun hc => hc, Or.inl ⟨rfl, hex⟩⟩
    · exact hst

theorem call_peek_task_fields {σ : Type} (env : inject_env σ) (w : inject_world σ) :
    (w.call_peek_task env).2.m_ringbuf.rd_idx = w.m_ringbuf.rd_idx ∧
    (w.call_peek_task env).2.m_ringbuf.wr_idx = w.m_ringbuf.wr_idx ∧
    (w.call_peek_task env).2.m_ringbuf.p_buffer = w.m_ringbuf.p_buffer ∧
    (w.call_peek_task env).2.self.state = w.self.state ∧
    (w.call_peek_task env).2.self.execute = w.self.execute ∧
    (w.call_peek_task env).2.self.retransmit_counter = w.self.retransmit_counter ∧
    (w.call_peek_task env).2.trace = w.trace ∧
    ((w.call_peek_task env).1 = true →
      (w.call_peek_task env).2.m_ringbuf.wr_idx - (w.call_peek_task env).2.m_ringbuf.peek_rd_idx <
        w.m_ringbuf.wr_idx - w.m_ringbuf.peek_rd_idx) := by
  obtain ⟨q1, q2, q3⟩ := peek_task_frame w.m_ringbuf w.self.current_task
    env.p_current_task_data w.self.current_task_data
  exact ⟨q1, q2, q3, rfl, rfl, rfl, rfl, fun h => peek_task_progress _ _ _ _ h⟩

theorem run_next_task_fuel_done {σ : Type} (env : inject_env σ) (fuel : Nat) :
    ∀ w : inject_world σ, w.m_ringbuf.wr_idx - w.m_ringbuf.peek_rd_idx < fuel →
      w.self.state = INJECT_STATE_IDLE → w.self.execute = true →
      ∃ r, run_next_task_fuel env fuel w = some r ∧ run_next_task_post w r := by
  induction fuel with
  | zero => intro w h; exact absurd h (Nat.not_lt_zero _)
  | succ fuel ih =>
    intro w hk hst hex
    obtain ⟨q1, q2, q3, q4, q5, q6, -, q8⟩ := call_peek_task_fields env w
    rw [hst] at q4
    rw [hex] at q5
    have post_of : ∀ r : inject_world σ,
        run_next_task_post (w.call_peek_task env).2 r → run_next_task_post w r := by
      intro r ⟨p1, p2, p3, p4, p5⟩
      refine ⟨?_, ?_, ?_, fun hc => p4 (by rw [q6]; exact hc), p5⟩
      · rw [p1, q1]
      · rw [p2, q2]
      · rw [p3, q3]
    simp only [run_next_task_fuel]
    rw [if_neg (fun h => h hst)]
    cases hret : (w.call_peek_task env).1 with
    | false =>
      simp only [Bool.not_false, if_true, transfer_state_with, q4, Option.map_some']
      refine ⟨_, rfl, q1, q2, q3, ?_, Or.inr ⟨q4, rfl, rfl⟩⟩
      intro hc
      show (w.call_peek_task env).2.self.retransmit_counter = 0
      rw [q6]; exact hc
    | true =>
      have hprog : (w.call_peek_task env).2.m_ringbuf.wr_idx -
          (w.call_peek_task env).2.m_ringbuf.peek_rd_idx < fuel := by
        have := q8 hret
        omega
      simp only [Bool.not_true, Bool.false_eq_true, if_false]
      split
      · obtain ⟨r, hr, hp⟩ := provider_task_done (run_next_task_fuel env fuel) fuel ih
          (w.call_peek_task env).2 effect.new_payload_provider_press
          (env.new_payload_provider_press (w.call_peek_task env).2.self.p_device
            (w.call_peek_task env).2.self.current_task.lang
            (w.call_peek_task env).2.self.current_task_data) hprog q4 q5
        exact ⟨r, hr, post_of r hp⟩
      · split
        · obtain ⟨r, hr, hp⟩ := provider_task_done (run_next_task_fuel env fuel) fuel ih
            (w.call_peek_task env).2 effect.new_payload_provider_string
            (env.new_payload_provider_string (w.call_peek_task env).2.self.p_device
              (w.call_peek_task env).2.self.current_task.lang
              (w.call_peek_task env).2.self.current_task_data) hprog q4 q5
          exact ⟨r, hr, post_of r hp⟩
        · split
          · obtain ⟨r, hr, hp⟩ := process_task_delay_done (run_next_task_fuel env fuel) fuel ih
              (w.call_peek_task env).2 hprog q4 q5
            exact ⟨r, hr, post_of r hp⟩
          · obtain ⟨r, hr, p1, p2, p3, p4, p5⟩ := transfer_state_with_done
              (run_next_task_fuel env fuel) fuel ih (w.call_peek_task env).2
              INJECT_STATE_FAILED (Or.inr rfl) (by rw [q4]; decide) hprog q5
            exact ⟨r, hr, post_of r ⟨p1, p2, p3, fun _ => p4, p5⟩⟩

theorem run_next_task_done {σ : Type} (env : inject_env σ) (w : inject_world σ)
    (hst : w.self.state = INJECT_STATE_IDLE) (hex : w.self.execute = true) :
    ∃ r, logitacker_processor_inject_run_next_task env w = some r ∧ run_next_task_post w r :=
  run_next_task_fuel_done env _ w (by simp [run_next_task_bound]) hst hex

theorem transfer_state_with_paused {σ : Type}
    (rnt : inject_world σ → Option (inject_world σ)) (w : inject_world σ)
    (s : inject_state) (hs : s = INJECT_STATE_SUCCEEDED ∨ s = INJECT_STATE_FAILED)
    (hne : w.self.state ≠ s) (hex : w.self.execute = false) :
    ∃ r, transfer_state_with rnt w s = some r ∧ r.m_ringbuf = w.m_ringbuf ∧
      r.self.state = INJECT_STATE_IDLE ∧ r.self.execute = false ∧
      r.self.retransmit_counter = 0 := by
  have hne' : ¬ s = w.self.state := fun h => hne h.symm
  rcases hs with rfl | rfl
  · obtain ⟨f1, f2, f3, f4⟩ := reset_payload_provider_fields
      ((((w.emit effect.log_inject_task_succeeded).emit effect.app_timer_stop).zero_counter).set_state
        INJECT_STATE_IDLE)
    refine ⟨((((w.emit effect.log_inject_task_succeeded).emit
      effect.app_timer_stop).zero_counter).set_state INJECT_STATE_IDLE).reset_payload_provider,
      ?_, by rw [f1]; rfl, by rw [f2]; rfl, by rw [f3]; exact hex, by rw [f4]; rfl⟩
    simp only [transfer_state_with, hne', if_false, transfer_state_finish]
    rw [if_neg]
    rw [f3]
    show ¬ w.self.execute = true
    rw [hex]; simp
  · obtain ⟨f1, f2, f3, f4⟩ := reset_payload_provider_fields
      ((((w.emit effect.log_inject_task_failed).emit effect.app_timer_stop).zero_counter).set_state
        INJECT_STATE_IDLE)
    refine ⟨((((w.emit effect.log_inject_task_failed).emit
      effect.app_timer_stop).zero_counter).set_state INJECT_STATE_IDLE).reset_payload_provider,
      ?_, by rw [f1]; rfl, by rw [f2]; rfl, by rw [f3]; exact hex, by rw [f4]; rfl⟩
    simp only [transfer_state_with, hne', if_false, transfer_state_finish]
    rw [if_neg]
    rw [f3]
    show ¬ w.self.execute = true
    rw [hex]; simp

theorem transfer_state_done {σ : Type} (env : inject_env σ) (w : inject_world σ)
    (s : inject_state) (hs : s = INJECT_STATE_SUCCEEDED ∨ s = INJECT_STATE_FAILED)
    (hne : w.self.state ≠ s) :
    ∃ r, transfer_state env w s = some r ∧
      r.m_ringbuf.rd_idx = w.m_ringbuf.rd_idx ∧
      r.m_ringbuf.wr_idx = w.m_ringbuf.wr_idx ∧
      r.m_ringbuf.p_buffer = w.m_ringbuf.p_buffer ∧
      r.self.retransmit_counter = 0 ∧
      ((r.self.state = INJECT_STATE_WORKING ∧ r.self.execute = true ∧ w.self.execute = true) ∨
       (r.self.state = INJECT_STATE_IDLE ∧ r.self.execute = false ∧
          (w.self.execute = true → r.m_ringbuf.peek_rd_idx = r.m_ringbuf.rd_idx) ∧
          (w.self.execute = false → r.m_ringbuf = w.m_ringbuf))) := by
  cases hex : w.self.execute with
  | true =>
    obtain ⟨r, hr, p1, p2, p3, p4, p5⟩ := transfer_state_with_done
      (logitacker_processor_inject_run_next_task env)
      (w.m_ringbuf.wr_idx - w.m_ringbuf.peek_rd_idx + 1)
      (fun w' _ h1 h2 => run_next_task_done env w' h1 h2) w s hs hne (by omega) hex
    refine ⟨r, hr, p1, p2, p3, p4, ?_⟩
    rcases p5 with ⟨a, b⟩ | ⟨a, b, c⟩
    · exact Or.inl ⟨a, b, rfl⟩
    · exact Or.inr ⟨a, b, fun _ => c, fun h => absurd h (by simp)⟩
  | false =>
    obtain ⟨r, hr, f1, f2, f3, f4⟩ := transfer_state_with_paused
      (logitacker_processor_inject_run_next_task env) w s hs hne hex
    refine ⟨r, hr, by rw [f1], by rw [f1], by rw [f1], f4,
      Or.inr ⟨f2, f3, fun h => absurd h (by simp), fun _ => f1⟩⟩

/-! ## Task completion, retransmit budget, fast path -/

theorem esb_handler_below_budget {σ : Type} (env : inject_env σ) (w : inject_world σ)
    (evt : nrf_esb_evt_id) (hc : w.self.retransmit_counter < 10)
    (hst : w.self.state ≠ INJECT_STATE_FAILED) :
    processor_inject_esb_handler_func_ env w evt = esb_handler_switch env w evt := by
  have h : ¬ w.self.retransmit_counter ≥ (INJECT_RETRANSMIT_BEFORE_FAIL : Int) := by
    simp only [INJECT_RETRANSMIT_BEFORE_FAIL, Nat.cast_ofNat]
    omega
  simp only [processor_inject_esb_handler_func_, h, if_false, Option.some_bind, hst]

theorem esb_tx_success_exhausted {σ : Type} (env : inject_env σ) (w : inject_world σ)
    (p : logitacker_tx_payload_provider σ)
    (hp : w.self.p_payload_provider = some p)
    (hn : (p.p_get_next p.p_ctx w.self.tmp_tx_payload).1 = false) :
    esb_tx_success env w =
      transfer_state env (w.zero_counter.call_get_next p).2 INJECT_STATE_SUCCEEDED := by
  have h1 : w.zero_counter.self.p_payload_provider = some p := hp
  have h2 : (w.zero_counter.call_get_next p).1 = false := hn
  simp only [esb_tx_success, h1, h2, Bool.false_eq_true, if_false]

/-- C7 (amended): completing a task does not pop it.  In state Working, when the
Delay timer expires, or when a TX success (with or without ack payload) finds
the provider exhausted, the handler returns with the consume cursor, the write
cursor and the stored bytes unchanged; and when `execute` was set and the
engine is back in Idle (the script has run to its end) the peek cursor has
been rewound to the consume cursor, so every task of the script is still
queued. -/
theorem task_completion_keeps_queue {σ : Type} (env : inject_env σ) (w : inject_world σ)
    (hst : w.self.state = INJECT_STATE_WORKING) :
    (w.self.current_task.type = INJECT_TASK_TYPE_DELAY →
      ∃ r, processor_inject_timer_handler_func_ env w = some r ∧
        r.m_ringbuf.rd_idx = w.m_ringbuf.rd_idx ∧ r.m_ringbuf.wr_idx = w.m_ringbuf.wr_idx ∧
        r.m_ringbuf.p_buffer = w.m_ringbuf.p_buffer ∧
        (w.self.execute = true → r.self.state = INJECT_STATE_IDLE →
          r.m_ringbuf.peek_rd_idx = r.m_ringbuf.rd_idx)) ∧
    (∀ (evt : nrf_esb_evt_id) (p : logitacker_tx_payload_provider σ),
      evt = NRF_ESB_EVENT_TX_SUCCESS ∨ evt = NRF_ESB_EVENT_TX_SUCCESS_ACK_PAY →
      w.self.retransmit_counter < 10 → w.self.p_payload_provider = some p →
      (p.p_get_next p.p_ctx w.self.tmp_tx_payload).1 = false →
      ∃ r, processor_inject_esb_handler_func_ env w evt = some r ∧
        r.m_ringbuf.rd_idx = w.m_ringbuf.rd_idx ∧ r.m_ringbuf.wr_idx = w.m_ringbuf.wr_idx ∧
        r.m_ringbuf.p_buffer = w.m_ringbuf.p_buffer ∧
        (w.self.execute = true → r.self.state = INJECT_STATE_IDLE →
          r.m_ringbuf.peek_rd_idx = r.m_ringbuf.rd_idx)) := by
  have fin : ∀ (w1 r : inject_world σ), w1.self.execute = w.self.execute →
      ((r.self.state = INJECT_STATE_WORKING ∧ r.self.execute = true ∧ w1.self.execute = true) ∨
       (r.self.state = INJECT_STATE_IDLE ∧ r.self.execute = false ∧
          (w1.self.execute = true → r.m_ringbuf.peek_rd_idx = r.m_ringbuf.rd_idx) ∧
          (w1.self.execute = false → r.m_ringbuf = w1.m_ringbuf))) →
      w.self.execute = true → r.self.state = INJECT_STATE_IDLE →
        r.m_ringbuf.peek_rd_idx = r.m_ringbuf.rd_idx := by
    intro w1 r he h hx hi
    rcases h with ⟨a, -, -⟩ | ⟨-, -, c, -⟩
    · rw [hi] at a; exact absurd a (by decide)
    · exact c (by rw [he]; exact hx)
  refine ⟨?_, ?_⟩
  · intro ht
    obtain ⟨r, hr, p1, p2, p3, -, p5⟩ := transfer_state_done env w INJECT_STATE_SUCCEEDED
      (Or.inl rfl) (by rw [hst]; decide)
    refine ⟨r, ?_, p1, p2, p3, fin w r rfl p5⟩
    simp only [processor_inject_timer_handler_func_, hst, ht, if_true]
    exact hr
  · intro evt p hevt hc hp hn
    rw [esb_handler_below_budget env w evt hc (by rw [hst]; decide)]
    rcases hevt with rfl | rfl
    · obtain ⟨r, hr, p1, p2, p3, -, p5⟩ := transfer_state_done env
        (w.zero_counter.call_get_next p).2 INJECT_STATE_SUCCEEDED (Or.inl rfl)
        (by show w.self.state ≠ _; rw [hst]; decide)
      refine ⟨r, ?_, p1, p2, p3, fin _ r rfl p5⟩
      simp only [esb_handler_switch]
      rw [esb_tx_success_exhausted env w p hp hn]
      exact hr
    · obtain ⟨r, hr, p1, p2, p3, -, p5⟩ := transfer_state_done env
        ((w.emit effect.nrf_esb_flush_rx).zero_counter.call_get_next p).2
        INJECT_STATE_SUCCEEDED (Or.inl rfl)
        (by show w.self.state ≠ _; rw [hst]; decide)
      refine ⟨r, ?_, p1, p2, p3, fin _ r rfl p5⟩
      simp only [esb_handler_switch]
      rw [esb_tx_success_exhausted env (w.emit effect.nrf_esb_flush_rx) p hp hn]
      exact hr

theorem esb_tx_failed_step {σ : Type} (env : inject_env σ) (w : inject_world σ)
    (hc : w.self.retransmit_counter < 10) (hst : w.self.state = INJECT_STATE_WORKING) :
    processor_inject_esb_handler_func_ env w NRF_ESB_EVENT_TX_FAILED =
      some { w with
             self := { w.self with retransmit_counter := w.self.retransmit_counter + 1 }
             trace := w.trace ++ [effect.nrf_esb_start_tx] } := by
  rw [esb_handler_below_budget env w _ hc (by rw [hst]; decide)]
  rfl

theorem esb_tx_failed_steps {σ : Type} (env : inject_env σ) (n : Nat) :
    ∀ w : inject_world σ, w.self.state = INJECT_STATE_WORKING →
      w.self.retransmit_counter + n ≤ 10 →
      processor_inject_esb_events env w (List.replicate n NRF_ESB_EVENT_TX_FAILED) =
        some { w with
               self := { w.self with retransmit_counter := w.self.retransmit_counter + n }
               trace := w.trace ++ List.replicate n effect.nrf_esb_start_tx } := by
  induction n with
  | zero =>
    intro w _ _
    simp [processor_inject_esb_events]
  | succ n ih =>
    intro w hst hc
    have hc' : w.self.retransmit_counter < 10 := by push_cast at hc; omega
    simp only [List.replicate_succ, processor_inject_esb_events,
      esb_tx_failed_step env w hc' hst, Option.some_bind]
    have step := ih
      { w with
        self := { w.self with retransmit_counter := w.self.retransmit_counter + 1 }
        trace := w.trace ++ [effect.nrf_esb_start_tx] } hst
      (by push_cast at hc; show w.self.retransmit_counter + 1 + (n : Int) ≤ 10; omega)
    refine step.trans ?_
    have e1 : w.self.retransmit_counter + 1 + (n : Int) =
        w.self.retransmit_counter + ((n + 1 : Nat) : Int) := by push_cast; omega
    simp only [List.append_assoc, List.singleton_append, e1]

/-- C8 (amended): retransmit budget.  Starting in Working with
`retransmit_counter = 0`, exactly 10 consecutive `TX_FAILED` events leave the
engine in Working with `retransmit_counter = 10` after exactly 10 `start_tx`
calls and no other change.  The budget is checked on entry to the handler: on
the next radio event, whatever it is, the handler first transfers the task to
Failed, which returns with the counter zeroed and the state Idle (or Working
on the next task, possible only when `execute` is set), and only then
dispatches on the event. -/
theorem retransmit_budget {σ : Type} (env : inject_env σ) (w : inject_world σ)
    (hst : w.self.state = INJECT_STATE_WORKING) (hc : w.self.retransmit_counter = 0) :
    processor_inject_esb_events env w (List.replicate 10 NRF_ESB_EVENT_TX_FAILED) =
      some { w with
             self := { w.self with retransmit_counter := 10 }
             trace := w.trace ++ List.replicate 10 effect.nrf_esb_start_tx } ∧
    ∀ evt : nrf_esb_evt_id,
      ∃ wf, transfer_state env
          { w with
            self := { w.self with retransmit_counter := 10 }
            trace := w.trace ++ List.replicate 10 effect.nrf_esb_start_tx }
          INJECT_STATE_FAILED = some wf ∧
        wf.self.retransmit_counter = 0 ∧
        (wf.self.state = INJECT_STATE_IDLE ∨
          (wf.self.state = INJECT_STATE_WORKING ∧ w.self.execute = true)) ∧
        processor_inject_esb_handler_func_ env
          { w with
            self := { w.self with retransmit_counter := 10 }
            trace := w.trace ++ List.replicate 10 effect.nrf_esb_start_tx } evt =
          esb_handler_switch env wf evt := by
  refine ⟨?_, ?_⟩
  · rw [esb_tx_failed_steps env 10 w hst (by rw [hc]; decide), hc]
    rfl
  · intro evt
    obtain ⟨wf, hwf, -, -, -, p4, p5⟩ := transfer_state_done env
      { w with
        self := { w.self with retransmit_counter := 10 }
        trace := w.trace ++ List.replicate 10 effect.nrf_esb_start_tx }
      INJECT_STATE_FAILED (Or.inr rfl) (by show w.self.state ≠ _; rw [hst]; decide)
    have hstate : wf.self.state = INJECT_STATE_IDLE ∨
        (wf.self.state = INJECT_STATE_WORKING ∧ w.self.execute = true) := by
      rcases p5 with ⟨a, -, c⟩ | ⟨a, -, -, -⟩
      · exact Or.inr ⟨a, c⟩
      · exact Or.inl a
    have hnf : wf.self.state ≠ INJECT_STATE_FAILED := by
      rcases hstate with h | ⟨h, -⟩ <;> rw [h] <;> decide
    refine ⟨wf, hwf, p4, hstate, ?_⟩
    simp only [processor_inject_esb_handler_func_, INJECT_RETRANSMIT_BEFORE_FAIL,
      Nat.cast_ofNat, ge_iff_le, le_refl, if_true, hwf, Option.some_bind, hnf, if_false]

theorem run_next_task_fuel_end_of_script {σ : Type} (env : inject_env σ) (fuel : Nat)
    (w : inject_world σ) (hst : w.self.state = INJECT_STATE_IDLE)
    (hret : (w.call_peek_task env).1 = false) :
    run_next_task_fuel env (fuel + 1) w = some (w.call_peek_task env).2.end_of_script := by
  have q4 : (w.call_peek_task env).2.self.state = INJECT_STATE_IDLE := hst
  simp only [run_next_task_fuel]
  rw [if_neg (fun h => h hst)]
  simp only [hret, Bool.not_false, if_true, transfer_state_with, q4, Option.map_some']

theorem run_next_task_fuel_delay_zero {σ : Type} (env : inject_env σ) (fuel : Nat)
    (w : inject_world σ) (hst : w.self.state = INJECT_STATE_IDLE)
    (hex : w.self.execute = true)
    (hret : (w.call_peek_task env).1 = true)
    (htype : (w.call_peek_task env).2.self.current_task.type = INJECT_TASK_TYPE_DELAY)
    (hms : (w.call_peek_task env).2.self.current_task.delay_ms = 0) :
    run_next_task_fuel env (fuel + 1) w =
      run_next_task_fuel env fuel
        (((({ (w.call_peek_task env).2 with
              self := { (w.call_peek_task env).2.self with p_payload_provider := none } }
            : inject_world σ).emit effect.log_inject_task_succeeded).emit
              effect.app_timer_stop).zero_counter.set_state INJECT_STATE_IDLE) := by
  have q4 : (w.call_peek_task env).2.self.state = INJECT_STATE_IDLE := hst
  have q5 : (w.call_peek_task env).2.self.execute = true := hex
  have n1 : ¬ INJECT_TASK_TYPE_DELAY = INJECT_TASK_TYPE_PRESS_KEYS := by decide
  have n2 : ¬ INJECT_TASK_TYPE_DELAY = INJECT_TASK_TYPE_TYPE_STRING := by decide
  have n3 : ¬ INJECT_STATE_SUCCEEDED = INJECT_STATE_IDLE := by decide
  simp only [run_next_task_fuel]
  rw [if_neg (fun h => h hst)]
  simp only [hret, Bool.not_true, Bool.false_eq_true, if_false, htype, n1, n2, if_true,
    process_task_delay_with, hms, transfer_state_with, q4, n3, transfer_state_finish,
    inject_world.reset_payload_provider, inject_world.set_state, inject_world.zero_counter,
    inject_world.emit, q5]

theorem run_next_task_fuel_nothing_queued {σ : Type} (env : inject_env σ) (fuel : Nat)
    (w : inject_world σ) (hst : w.self.state = INJECT_STATE_IDLE)
    (hnone : w.m_ringbuf.wr_idx - w.m_ringbuf.peek_rd_idx = 0) :
    ∃ r, run_next_task_fuel env (fuel + 1) w = some r ∧
      r.self.state = INJECT_STATE_IDLE ∧ r.self.execute = false ∧
      r.m_ringbuf = ringbuf_peek_rewind w.m_ringbuf ∧ r.trace = w.trace := by
  obtain ⟨g1, -, -, -, g5⟩ := peek_task_fault w.m_ringbuf w.self.current_task
    env.p_current_task_data w.self.current_task_data (Or.inl hnone)
  refine ⟨_, run_next_task_fuel_end_of_script env fuel w hst g1, hst, rfl, ?_, rfl⟩
  show ringbuf_peek_rewind (peek_task _ _ _ _).rb = _
  rw [g5]
  rfl

theorem run_next_task_fuel_delay_zero_step {σ : Type} (env : inject_env σ) (fuel : Nat)
    (w : inject_world σ) (hst : w.self.state = INJECT_STATE_IDLE)
    (hex : w.self.execute = true)
    (hret : (w.call_peek_task env).1 = true)
    (htype : (w.call_peek_task env).2.self.current_task.type = INJECT_TASK_TYPE_DELAY)
    (hms : (w.call_peek_task env).2.self.current_task.delay_ms = 0) :
    ∃ w2, run_next_task_fuel env (fuel + 1) w = run_next_task_fuel env fuel w2 ∧
      w2.self.state = INJECT_STATE_IDLE ∧ w2.self.execute = true ∧
      w2.m_ringbuf = (w.call_peek_task env).2.m_ringbuf ∧
      w2.trace = w.trace ++ [effect.log_inject_task_succeeded, effect.app_timer_stop,
        effect.state_store INJECT_STATE_IDLE] := by
  refine ⟨_, run_next_task_fuel_delay_zero env fuel w hst hex hret htype hms, rfl, hex, rfl, ?_⟩
  show w.trace ++ _ ++ _ ++ _  = _
  simp

theorem run_next_task_single_delay_zero {σ : Type} (env : inject_env σ) (w : inject_world σ)
    (t : inject_task)
    (hst : w.self.state = INJECT_STATE_IDLE) (hex : w.self.execute = true)
    (hrd : w.m_ringbuf.rd_idx ≤ w.m_ringbuf.wr_idx)
    (hpk : w.m_ringbuf.peek_rd_idx = w.m_ringbuf.rd_idx)
    (hq : w.m_ringbuf.bytes_from w.m_ringbuf.rd_idx = task_bytes t)
    (ht : t.wf) (htype : t.type = INJECT_TASK_TYPE_DELAY) (hlen : t.data_len = 0)
    (hms : t.delay_ms = 0) :
    ∃ r, logitacker_processor_inject_run_next_task env w = some r ∧
      r.self.state = INJECT_STATE_IDLE ∧ r.self.execute = false ∧
      r.m_ringbuf = w.m_ringbuf ∧
      r.trace = w.trace ++ [effect.log_inject_task_succeeded, effect.app_timer_stop,
        effect.state_store INJECT_STATE_IDLE] := by
  have hl := congrArg List.length hq
  simp only [ringbuf.bytes_from, length_read_bytes, length_task_bytes] at hl
  have hq' : w.m_ringbuf.bytes_from w.m_ringbuf.peek_rd_idx = task_bytes t ++ [] ++ [] := by
    rw [hpk, hq]; simp
  have hp1 := peek_task_head_eq w.m_ringbuf t [] [] w.self.current_task env.p_current_task_data
    w.self.current_task_data (by omega) hq' ht (by rw [hlen]; rfl)
    (by rw [hlen]; exact Nat.zero_le _)
  have hb : run_next_task_bound w.m_ringbuf = 19 + 1 + 1 := by
    simp only [run_next_task_bound]; omega
  have hrb : (w.call_peek_task env).2.m_ringbuf =
      { w.m_ringbuf with
        peek_rd_idx := w.m_ringbuf.peek_rd_idx + sizeof_inject_task_t + t.data_len } := by
    show (peek_task _ _ _ _).rb = _
    rw [hp1]
  obtain ⟨w2, e1, a1, -, a3, a4⟩ := run_next_task_fuel_delay_zero_step env (19 + 1) w hst hex
    (by show (peek_task _ _ _ _).ret = true; rw [hp1])
    (by show (peek_task _ _ _ _).task.type = _; rw [hp1]; exact htype)
    (by show (peek_task _ _ _ _).task.delay_ms = _; rw [hp1]; exact hms)
  rw [hrb] at a3
  obtain ⟨r, e2, b1, b2, b3, b4⟩ := run_next_task_fuel_nothing_queued env 19 w2 a1
    (by rw [a3]; simp only [sizeof_inject_task_t]; omega)
  refine ⟨r, ?_, b1, b2, ?_, by rw [b4, a4]⟩
  · simp only [logitacker_processor_inject_run_next_task]
    rw [hb, e1, e2]
  · rw [b3, a3]
    simp only [ringbuf_peek_rewind]
    cases hw : w.m_ringbuf
    rw [hw] at hpk
    simp only at hpk
    simp [hpk]

/-- C9 (amended): empty-delay fast path.  From an Idle engine whose queue holds
exactly one Delay task with `delay_ms = 0` (peek cursor at the consume
cursor), `set_execute(true)` returns within the single call with final state
Idle and `execute` cleared.  The task goes straight from Idle to Succeeded:
the only things recorded are the `inject task succeeded` line, one timer stop
and one store of Idle to the state member, so there is no store of Working,
no timer start and no radio write; the queue is as it was before. -/
theorem empty_delay_fast_path {σ : Type} (env : inject_env σ) (w : inject_world σ)
    (t : inject_task)
    (hst : w.self.state = INJECT_STATE_IDLE)
    (hrd : w.m_ringbuf.rd_idx ≤ w.m_ringbuf.wr_idx)
    (hpk : w.m_ringbuf.peek_rd_idx = w.m_ringbuf.rd_idx)
    (hq : w.m_ringbuf.bytes_from w.m_ringbuf.rd_idx = task_bytes t)
    (ht : t.wf) (htype : t.type = INJECT_TASK_TYPE_DELAY) (hlen : t.data_len = 0)
    (hms : t.delay_ms = 0) :
    ∃ r, logitacker_processor_inject_start_execution env w true = some r ∧
      r.self.state = INJECT_STATE_IDLE ∧ r.self.execute = false ∧
      r.m_ringbuf = w.m_ringbuf ∧
      r.trace = w.trace ++ [effect.log_inject_task_succeeded, effect.app_timer_stop,
        effect.state_store INJECT_STATE_IDLE] :=
  run_next_task_single_delay_zero env
    { w with self := { w.self with execute := true } } t hst rfl hrd hpk hq ht htype hlen hms

/-! ## The claims about the task buffer -/

theorem push_task_full_write_log (rb : ringbuf) (task : inject_task) (p_data : List Nat)
    (h1 : task.data_len ≤ INJECT_MAX_TASK_DATA_SIZE)
    (h2 : sizeof_inject_task_t + task.data_len ≤ ringbuf_available_fetch rb) :
    (push_task rb task p_data).log = none := by
  have := push_task_full_write rb task p_data h1 h2
  unfold push_task at this ⊢
  simp only [gt_iff_lt, Nat.not_lt.mpr h1, if_false, Nat.not_lt.mpr h2] at this ⊢
  split_ifs at this ⊢ <;> simp_all

/-- C2 (counterexample): a push with a 256-byte payload into a flushed buffer
returns true and logs no error, so it does not fail as too large. -/
theorem push_256_bytes_accepted :
    (push_task example_flushed (example_sized_task 256).1 (example_sized_task 256).2).ret = true ∧
    (push_task example_flushed (example_sized_task 256).1 (example_sized_task 256).2).log = none := by
  decide

/-- C2 (amended): when header plus payload fit into the available capacity, a
push whose payload length is at most 256 bytes (so exactly 255 and exactly 256
too) returns true; a push whose payload length is 257 or more returns false,
logs the too-large error and leaves the buffer as it was. -/
theorem push_task_size_limit (rb : ringbuf) (task : inject_task) (p_data : List Nat) :
    (task.data_len ≤ 256 →
      sizeof_inject_task_t + task.data_len ≤ ringbuf_available_fetch rb →
      (push_task rb task p_data).ret = true ∧ (push_task rb task p_data).log = none) ∧
    (257 ≤ task.data_len →
      (push_task rb task p_data).ret = false ∧
      (push_task rb task p_data).log = some push_error.too_large ∧
      (push_task rb task p_data).rb = rb) := by
  refine ⟨fun h1 h2 => ⟨push_task_full_write rb task p_data h1 h2,
    push_task_full_write_log rb task p_data h1 h2⟩, fun h => ?_⟩
  have hgt : task.data_len > INJECT_MAX_TASK_DATA_SIZE := by
    simp only [INJECT_MAX_TASK_DATA_SIZE]; omega
  obtain ⟨a, b, c⟩ := push_task_refuses rb task p_data (Or.inl hgt)
  exact ⟨a, c.mpr hgt, b⟩

/-- C2 (witness): the amended size limit at payload lengths 255 and 257 on a flushed buffer. -/
theorem push_task_size_limit_witness :
    ((push_task example_flushed (example_sized_task 255).1 (example_sized_task 255).2).ret = true ∧
      (push_task example_flushed (example_sized_task 255).1 (example_sized_task 255).2).log
        = none) ∧
    ((push_task example_flushed (example_sized_task 257).1 (example_sized_task 257).2).ret = false ∧
      (push_task example_flushed (example_sized_task 257).1 (example_sized_task 257).2).log
        = some push_error.too_large ∧
      (push_task example_flushed (example_sized_task 257).1 (example_sized_task 257).2).rb
        = example_flushed) :=
  ⟨(push_task_size_limit example_flushed (example_sized_task 255).1
      (example_sized_task 255).2).1 (by decide) (by decide),
   (push_task_size_limit example_flushed (example_sized_task 257).1
      (example_sized_task 257).2).2 (by decide)⟩

/-- C3 (witness): a refused 300-byte push leaves the example buffer as it was. -/
theorem push_task_failed_unchanged_witness :
    (push_task example_near_wrap (example_sized_task 300).1 (example_sized_task 300).2).rb
        = example_near_wrap ∧
      ((push_task example_near_wrap (example_sized_task 300).1 (example_sized_task 300).2).log
          = some push_error.too_large ∨
        (push_task example_near_wrap (example_sized_task 300).1 (example_sized_task 300).2).log
          = some push_error.no_space) :=
  push_task_failed_unchanged example_near_wrap (example_sized_task 300).1
    (example_sized_task 300).2 (by decide)

/-- C1 (witness): a string task and a delay task pushed eight bytes before the
wrap boundary are read back in order by three pops and by three peeks. -/
theorem fifo_round_trip_witness :
    (pop_tasks 3
        (push_task (push_task example_near_wrap example_string_task.1 example_string_task.2).rb
          example_delay_task.1 example_delay_task.2).rb
        example_zero_task 99 example_scratch).map task_out.view =
      [example_string_task, example_delay_task].map queued_task.view ++ [none] ∧
    (peek_tasks 3
        (push_task (push_task example_near_wrap example_string_task.1 example_string_task.2).rb
          example_delay_task.1 example_delay_task.2).rb
        example_zero_task 99 example_scratch).map task_out.view =
      [example_string_task, example_delay_task].map queued_task.view ++ [none] :=
  fifo_round_trip example_near_wrap _ [example_string_task, example_delay_task]
    example_zero_task 99 example_scratch (by decide)
    (by simp [queued_task.wf, inject_task.wf, example_string_task, example_delay_task,
      INJECT_TASK_TYPE_TYPE_STRING, INJECT_TASK_TYPE_DELAY])
    rfl

theorem pop_task_flushed (rb : ringbuf) (p : inject_task) (a : Nat) (buf : List Nat) :
    (pop_task (flush_tasks rb) p a buf).ret = false ∧
    (peek_task (flush_tasks rb) p a buf).ret = false :=
  ⟨(pop_task_fault (flush_tasks rb) p a buf (Or.inl rfl)).1,
   (peek_task_fault (flush_tasks rb) p a buf (Or.inl rfl)).1⟩

/-- C4 (counterexample): `peek_task` does not flush.  With one task queued and
already peeked, the next `peek_task` returns false yet leaves the task in the
buffer (20 bytes stay in use and a `pop_task` still returns it); with five stray
bytes stored (a short header) `peek_task` returns false and the five bytes stay
in use. -/
theorem peek_task_does_not_flush :
    ((peek_task (peek_task (push_task_delay example_flushed 500).rb example_zero_task 99
        example_scratch).rb example_zero_task 99 example_scratch).ret = false ∧
      ringbuf_available_fetch (peek_task (peek_task (push_task_delay example_flushed 500).rb
        example_zero_task 99 example_scratch).rb example_zero_task 99 example_scratch).rb
        = 32748 ∧
      (pop_task (peek_task (peek_task (push_task_delay example_flushed 500).rb
        example_zero_task 99 example_scratch).rb example_zero_task 99 example_scratch).rb
        example_zero_task 99 example_scratch).ret = true) ∧
    ((peek_task example_short_header example_zero_task 99 example_scratch).ret = false ∧
      ringbuf_available_fetch
        (peek_task example_short_header example_zero_task 99 example_scratch).rb = 32763) := by
  decide

/-- C4 (amended): in each of the four fault cases (nothing stored, short
header, stored `data_len` above the maximum, short payload), judged from the
consume cursor, `pop_task` returns false, sets the output header to kind Delay
with `data_len` 0 and `delay_ms` 0, and flushes the buffer: the available
capacity is 32768 and every following pop or peek returns false.  In the same
four cases, judged from the peek cursor, `peek_task` returns false with the
same Delay header and does not flush: it rewinds the peek cursor to the consume
cursor and leaves the stored bytes, the write cursor and the consume cursor as
they were. -/
theorem framing_fault_handling (rb : ringbuf) (p_task : inject_task) (p_task_data_buf : Nat)
    (buf : List Nat) :
    (framing_fault rb rb.rd_idx →
      (pop_task rb p_task p_task_data_buf buf).ret = false ∧
      (pop_task rb p_task p_task_data_buf buf).task.type = INJECT_TASK_TYPE_DELAY ∧
      (pop_task rb p_task p_task_data_buf buf).task.data_len = 0 ∧
      (pop_task rb p_task p_task_data_buf buf).task.delay_ms = 0 ∧
      (pop_task rb p_task p_task_data_buf buf).rb = flush_tasks rb ∧
      ringbuf_available_fetch (pop_task rb p_task p_task_data_buf buf).rb
        = INJECT_RINGBUF_BYTES ∧
      ∀ (p : inject_task) (a : Nat) (b : List Nat),
        (pop_task (pop_task rb p_task p_task_data_buf buf).rb p a b).ret = false ∧
        (peek_task (pop_task rb p_task p_task_data_buf buf).rb p a b).ret = false) ∧
    (framing_fault rb rb.peek_rd_idx →
      (peek_task rb p_task p_task_data_buf buf).ret = false ∧
      (peek_task rb p_task p_task_data_buf buf).task.type = INJECT_TASK_TYPE_DELAY ∧
      (peek_task rb p_task p_task_data_buf buf).task.data_len = 0 ∧
      (peek_task rb p_task p_task_data_buf buf).task.delay_ms = 0 ∧
      (peek_task rb p_task p_task_data_buf buf).rb = ringbuf_peek_rewind rb) := by
  refine ⟨fun h => ?_, fun h => peek_task_fault rb p_task p_task_data_buf buf h⟩
  obtain ⟨a1, a2, a3, a4, a5⟩ := pop_task_fault rb p_task p_task_data_buf buf h
  refine ⟨a1, a2, a3, a4, a5, ?_, ?_⟩
  · rw [a5]; rfl
  · intro p a b
    rw [a5]
    exact pop_task_flushed rb p a b

/-- C4 (witness): the fault handling of both operations on a buffer holding five stray bytes. -/
theorem framing_fault_handling_witness :
    ((pop_task example_short_header example_zero_task 99 example_scratch).ret = false ∧
      (pop_task example_short_header example_zero_task 99 example_scratch).task.type
        = INJECT_TASK_TYPE_DELAY ∧
      (pop_task example_short_header example_zero_task 99 example_scratch).task.data_len = 0 ∧
      (pop_task example_short_header example_zero_task 99 example_scratch).task.delay_ms = 0 ∧
      (pop_task example_short_header example_zero_task 99 example_scratch).rb
        = flush_tasks example_short_header ∧
      ringbuf_available_fetch
        (pop_task example_short_header example_zero_task 99 example_scratch).rb
        = INJECT_RINGBUF_BYTES ∧
      ∀ (p : inject_task) (a : Nat) (b : List Nat),
        (pop_task (pop_task example_short_header example_zero_task 99 example_scratch).rb
          p a b).ret = false ∧
        (peek_task (pop_task example_short_header example_zero_task 99 example_scratch).rb
          p a b).ret = false) ∧
    ((peek_task example_short_header example_zero_task 99 example_scratch).ret = false ∧
      (peek_task example_short_header example_zero_task 99 example_scratch).task.type
        = INJECT_TASK_TYPE_DELAY ∧
      (peek_task example_short_header example_zero_task 99 example_scratch).task.data_len = 0 ∧
      (peek_task example_short_header example_zero_task 99 example_scratch).task.delay_ms = 0 ∧
      (peek_task example_short_header example_zero_task 99 example_scratch).rb
        = ringbuf_peek_rewind example_short_header) :=
  ⟨(framing_fault_handling example_short_header example_zero_task 99 example_scratch).1
      (by decide),
   (framing_fault_handling example_short_header example_zero_task 99 example_scratch).2
      (by decide)⟩

/-- C5: for a buffer whose peek cursor equals its consume cursor, a successful
`peek_task` followed by `ringbuf_peek_rewind` gives back the buffer as it was
before the peek, and a `pop_task` on it (whatever the out-parameters held
before) returns true with the same header and the same payload bytes as the
peek. -/
theorem peek_rewind_then_pop (rb : ringbuf) (p_task : inject_task) (p_task_data_buf : Nat)
    (buf : List Nat) (p_task2 : inject_task) (buf2 : List Nat)
    (hcur : rb.peek_rd_idx = rb.rd_idx)
    (hpeek : (peek_task rb p_task p_task_data_buf buf).ret = true) :
    ringbuf_peek_rewind (peek_task rb p_task p_task_data_buf buf).rb = rb ∧
    (pop_task (ringbuf_peek_rewind (peek_task rb p_task p_task_data_buf buf).rb)
      p_task2 p_task_data_buf buf2).ret = true ∧
    (pop_task (ringbuf_peek_rewind (peek_task rb p_task p_task_data_buf buf).rb)
      p_task2 p_task_data_buf buf2).task = (peek_task rb p_task p_task_data_buf buf).task ∧
    (pop_task (ringbuf_peek_rewind (peek_task rb p_task p_task_data_buf buf).rb)
      p_task2 p_task_data_buf buf2).view = (peek_task rb p_task p_task_data_buf buf).view := by
  have hnf : ¬ framing_fault rb rb.peek_rd_idx := by
    intro hf
    rw [(peek_task_fault rb p_task p_task_data_buf buf hf).1] at hpeek
    exact absurd hpeek (by simp)
  have hnf2 : ¬ framing_fault rb rb.rd_idx := by rw [← hcur]; exact hnf
  have hrw : ringbuf_peek_rewind (peek_task rb p_task p_task_data_buf buf).rb = rb := by
    rw [peek_task_no_fault rb p_task p_task_data_buf buf hnf]
    cases rb
    simp only at hcur
    simp [ringbuf_peek_rewind, hcur]
  rw [hrw, pop_task_no_fault_eq rb p_task2 p_task_data_buf buf2 hnf2,
    peek_task_no_fault rb p_task p_task_data_buf buf hnf, hcur]
  refine ⟨rfl, rfl, rfl, ?_⟩
  have hdl : (task_of_bytes (read_bytes rb.p_buffer rb.rd_idx sizeof_inject_task_t)).data_len
      = stored_data_len rb rb.rd_idx := rfl
  simp only [task_out.view, if_true, hdl]
  have hlen := length_read_bytes rb.p_buffer (stored_data_len rb rb.rd_idx)
    (rb.rd_idx + sizeof_inject_task_t)
  rw [List.take_append_of_le_length (by rw [hlen]), List.take_append_of_le_length (by rw [hlen])]

/-- C5 (witness): peek, rewind and pop of a delay task stored eight bytes before the wrap boundary. -/
theorem peek_rewind_then_pop_witness :
    ringbuf_peek_rewind (peek_task (push_task_delay example_near_wrap 500).rb
      example_zero_task 99 example_scratch).rb = (push_task_delay example_near_wrap 500).rb ∧
    (pop_task (ringbuf_peek_rewind (peek_task (push_task_delay example_near_wrap 500).rb
      example_zero_task 99 example_scratch).rb) example_zero_task 99 []).ret = true ∧
    (pop_task (ringbuf_peek_rewind (peek_task (push_task_delay example_near_wrap 500).rb
      example_zero_task 99 example_scratch).rb) example_zero_task 99 []).task =
      (peek_task (push_task_delay example_near_wrap 500).rb example_zero_task 99
        example_scratch).task ∧
    (pop_task (ringbuf_peek_rewind (peek_task (push_task_delay example_near_wrap 500).rb
      example_zero_task 99 example_scratch).rb) example_zero_task 99 []).view =
      (peek_task (push_task_delay example_near_wrap 500).rb example_zero_task 99
        example_scratch).view :=
  peek_rewind_then_pop (push_task_delay example_near_wrap 500).rb example_zero_task 99
    example_scratch example_zero_task [] (by decide) (by decide)

/-- C6: pushed into a flushed buffer, every task of a sequence whose payload
lengths are admissible and whose total size, headers included, is at most
32768 bytes is accepted; and a push whose header plus payload exceeds the
available capacity returns false. -/
theorem push_capacity (rb0 : ringbuf) (ts : List queued_task)
    (hmax : ∀ td ∈ ts, td.1.data_len ≤ INJECT_MAX_TASK_DATA_SIZE)
    (hsize : tasks_size ts ≤ INJECT_RINGBUF_BYTES) :
    (∃ rb1, push_tasks (flush_tasks rb0) ts = some rb1) ∧
    ∀ (rb : ringbuf) (task : inject_task) (p_data : List Nat),
      sizeof_inject_task_t + task.data_len > ringbuf_available_fetch rb →
      (push_task rb task p_data).ret = false := by
  refine ⟨push_tasks_fit ts (flush_tasks rb0) (Nat.le_refl _) ?_ hmax, ?_⟩
  · show 0 - 0 + tasks_size ts ≤ _
    omega
  · intro rb task p_data h
    exact (push_task_refuses rb task p_data (Or.inr h)).1

/-- C6 (witness): two tasks fit into a flushed buffer, and a push into a buffer
with eight free bytes is refused. -/
theorem push_capacity_witness :
    (∃ rb1, push_tasks (flush_tasks example_near_wrap)
        [example_string_task, example_delay_task] = some rb1) ∧
    (push_task example_almost_full example_delay_task.1 example_delay_task.2).ret = false :=
  ⟨(push_capacity example_near_wrap [example_string_task, example_delay_task]
      (by decide) (by decide)).1,
   (push_capacity example_near_wrap [example_string_task, example_delay_task]
      (by decide) (by decide)).2 example_almost_full example_delay_task.1 example_delay_task.2
      (by decide)⟩

/-! ## The claims about the engine -/

/-- C7 (counterexample): the script `delay 100` is run to its end with execute
set: after the timer expiry the engine is Idle, yet the consume cursor is
still 0, 20 bytes are still in use and `pop_task` still returns the delay
task, so the buffer is not empty. -/
theorem completed_task_stays_queued :
    (((logitacker_processor_inject_delay example_env example_world 100).bind
        (fun w => logitacker_processor_inject_start_execution example_env w true)).bind
        (fun w => processor_inject_timer_handler_func_ example_env w)).map
      (fun w => (w.self.state, w.m_ringbuf.rd_idx, ringbuf_available_fetch w.m_ringbuf,
        (pop_task w.m_ringbuf example_zero_task 0 example_scratch).view)) =
    some (INJECT_STATE_IDLE, 0, 32748, some (INJECT_TASK_TYPE_DELAY, 0, 100, 0, [])) := by
  rfl

/-- C7 (witness): the timer expiry of a delay task and the TX success of an
exhausted string task, on the example engine. -/
theorem task_completion_keeps_queue_witness :
    (∃ r, processor_inject_timer_handler_func_ example_env example_delay_working = some r ∧
        r.m_ringbuf.rd_idx = example_delay_working.m_ringbuf.rd_idx ∧
        r.m_ringbuf.wr_idx = example_delay_working.m_ringbuf.wr_idx ∧
        r.m_ringbuf.p_buffer = example_delay_working.m_ringbuf.p_buffer ∧
        (example_delay_working.self.execute = true → r.self.state = INJECT_STATE_IDLE →
          r.m_ringbuf.peek_rd_idx = r.m_ringbuf.rd_idx)) ∧
    (∃ r, processor_inject_esb_handler_func_ example_env example_string_working
          NRF_ESB_EVENT_TX_SUCCESS = some r ∧
        r.m_ringbuf.rd_idx = example_string_working.m_ringbuf.rd_idx ∧
        r.m_ringbuf.wr_idx = example_string_working.m_ringbuf.wr_idx ∧
        r.m_ringbuf.p_buffer = example_string_working.m_ringbuf.p_buffer ∧
        (example_string_working.self.execute = true → r.self.state = INJECT_STATE_IDLE →
          r.m_ringbuf.peek_rd_idx = r.m_ringbuf.rd_idx)) :=
  ⟨(task_completion_keeps_queue example_env example_delay_working rfl).1 rfl,
   (task_completion_keeps_queue example_env example_string_working rfl).2
      NRF_ESB_EVENT_TX_SUCCESS (example_provider 0) (Or.inl rfl) (by decide) rfl rfl⟩

/-- C8 (counterexample): the engine works on `string "x"` with counter 0; after
exactly 10 `TX_FAILED` events the state is still Working, the counter is 10 and
no task has been failed. -/
theorem ten_failures_not_yet_failed :
    (example_working.bind (fun w => processor_inject_esb_events example_env w
        (List.replicate 10 NRF_ESB_EVENT_TX_FAILED))).map
      (fun w => (w.self.state, w.self.retransmit_counter,
        decide (effect.log_inject_task_failed ∈ w.trace),
        (w.trace.filter (fun e => decide (e = effect.nrf_esb_start_tx))).length)) =
    some (INJECT_STATE_WORKING, 10, false, 10) := by
  decide

/-- C8 (witness): the retransmit budget on the example engine working on a string task. -/
theorem retransmit_budget_witness :
    processor_inject_esb_events example_env example_string_working
        (List.replicate 10 NRF_ESB_EVENT_TX_FAILED) =
      some { example_string_working with
             self := { example_string_working.self with retransmit_counter := 10 }
             trace := example_string_working.trace ++
               List.replicate 10 effect.nrf_esb_start_tx } ∧
    ∀ evt : nrf_esb_evt_id,
      ∃ wf, transfer_state example_env
          { example_string_working with
            self := { example_string_working.self with retransmit_counter := 10 }
            trace := example_string_working.trace ++
              List.replicate 10 effect.nrf_esb_start_tx }
          INJECT_STATE_FAILED = some wf ∧
        wf.self.retransmit_counter = 0 ∧
        (wf.self.state = INJECT_STATE_IDLE ∨
          (wf.self.state = INJECT_STATE_WORKING ∧
            example_string_working.self.execute = true)) ∧
        processor_inject_esb_handler_func_ example_env
          { example_string_working with
            self := { example_string_working.self with retransmit_counter := 10 }
            trace := example_string_working.trace ++
              List.replicate 10 effect.nrf_esb_start_tx } evt =
          esb_handler_switch example_env wf evt :=
  retransmit_budget example_env example_string_working rfl rfl

/-- C9 (counterexample): with the single task `delay 0` queued,
`set_execute(true)` ends in Idle after one `inject task succeeded` record, one
timer stop and one store of Idle to the state member: the state member never
holds Working. -/
theorem delay_zero_never_working :
    ((logitacker_processor_inject_delay example_env example_world 0).bind
        (fun w => logitacker_processor_inject_start_execution example_env w true)).map
      (fun w => (w.self.state, w.trace)) =
    some (INJECT_STATE_IDLE, [effect.log_inject_task_succeeded, effect.app_timer_stop,
      effect.state_store INJECT_STATE_IDLE]) := by
  decide

/-- C9 (witness): the fast path on the example engine with `delay 0` queued. -/
theorem empty_delay_fast_path_witness :
    ∃ r, logitacker_processor_inject_start_execution example_env
        { example_world with m_ringbuf := (push_task_delay example_flushed 0).rb } true
        = some r ∧
      r.self.state = INJECT_STATE_IDLE ∧ r.self.execute = false ∧
      r.m_ringbuf = (push_task_delay example_flushed 0).rb ∧
      r.trace = [] ++ [effect.log_inject_task_succeeded, effect.app_timer_stop,
        effect.state_store INJECT_STATE_IDLE] :=
  empty_delay_fast_path example_env
    { example_world with m_ringbuf := (push_task_delay example_flushed 0).rb }
    example_delay_zero rfl (by decide) rfl (by decide) (by decide) rfl rfl rfl

theorem src_bytes_cstring (str : List Nat) :
    src_bytes str (strlen str + 1) = str.takeWhile (fun c => c != 0) ++ [0] := by
  induction str with
  | nil => rfl
  | cons c cs ih =>
    by_cases hc : c = 0
    · subst hc
      simp [src_bytes, strlen]
    · have hne : (c != 0) = true := by simp [hc]
      have e : strlen (c :: cs) = strlen cs + 1 := by
        simp [strlen, List.takeWhile_cons, hne]
      rw [e]
      simp only [src_bytes, strlen, List.length_cons, List.cons_append, List.take_succ_cons,
        List.takeWhile_cons, hne, if_true] at ih ⊢
      have e2 : (List.takeWhile (fun c => c != 0) cs).length + 1 + 1 - (cs.length + 1) =
          (List.takeWhile (fun c => c != 0) cs).length + 1 - cs.length := by omega
      rw [e2, ih]

theorem map_mod_cstring (str : List Nat) (h : ∀ c ∈ str, c < 256) :
    (str.takeWhile (fun c => c != 0) ++ [0]).map (fun b => b % 256) =
      str.takeWhile (fun c => c != 0) ++ [0] := by
  conv => rhs; rw [← List.map_id (str.takeWhile (fun c => c != 0) ++ [0])]
  apply List.map_congr_left
  intro b hb
  rcases List.mem_append.mp hb with hb | hb
  · exact Nat.mod_eq_of_lt (h b (List.takeWhile_subset _ hb))
  · simp only [List.mem_singleton] at hb
    subst hb
    rfl

theorem inject_autostart_eq {σ : Type} (env : inject_env σ) (w : inject_world σ) :
    inject_autostart env w =
      if w.self.state = INJECT_STATE_IDLE ∧ w.self.execute = true then
        logitacker_processor_inject_run_next_task env w
      else some w := by
  unfold inject_autostart
  by_cases h1 : w.self.state = INJECT_STATE_IDLE <;> by_cases h2 : w.self.execute = true <;>
    simp [h1, h2]

theorem push_task_refused_stores_nothing (rb : ringbuf) (task : inject_task)
    (p_data : List Nat) (h : (push_task rb task p_data).ret = false) :
    (push_task rb task p_data).rb = rb := by
  by_cases h1 : task.data_len ≤ INJECT_MAX_TASK_DATA_SIZE
  · by_cases h2 : sizeof_inject_task_t + task.data_len ≤ ringbuf_available_fetch rb
    · rw [push_task_full_write rb task p_data h1 h2] at h
      exact absurd h (by simp)
    · exact (push_task_refuses rb task p_data (Or.inr (by omega))).2.1
  · exact (push_task_refuses rb task p_data (Or.inl (by omega))).2.1

/-- C10: enqueue rule.  Each of `logitacker_processor_inject_string`, `_press` and
`_delay` makes one `push_task` call with a task of the matching kind (string
and press: the language tag, `data_len = strlen + 1`, and as payload the
characters followed by the terminating NUL; delay: `delay_ms` and `data_len`
0).  An accepted push extends the stored bytes by exactly that one task (a
refused one stores nothing).  Afterwards `run_next_task` is invoked if and only
if the state is Idle and `execute` is set; in every other case the engine
context and the call trace are left as they were. -/
theorem enqueue_rule {σ : Type} (env : inject_env σ) (w : inject_world σ)
    (lang p_str delay_ms : Nat) (str : List Nat) :
    (logitacker_processor_inject_string env w lang p_str str =
        (if w.self.state = INJECT_STATE_IDLE ∧ w.self.execute = true then
          logitacker_processor_inject_run_next_task env
            { w with m_ringbuf := (push_task w.m_ringbuf
                { type := INJECT_TASK_TYPE_TYPE_STRING, data_len := strlen str + 1, lang := lang,
                  delay_ms := 0, p_data_u8 := p_str } str).rb }
        else
          some { w with m_ringbuf := (push_task w.m_ringbuf
                { type := INJECT_TASK_TYPE_TYPE_STRING, data_len := strlen str + 1, lang := lang,
                  delay_ms := 0, p_data_u8 := p_str } str).rb })) ∧
    (logitacker_processor_inject_press env w lang p_str str =
        (if w.self.state = INJECT_STATE_IDLE ∧ w.self.execute = true then
          logitacker_processor_inject_run_next_task env
            { w with m_ringbuf := (push_task w.m_ringbuf
                { type := INJECT_TASK_TYPE_PRESS_KEYS, data_len := strlen str + 1, lang := lang,
                  delay_ms := 0, p_data_u8 := p_str } str).rb }
        else
          some { w with m_ringbuf := (push_task w.m_ringbuf
                { type := INJECT_TASK_TYPE_PRESS_KEYS, data_len := strlen str + 1, lang := lang,
                  delay_ms := 0, p_data_u8 := p_str } str).rb })) ∧
    (logitacker_processor_inject_delay env w delay_ms =
        (if w.self.state = INJECT_STATE_IDLE ∧ w.self.execute = true then
          logitacker_processor_inject_run_next_task env
            { w with m_ringbuf := (push_task w.m_ringbuf
                { type := INJECT_TASK_TYPE_DELAY, data_len := 0, lang := 0,
                  delay_ms := delay_ms, p_data_u8 := 0 } []).rb }
        else
          some { w with m_ringbuf := (push_task w.m_ringbuf
                { type := INJECT_TASK_TYPE_DELAY, data_len := 0, lang := 0,
                  delay_ms := delay_ms, p_data_u8 := 0 } []).rb })) ∧
    (w.m_ringbuf.wf → (∀ c ∈ str, c < 256) →
      ∀ t : inject_task, t.data_len = strlen str + 1 →
        (push_task w.m_ringbuf t str).ret = true →
        (push_task w.m_ringbuf t str).rb.bytes_from w.m_ringbuf.rd_idx =
          w.m_ringbuf.bytes_from w.m_ringbuf.rd_idx ++ task_bytes t ++
            (str.takeWhile (fun c => c != 0) ++ [0])) ∧
    (w.m_ringbuf.wf →
      ∀ t : inject_task, t.data_len = 0 →
        (push_task w.m_ringbuf t []).ret = true →
        (push_task w.m_ringbuf t []).rb.bytes_from w.m_ringbuf.rd_idx =
          w.m_ringbuf.bytes_from w.m_ringbuf.rd_idx ++ task_bytes t) ∧
    (∀ (t : inject_task) (p_data : List Nat),
      (push_task w.m_ringbuf t p_data).ret = false →
        (push_task w.m_ringbuf t p_data).rb = w.m_ringbuf) := by
  refine ⟨?_, ?_, ?_, ?_, ?_, fun t p_data h => push_task_refused_stores_nothing _ t p_data h⟩
  · simp only [logitacker_processor_inject_string, push_task_string, inject_autostart_eq]
  · simp only [logitacker_processor_inject_press, push_task_press, inject_autostart_eq]
  · simp only [logitacker_processor_inject_delay, push_task_delay, inject_autostart_eq]
  · intro hwf hstr t hlen hret
    obtain ⟨h1, h2, h3⟩ := hwf
    obtain ⟨g1, g2⟩ := push_task_ret_true _ _ _ hret
    obtain ⟨-, -, -, -, -, a6⟩ := push_task_accepts w.m_ringbuf t str (by omega) h3 g1 g2
    rw [a6 _ (Nat.le_refl _) (by omega), hlen, src_bytes_cstring, map_mod_cstring str hstr]
  · intro hwf t hlen hret
    obtain ⟨h1, h2, h3⟩ := hwf
    obtain ⟨g1, g2⟩ := push_task_ret_true _ _ _ hret
    obtain ⟨-, -, -, -, -, a6⟩ := push_task_accepts w.m_ringbuf t [] (by omega) h3 g1 g2
    rw [a6 _ (Nat.le_refl _) (by omega), hlen]
    simp [src_bytes]

/-- C10 (witness): the bytes stored by enqueueing the string task hi and the task
delay 500 on the example engine, and a refused 300-byte push. -/
theorem enqueue_rule_witness :
    (push_task example_world.m_ringbuf example_string_task.1 [104, 105, 0]).rb.bytes_from
        example_world.m_ringbuf.rd_idx =
      example_world.m_ringbuf.bytes_from example_world.m_ringbuf.rd_idx ++
        task_bytes example_string_task.1 ++
        ([104, 105, 0].takeWhile (fun c => c != 0) ++ [0]) ∧
    (push_task example_world.m_ringbuf example_delay_task.1 []).rb.bytes_from
        example_world.m_ringbuf.rd_idx =
      example_world.m_ringbuf.bytes_from example_world.m_ringbuf.rd_idx ++
        task_bytes example_delay_task.1 ∧
    (push_task example_world.m_ringbuf (example_sized_task 300).1
        (example_sized_task 300).2).rb = example_world.m_ringbuf :=
  ⟨(enqueue_rule example_env example_world 7 1000 500 [104, 105, 0]).2.2.2.1
      ⟨by decide, by decide, by decide⟩ (by decide) example_string_task.1 rfl (by decide),
   (enqueue_rule example_env example_world 7 1000 500 [104, 105, 0]).2.2.2.2.1
      ⟨by decide, by decide, by decide⟩ example_delay_task.1 rfl (by decide),
   (enqueue_rule example_env example_world 7 1000 500 [104, 105, 0]).2.2.2.2.2
      (example_sized_task 300).1 (example_sized_task 300).2 (by decide)⟩

/-! ## The recursion of the engine is independent of its bound -/

theorem transfer_state_finish_congr {σ : Type}
    (rnt1 rnt2 : inject_world σ → Option (inject_world σ)) (w : inject_world σ)
    (h : ∀ w' : inject_world σ, w'.m_ringbuf = w.m_ringbuf → rnt1 w' = rnt2 w') :
    transfer_state_finish rnt1 w = transfer_state_finish rnt2 w := by
  unfold transfer_state_finish
  simp only [h w.reset_payload_provider (reset_payload_provider_fields w).1]

theorem transfer_state_with_congr {σ : Type}
    (rnt1 rnt2 : inject_world σ → Option (inject_world σ)) (w : inject_world σ)
    (s : inject_state)
    (h : ∀ w' : inject_world σ, w'.m_ringbuf = w.m_ringbuf → rnt1 w' = rnt2 w') :
    transfer_state_with rnt1 w s = transfer_state_with rnt2 w s := by
  unfold transfer_state_with
  by_cases hs : s = w.self.state
  · simp only [hs, if_true]
  · simp only [hs, if_false]
    cases s
    · exact transfer_state_finish_congr rnt1 rnt2 _ (fun w' hw' => h w' hw')
    · rfl
    · exact transfer_state_finish_congr rnt1 rnt2 _ (fun w' hw' => h w' hw')
    · exact transfer_state_finish_congr rnt1 rnt2 _ (fun w' hw' => h w' hw')
    · rfl

theorem transfer_state_with_idle {σ : Type}
    (rnt : inject_world σ → Option (inject_world σ)) (w : inject_world σ) :
    transfer_state_with rnt w INJECT_STATE_IDLE =
      if w.self.state = INJECT_STATE_IDLE then some w
      else some ({ ((((w.emit effect.app_timer_stop).zero_counter).set_state
        INJECT_STATE_IDLE).set_state INJECT_STATE_IDLE) with
        self := { ((((w.emit effect.app_timer_stop).zero_counter).set_state
          INJECT_STATE_IDLE).set_state INJECT_STATE_IDLE).self with execute := false } }
        : inject_world σ).reset_payload_provider := by
  unfold transfer_state_with
  by_cases hs : INJECT_STATE_IDLE = w.self.state
  · simp only [hs, if_true]
  · have hs' : ¬ w.self.state = INJECT_STATE_IDLE := fun h => hs h.symm
    simp only [hs, hs', if_false, transfer_state_finish]
    rw [if_neg]
    rw [(reset_payload_provider_fields _).2.2.1]
    simp

theorem process_task_string_congr {σ : Type} (env : inject_env σ)
    (rnt1 rnt2 : inject_world σ → Option (inject_world σ)) (w : inject_world σ)
    (h : ∀ w' : inject_world σ, w'.m_ringbuf = w.m_ringbuf → rnt1 w' = rnt2 w') :
    process_task_string_with env rnt1 w = process_task_string_with env rnt2 w := by
  have hX : ∀ s, transfer_state_with rnt1
      ((w.emit effect.new_payload_provider_string).call_get_next
        (env.new_payload_provider_string w.self.p_device w.self.current_task.lang
          w.self.current_task_data)).2 s =
      transfer_state_with rnt2
      ((w.emit effect.new_payload_provider_string).call_get_next
        (env.new_payload_provider_string w.self.p_device w.self.current_task.lang
          w.self.current_task_data)).2 s :=
    fun s => transfer_state_with_congr rnt1 rnt2 _ s (fun w' hw' => h w' hw')
  unfold process_task_string_with
  simp only [hX]

theorem process_task_press_congr {σ : Type} (env : inject_env σ)
    (rnt1 rnt2 : inject_world σ → Option (inject_world σ)) (w : inject_world σ)
    (h : ∀ w' : inject_world σ, w'.m_ringbuf = w.m_ringbuf → rnt1 w' = rnt2 w') :
    process_task_press_with env rnt1 w = process_task_press_with env rnt2 w := by
  have hX : ∀ s, transfer_state_with rnt1
      ((w.emit effect.new_payload_provider_press).call_get_next
        (env.new_payload_provider_press w.self.p_device w.self.current_task.lang
          w.self.current_task_data)).2 s =
      transfer_state_with rnt2
      ((w.emit effect.new_payload_provider_press).call_get_next
        (env.new_payload_provider_press w.self.p_device w.self.current_task.lang
          w.self.current_task_data)).2 s :=
    fun s => transfer_state_with_congr rnt1 rnt2 _ s (fun w' hw' => h w' hw')
  unfold process_task_press_with
  simp only [hX]

theorem process_task_delay_congr {σ : Type}
    (rnt1 rnt2 : inject_world σ → Option (inject_world σ)) (w : inject_world σ)
    (h : ∀ w' : inject_world σ, w'.m_ringbuf = w.m_ringbuf → rnt1 w' = rnt2 w') :
    process_task_delay_with rnt1 w = process_task_delay_with rnt2 w := by
  have hX : ∀ s, transfer_state_with rnt1
      ({ w with self := { w.self with p_payload_provider := none } } : inject_world σ) s =
      transfer_state_with rnt2
      ({ w with self := { w.self with p_payload_provider := none } } : inject_world σ) s :=
    fun s => transfer_state_with_congr rnt1 rnt2 _ s (fun w' hw' => h w' hw')
  unfold process_task_delay_with
  simp only [hX]

theorem run_next_task_fuel_indep {σ : Type} (env : inject_env σ) (f1 : Nat) :
    ∀ (f2 : Nat) (w : inject_world σ), run_next_task_bound w.m_ringbuf ≤ f1 →
      run_next_task_bound w.m_ringbuf ≤ f2 →
      run_next_task_fuel env f1 w = run_next_task_fuel env f2 w := by
  induction f1 with
  | zero => intro f2 w h1; simp [run_next_task_bound] at h1
  | succ a ih =>
    intro f2 w h1 h2
    cases f2 with
    | zero => simp [run_next_task_bound] at h2
    | succ b =>
      simp only [run_next_task_bound] at h1 h2
      obtain ⟨-, -, -, q4, -, -, -, q8⟩ := call_peek_task_fields env w
      simp only [run_next_task_fuel]
      by_cases hst : w.self.state = INJECT_STATE_IDLE
      · have hn : ¬ (w.self.state ≠ INJECT_STATE_IDLE) := fun h => h hst
        simp only [if_neg hn]
        rw [hst] at q4
        cases hret : (w.call_peek_task env).1 with
        | false =>
          simp only [Bool.not_false, if_true, transfer_state_with_idle, q4]
        | true =>
          have hp := q8 hret
          have hc : ∀ w' : inject_world σ, w'.m_ringbuf = (w.call_peek_task env).2.m_ringbuf →
              run_next_task_fuel env a w' = run_next_task_fuel env b w' := by
            intro w' hw'
            apply ih
            · simp only [run_next_task_bound, hw']; omega
            · simp only [run_next_task_bound, hw']; omega
          simp only [Bool.not_true, Bool.false_eq_true, if_false,
            process_task_press_congr env _ _ _ hc, process_task_string_congr env _ _ _ hc,
            process_task_delay_congr _ _ _ hc,
            transfer_state_with_congr _ _ _ INJECT_STATE_FAILED hc]
      · simp only [if_pos hst]

theorem run_next_task_fuel_eq {σ : Type} (env : inject_env σ) (fuel : Nat)
    (w : inject_world σ) (h : run_next_task_bound w.m_ringbuf ≤ fuel) :
    run_next_task_fuel env fuel w = logitacker_processor_inject_run_next_task env w :=
  run_next_task_fuel_indep env fuel _ w h (Nat.le_refl _)

/-- One step of `logitacker_processor_inject_run_next_task`, with the callees
`transfer_state` and `process_task_*` calling back the function itself. -/
theorem run_next_task_unfold {σ : Type} (env : inject_env σ) (w : inject_world σ) :
    logitacker_processor_inject_run_next_task env w =
      if w.self.state ≠ INJECT_STATE_IDLE then some w
      else if !(w.call_peek_task env).1 then some (w.call_peek_task env).2.end_of_script
      else if (w.call_peek_task env).2.self.current_task.type = INJECT_TASK_TYPE_PRESS_KEYS then
        process_task_press_with env (logitacker_processor_inject_run_next_task env)
          (w.call_peek_task env).2
      else if (w.call_peek_task env).2.self.current_task.type = INJECT_TASK_TYPE_TYPE_STRING then
        process_task_string_with env (logitacker_processor_inject_run_next_task env)
          (w.call_peek_task env).2
      else if (w.call_peek_task env).2.self.current_task.type = INJECT_TASK_TYPE_DELAY then
        process_task_delay_with (logitacker_processor_inject_run_next_task env)
          (w.call_peek_task env).2
      else
        transfer_state env (w.call_peek_task env).2 INJECT_STATE_FAILED := by
  obtain ⟨-, -, -, q4, -, -, -, q8⟩ := call_peek_task_fields env w
  simp only [logitacker_processor_inject_run_next_task, run_next_task_bound, run_next_task_fuel,
    transfer_state]
  by_cases hst : w.self.state = INJECT_STATE_IDLE
  · have hn : ¬ (w.self.state ≠ INJECT_STATE_IDLE) := fun h => h hst
    simp only [if_neg hn]
    rw [hst] at q4
    cases hret : (w.call_peek_task env).1 with
    | false =>
      simp only [Bool.not_false, if_true, transfer_state_with_idle, q4, Option.map_some']
    | true =>
      have hp := q8 hret
      have hc : ∀ w' : inject_world σ, w'.m_ringbuf = (w.call_peek_task env).2.m_ringbuf →
          run_next_task_fuel env (w.m_ringbuf.wr_idx - w.m_ringbuf.peek_rd_idx) w' =
            logitacker_processor_inject_run_next_task env w' := by
        intro w' hw'
        apply run_next_task_fuel_eq
        simp only [run_next_task_bound, hw']; omega
      simp only [Bool.not_true, Bool.false_eq_true, if_false,
        process_task_press_congr env _ _ _ hc, process_task_string_congr env _ _ _ hc,
        process_task_delay_congr _ _ _ hc,
        transfer_state_with_congr _ _ _ INJECT_STATE_FAILED hc]
  · simp only [if_pos hst]

/-! ## The script listing -/

theorem fmt_s_append (d rest : List Nat) (h : 0 ∈ d) : fmt_s (d ++ rest) = fmt_s d := by
  unfold fmt_s
  congr 2
  induction d with
  | nil => exact absurd h (List.not_mem_nil _)
  | cons c cs ih =>
    by_cases hc : c = 0
    · simp [List.takeWhile, hc]
    · have hcs : 0 ∈ cs := by
        rcases List.mem_cons.mp h with h0 | h0
        · exact absurd h0.symm hc
        · exact h0
      simp only [List.cons_append, List.takeWhile, bne_iff_ne, ne_eq, hc, not_false_eq_true,
        decide_True, ih hcs]
      simp [hc, ih hcs]

theorem list_tasks_entry_stored (t : inject_task) (d rest : List Nat) (a k : Nat)
    (hp : queued_task.printable (t, d)) :
    list_tasks_entry { t with p_data_u8 := a } (d ++ rest) k = list_tasks_entry t d k := by
  unfold queued_task.printable at hp
  unfold list_tasks_entry
  by_cases h1 : t.type = INJECT_TASK_TYPE_DELAY
  · simp only [h1, if_true]
  · by_cases h2 : t.type = INJECT_TASK_TYPE_TYPE_STRING
    · simp only [h1, h2, if_true, if_false, fmt_s_append d rest (hp (Or.inl h2))]
    · by_cases h3 : t.type = INJECT_TASK_TYPE_PRESS_KEYS
      · simp only [h1, h2, h3, if_true, if_false, fmt_s_append d rest (hp (Or.inr h3))]
      · simp only [h1, h2, h3, if_false]

theorem ringbuf_peek_rewind_idem (rb : ringbuf) :
    ringbuf_peek_rewind (ringbuf_peek_rewind rb) = ringbuf_peek_rewind rb := rfl

theorem list_tasks_loop_succ (a fuel : Nat) (rb : ringbuf) (task : inject_task)
    (buf : List Nat) (k : Nat) (out : List cli_chunk) :
    list_tasks_loop a (fuel + 1) rb task buf k out =
      if (peek_task rb task a buf).ret then
        list_tasks_loop a fuel (peek_task rb task a buf).rb (peek_task rb task a buf).task
          (peek_task rb task a buf).data_buf (k + 1)
          (out ++ list_tasks_entry (peek_task rb task a buf).task
            (peek_task rb task a buf).data_buf k)
      else some ((peek_task rb task a buf).rb, out) := rfl

/-- The listing loop returns on every buffer content, with the bound
`run_next_task_bound`; it moves nothing but the peek cursor. -/
theorem list_tasks_loop_total (a : Nat) (fuel : Nat) :
    ∀ (rb : ringbuf) (task : inject_task) (buf : List Nat) (k : Nat) (out : List cli_chunk),
      rb.wr_idx - rb.peek_rd_idx < fuel →
      ∃ r, list_tasks_loop a fuel rb task buf k out = some r ∧
        ringbuf_peek_rewind r.1 = ringbuf_peek_rewind rb := by
  induction fuel with
  | zero => intro rb _ _ _ _ h; exact absurd h (Nat.not_lt_zero _)
  | succ fuel ih =>
    intro rb task buf k out hk
    rw [list_tasks_loop_succ]
    obtain ⟨q1, q2, q3⟩ := peek_task_frame rb task a buf
    cases hret : (peek_task rb task a buf).ret with
    | false =>
      simp only [Bool.false_eq_true, if_false]
      refine ⟨_, rfl, ?_⟩
      have hf : framing_fault rb rb.peek_rd_idx := by
        by_contra hn
        rw [peek_task_no_fault rb task a buf hn] at hret
        exact absurd hret (by simp)
      rw [(peek_task_fault rb task a buf hf).2.2.2.2]
      rfl
    | true =>
      simp only [if_true]
      have hp := peek_task_progress rb task a buf hret
      obtain ⟨r, hr, hrw⟩ := ih (peek_task rb task a buf).rb (peek_task rb task a buf).task
        (peek_task rb task a buf).data_buf (k + 1)
        (out ++ list_tasks_entry (peek_task rb task a buf).task
          (peek_task rb task a buf).data_buf k) (by omega)
      refine ⟨r, hr, ?_⟩
      rw [hrw]
      have hf : ¬ framing_fault rb rb.peek_rd_idx := by
        intro hn
        rw [(peek_task_fault rb task a buf hn).1] at hret
        exact absurd hret (by simp)
      rw [peek_task_no_fault rb task a buf hf]
      rfl

theorem list_tasks_loop_stored (a : Nat) (ts : List queued_task) :
    ∀ (fuel : Nat) (rb : ringbuf) (task : inject_task) (buf : List Nat) (k : Nat)
      (out : List cli_chunk),
      rb.wr_idx - rb.peek_rd_idx < fuel → rb.peek_rd_idx ≤ rb.wr_idx →
      rb.bytes_from rb.peek_rd_idx = tasks_bytes ts →
      (∀ td ∈ ts, queued_task.wf td) → (∀ td ∈ ts, td.1.data_len ≤ INJECT_MAX_TASK_DATA_SIZE) →
      (∀ td ∈ ts, queued_task.printable td) →
      ∃ r, list_tasks_loop a fuel rb task buf k out = some (r, out ++ list_entries ts k) := by
  induction ts with
  | nil =>
    intro fuel rb task buf k out hk hrd h _ _ _
    cases fuel with
    | zero => exact absurd hk (Nat.not_lt_zero _)
    | succ fuel =>
      have hl := congrArg List.length h
      simp only [ringbuf.bytes_from, length_read_bytes, tasks_bytes, List.length_nil] at hl
      have hf : framing_fault rb rb.peek_rd_idx := Or.inl hl
      rw [list_tasks_loop_succ, (peek_task_fault rb task a buf hf).1]
      simp only [Bool.false_eq_true, if_false, list_entries, List.append_nil]
      exact ⟨_, rfl⟩
  | cons td ts ih =>
    intro fuel rb task buf k out hk hrd h hwf hmax hpr
    cases fuel with
    | zero => exact absurd hk (Nat.not_lt_zero _)
    | succ fuel =>
      have hw := hwf td (List.mem_cons_self _ _)
      have hm := hmax td (List.mem_cons_self _ _)
      simp only [tasks_bytes] at h
      have e := peek_task_head_eq rb td.1 td.2 (tasks_bytes ts) task a buf hrd h hw.1 hw.2.1 hm
      obtain ⟨c1, c2⟩ := peek_task_head rb td.1 td.2 (tasks_bytes ts) task a buf hrd h
        hw.1 hw.2.1 hm
      have hprog : (peek_task rb task a buf).rb.wr_idx -
          (peek_task rb task a buf).rb.peek_rd_idx < fuel := by
        have := peek_task_progress rb task a buf (by rw [e])
        omega
      obtain ⟨r, hr⟩ := ih fuel (peek_task rb task a buf).rb (peek_task rb task a buf).task
        (peek_task rb task a buf).data_buf (k + 1)
        (out ++ list_tasks_entry (peek_task rb task a buf).task
          (peek_task rb task a buf).data_buf k) hprog c1 c2
        (fun x hx => hwf x (List.mem_cons_of_mem _ hx))
        (fun x hx => hmax x (List.mem_cons_of_mem _ hx))
        (fun x hx => hpr x (List.mem_cons_of_mem _ hx))
      refine ⟨r, ?_⟩
      rw [list_tasks_loop_succ, if_pos (by rw [e]), hr]
      rw [e]
      simp only [list_entries, List.append_assoc,
        list_tasks_entry_stored td.1 td.2 _ a k (hpr td (List.mem_cons_self _ _))]

/-- The listing returns on every buffer content and changes nothing but the
peek cursor, which it leaves on the consume cursor. -/
theorem list_tasks_total {σ : Type} (w : inject_world σ) (a : Nat) (buf : List Nat) :
    ∃ out, logitacker_processor_inject_list_tasks w a buf =
      some ({ w with m_ringbuf := ringbuf_peek_rewind w.m_ringbuf }, out) := by
  obtain ⟨r, hr, hrw⟩ := list_tasks_loop_total a
    (run_next_task_bound (ringbuf_peek_rewind w.m_ringbuf)) (ringbuf_peek_rewind w.m_ringbuf)
    { type := 0, data_len := 0, lang := 0, delay_ms := 0, p_data_u8 := 0 } buf 1
    [{ color := nrf_cli_color.NRF_CLI_VT100_COLOR_GREEN, text := "script start\r\n" }]
    (by simp [run_next_task_bound])
  unfold logitacker_processor_inject_list_tasks
  simp only [hr, Option.map_some', hrw, ringbuf_peek_rewind_idem]
  exact ⟨_, rfl⟩

theorem list_tasks_stored {σ : Type} (w : inject_world σ) (ts : List queued_task)
    (a : Nat) (buf : List Nat)
    (hrd : w.m_ringbuf.rd_idx ≤ w.m_ringbuf.wr_idx)
    (hq : w.m_ringbuf.bytes_from w.m_ringbuf.rd_idx = tasks_bytes ts)
    (hwf : ∀ td ∈ ts, queued_task.wf td)
    (hmax : ∀ td ∈ ts, td.1.data_len ≤ INJECT_MAX_TASK_DATA_SIZE)
    (hpr : ∀ td ∈ ts, queued_task.printable td) :
    logitacker_processor_inject_list_tasks w a buf =
      some ({ w with m_ringbuf := ringbuf_peek_rewind w.m_ringbuf },
        script_start :: list_entries ts 1 ++ [script_end]) := by
  obtain ⟨out, ho⟩ := list_tasks_total w a buf
  obtain ⟨r, hr⟩ := list_tasks_loop_stored a ts
    (run_next_task_bound (ringbuf_peek_rewind w.m_ringbuf)) (ringbuf_peek_rewind w.m_ringbuf)
    { type := 0, data_len := 0, lang := 0, delay_ms := 0, p_data_u8 := 0 } buf 1
    [{ color := nrf_cli_color.NRF_CLI_VT100_COLOR_GREEN, text := "script start\r\n" }]
    (by simp [run_next_task_bound]) hrd hq hwf hmax hpr
  rw [ho]
  unfold logitacker_processor_inject_list_tasks at ho
  simp only [hr, Option.map_some', Option.some.injEq, Prod.mk.injEq] at ho
  rw [← ho.2]
  rfl

/-! ## The claims about listing, clearing, pausing and teardown -/

/-- C11: listing.  Let the buffer hold, from the consume cursor on, the
well-formed tasks `ts` (payloads of at most 256 bytes, string and combo
payloads with their terminating NUL), with the peek cursor anywhere.  Then
`list` returns, and prints `script start`, one entry per task in queue order,
numbered from 1 with `%04d`, and `script end`.  It changes nothing but the peek
cursor (stored bytes, consume and write cursor, the whole context and the
calls made so far stay as they were), and the peek cursor ends on the consume
cursor.  Hence a second `list` prints the same, and a `pop_task` after it
returns the first task, or false for the empty queue. -/
theorem list_tasks_lists_queue {σ : Type} (w : inject_world σ) (ts : List queued_task)
    (p_task_data : Nat) (task_data task_data2 : List Nat)
    (p_task : inject_task) (p_task_data_buf : Nat) (buf : List Nat)
    (hrd : w.m_ringbuf.rd_idx ≤ w.m_ringbuf.wr_idx)
    (hq : w.m_ringbuf.bytes_from w.m_ringbuf.rd_idx = tasks_bytes ts)
    (hwf : ∀ td ∈ ts, queued_task.wf td)
    (hmax : ∀ td ∈ ts, td.1.data_len ≤ INJECT_MAX_TASK_DATA_SIZE)
    (hpr : ∀ td ∈ ts, queued_task.printable td) :
    ∃ w1 : inject_world σ,
      logitacker_processor_inject_list_tasks w p_task_data task_data =
        some (w1, script_start :: list_entries ts 1 ++ [script_end]) ∧
      w1.self = w.self ∧ w1.trace = w.trace ∧
      w1.m_ringbuf.p_buffer = w.m_ringbuf.p_buffer ∧
      w1.m_ringbuf.wr_idx = w.m_ringbuf.wr_idx ∧
      w1.m_ringbuf.rd_idx = w.m_ringbuf.rd_idx ∧
      w1.m_ringbuf.peek_rd_idx = w.m_ringbuf.rd_idx ∧
      logitacker_processor_inject_list_tasks w1 p_task_data task_data2 =
        some (w1, script_start :: list_entries ts 1 ++ [script_end]) ∧
      (pop_task w1.m_ringbuf p_task p_task_data_buf buf).view =
        ts.head?.bind queued_task.view := by
  refine ⟨{ w with m_ringbuf := ringbuf_peek_rewind w.m_ringbuf },
    list_tasks_stored w ts p_task_data task_data hrd hq hwf hmax hpr,
    rfl, rfl, rfl, rfl, rfl, rfl,
    list_tasks_stored { w with m_ringbuf := ringbuf_peek_rewind w.m_ringbuf } ts p_task_data
      task_data2 hrd hq hwf hmax hpr, ?_⟩
  have hrd1 : (ringbuf_peek_rewind w.m_ringbuf).rd_idx ≤ (ringbuf_peek_rewind w.m_ringbuf).wr_idx :=
    hrd
  have hq1 : (ringbuf_peek_rewind w.m_ringbuf).bytes_from (ringbuf_peek_rewind w.m_ringbuf).rd_idx
      = tasks_bytes ts := hq
  have h := pop_tasks_stored ts (ringbuf_peek_rewind w.m_ringbuf) p_task p_task_data_buf buf
    hrd1 hq1 hwf hmax
  rw [pop_tasks_succ] at h
  cases ts with
  | nil =>
    simp only [List.map_cons, List.map_nil, List.nil_append, List.cons.injEq] at h
    rw [h.1]
    rfl
  | cons td ts =>
    simp only [List.map_cons, List.cons_append, List.cons.injEq] at h
    rw [h.1]
    rfl

theorem list_tasks_lists_queue_witness :
    ∃ w1 : inject_world Nat,
      logitacker_processor_inject_list_tasks example_listing_world 0 example_scratch =
        some (w1,
          [{ color := nrf_cli_color.NRF_CLI_VT100_COLOR_GREEN, text := "script start\r\n" },
           { color := nrf_cli_color.NRF_CLI_DEFAULT, text := "0001: inject " },
           { color := nrf_cli_color.NRF_CLI_VT100_COLOR_YELLOW, text := "delay " },
           { color := nrf_cli_color.NRF_CLI_DEFAULT, text := "100\r\n" },
           { color := nrf_cli_color.NRF_CLI_DEFAULT, text := "0002: inject " },
           { color := nrf_cli_color.NRF_CLI_VT100_COLOR_YELLOW, text := "string " },
           { color := nrf_cli_color.NRF_CLI_DEFAULT, text := "hi\r\n" },
           { color := nrf_cli_color.NRF_CLI_DEFAULT, text := "0003: inject " },
           { color := nrf_cli_color.NRF_CLI_VT100_COLOR_YELLOW, text := "press " },
           { color := nrf_cli_color.NRF_CLI_DEFAULT, text := "GUI+L\r\n" },
           { color := nrf_cli_color.NRF_CLI_VT100_COLOR_GREEN, text := "script end\r\n" }]) ∧
      w1.self = example_listing_world.self ∧ w1.trace = example_listing_world.trace ∧
      w1.m_ringbuf.p_buffer = example_listing_world.m_ringbuf.p_buffer ∧
      w1.m_ringbuf.wr_idx = example_listing_world.m_ringbuf.wr_idx ∧
      w1.m_ringbuf.rd_idx = example_listing_world.m_ringbuf.rd_idx ∧
      w1.m_ringbuf.peek_rd_idx = example_listing_world.m_ringbuf.rd_idx ∧
      logitacker_processor_inject_list_tasks w1 0 [] =
        some (w1, script_start :: list_entries example_script 1 ++ [script_end]) ∧
      (pop_task w1.m_ringbuf example_zero_task 99 example_scratch).view =
        some (INJECT_TASK_TYPE_DELAY, 0, 100, 0, []) :=
  list_tasks_lists_queue example_listing_world example_script 0 example_scratch []
    example_zero_task 99 example_scratch (by decide) (by decide)
    (by simp [queued_task.wf, inject_task.wf, example_script, INJECT_TASK_TYPE_TYPE_STRING,
      INJECT_TASK_TYPE_DELAY, INJECT_TASK_TYPE_PRESS_KEYS])
    (by simp [example_script, INJECT_MAX_TASK_DATA_SIZE])
    (by simp [queued_task.printable, example_script, INJECT_TASK_TYPE_TYPE_STRING,
      INJECT_TASK_TYPE_DELAY, INJECT_TASK_TYPE_PRESS_KEYS])

/-! ## Transitions of the engine, for every state -/

theorem task_done_fields {σ : Type} (w : inject_world σ) (s : inject_state) :
    (w.task_done s).m_ringbuf = w.m_ringbuf ∧
    (w.task_done s).self.state = INJECT_STATE_IDLE ∧
    (w.task_done s).self.execute = w.self.execute ∧
    (w.task_done s).self.retransmit_counter = 0 ∧
    (w.task_done s).self.current_task = w.self.current_task ∧
    (w.task_done s).self.tx_delay_ms = w.self.tx_delay_ms ∧
    (w.task_done s).trace =
      w.trace ++
        [if s = INJECT_STATE_SUCCEEDED then effect.log_inject_task_succeeded
          else effect.log_inject_task_failed,
         effect.app_timer_stop, effect.state_store INJECT_STATE_IDLE] ++
        (if w.self.p_payload_provider.isSome then [effect.p_reset] else []) := by
  unfold inject_world.task_done inject_world.reset_payload_provider
  cases hp : w.self.p_payload_provider <;>
    simp [inject_world.set_state, inject_world.zero_counter, inject_world.emit, hp]

/-- `transfer_state` to Succeeded or to Failed: the bookkeeping of
`inject_world.task_done`, then `run_next_task` exactly when `execute` is set. -/
theorem transfer_state_task_done {σ : Type} (env : inject_env σ) (w : inject_world σ)
    (s : inject_state) (hs : s = INJECT_STATE_SUCCEEDED ∨ s = INJECT_STATE_FAILED)
    (hne : w.self.state ≠ s) :
    transfer_state env w s =
      if w.self.execute then logitacker_processor_inject_run_next_task env (w.task_done s)
      else some (w.task_done s) := by
  have hne' : ¬ s = w.self.state := fun h => hne h.symm
  have hex := (task_done_fields w s).2.2.1
  rcases hs with rfl | rfl
  · simp only [transfer_state, transfer_state_with, hne', if_false, transfer_state_finish]
    simp only [inject_world.task_done, if_true] at hex ⊢
    rw [hex]
  · simp only [transfer_state, transfer_state_with, hne', if_false, transfer_state_finish]
    simp only [inject_world.task_done, if_false, reduceCtorEq] at hex ⊢
    rw [hex]

theorem transition_post_refl {σ : Type} (w : inject_world σ) : transition_post w w :=
  ⟨rfl, rfl, rfl, Or.inr rfl⟩

theorem transition_post_trans {σ : Type} (a b c : inject_world σ)
    (h1 : transition_post a b) (h2 : transition_post b c) : transition_post a c := by
  obtain ⟨a1, a2, a3, a4⟩ := h1
  obtain ⟨b1, b2, b3, b4⟩ := h2
  refine ⟨by rw [b1, a1], by rw [b2, a2], by rw [b3, a3], ?_⟩
  rcases b4 with h | h
  · exact Or.inl h
  · rw [h]; exact a4

/-- `transfer_state` to Succeeded or to Failed returns, in state Idle or
Working and with the retransmit counter zeroed. -/
theorem transfer_state_done_total {σ : Type} (env : inject_env σ) (w : inject_world σ)
    (s : inject_state) (hs : s = INJECT_STATE_SUCCEEDED ∨ s = INJECT_STATE_FAILED)
    (hne : w.self.state ≠ s) :
    ∃ r, transfer_state env w s = some r ∧ transition_post w r ∧
      r.self.retransmit_counter = 0 ∧
      (r.self.state = INJECT_STATE_IDLE ∨ r.self.state = INJECT_STATE_WORKING) := by
  obtain ⟨r, hr, p1, p2, p3, p4, p5⟩ := transfer_state_done env w s hs hne
  refine ⟨r, hr, ⟨p1, p2, p3, Or.inl p4⟩, p4, ?_⟩
  rcases p5 with h | h
  · exact Or.inr h.1
  · exact Or.inl h.1

theorem provider_task_total {σ : Type} (env : inject_env σ) (w : inject_world σ) (e : effect)
    (p : logitacker_tx_payload_provider σ) (hst : w.self.state = INJECT_STATE_IDLE) :
    ∃ r,
      (if !((w.emit e).call_get_next p).1 then
          transfer_state_with (logitacker_processor_inject_run_next_task env)
            ((w.emit e).call_get_next p).2 INJECT_STATE_FAILED
        else
          (transfer_state_with (logitacker_processor_inject_run_next_task env)
            ((w.emit e).call_get_next p).2 INJECT_STATE_WORKING).map
            (fun w1 => w1.emit (effect.app_timer_start w1.self.tx_delay_ms))) = some r ∧
      transition_post w r ∧
      (r.self.state = INJECT_STATE_IDLE ∨ r.self.state = INJECT_STATE_WORKING) := by
  have hX : transition_post w ((w.emit e).call_get_next p).2 := ⟨rfl, rfl, rfl, Or.inr rfl⟩
  have hXs : ((w.emit e).call_get_next p).2.self.state = INJECT_STATE_IDLE := hst
  cases hok : ((w.emit e).call_get_next p).1 with
  | false =>
    simp only [Bool.not_false, if_true]
    obtain ⟨r, hr, hp, -, hs⟩ := transfer_state_done_total env ((w.emit e).call_get_next p).2
      INJECT_STATE_FAILED (Or.inr rfl) (by rw [hXs]; decide)
    exact ⟨r, hr, transition_post_trans _ _ _ hX hp, hs⟩
  | true =>
    simp only [Bool.not_true, Bool.false_eq_true, if_false]
    rw [transfer_state_with_working _ ((w.emit e).call_get_next p).2 hXs]
    exact ⟨_, rfl, ⟨rfl, rfl, rfl, Or.inr rfl⟩, Or.inr rfl⟩

theorem process_task_delay_total {σ : Type} (env : inject_env σ) (w : inject_world σ)
    (hst : w.self.state = INJECT_STATE_IDLE) :
    ∃ r, process_task_delay_with (logitacker_processor_inject_run_next_task env) w = some r ∧
      transition_post w r ∧
      (r.self.state = INJECT_STATE_IDLE ∨ r.self.state = INJECT_STATE_WORKING) := by
  unfold process_task_delay_with
  by_cases hz : w.self.current_task.delay_ms = 0
  · simp only [hz, if_true]
    obtain ⟨r, hr, hp, -, hs⟩ := transfer_state_done_total env
      { w with self := { w.self with p_payload_provider := none } } INJECT_STATE_SUCCEEDED
      (Or.inl rfl) (by show w.self.state ≠ _; rw [hst]; decide)
    exact ⟨r, hr, hp, hs⟩
  · simp only [hz, if_false]
    rw [transfer_state_with_working]
    · exact ⟨_, rfl, ⟨rfl, rfl, rfl, Or.inr rfl⟩, Or.inr rfl⟩
    · exact hst

/-- `run_next_task` returns from every state: outside Idle it changes nothing,
from Idle it ends in Idle or in Working. -/
theorem run_next_task_total {σ : Type} (env : inject_env σ) (w : inject_world σ) :
    ∃ r, logitacker_processor_inject_run_next_task env w = some r ∧ transition_post w r ∧
      (w.self.state ≠ INJECT_STATE_IDLE → r = w) ∧
      (w.self.state = INJECT_STATE_IDLE →
        r.self.state = INJECT_STATE_IDLE ∨ r.self.state = INJECT_STATE_WORKING) := by
  rw [run_next_task_unfold]
  by_cases hst : w.self.state = INJECT_STATE_IDLE
  · have hn : ¬ (w.self.state ≠ INJECT_STATE_IDLE) := fun h => h hst
    simp only [if_neg hn]
    obtain ⟨q1, q2, q3, q4, -, q6, -, -⟩ := call_peek_task_fields env w
    rw [hst] at q4
    have hW : transition_post w (w.call_peek_task env).2 := ⟨q1, q2, q3, Or.inr q6⟩
    have fin : ∀ r : inject_world σ, transition_post (w.call_peek_task env).2 r →
        (r.self.state = INJECT_STATE_IDLE ∨ r.self.state = INJECT_STATE_WORKING) →
        transition_post w r ∧ (w.self.state ≠ INJECT_STATE_IDLE → r = w) ∧
          (w.self.state = INJECT_STATE_IDLE →
            r.self.state = INJECT_STATE_IDLE ∨ r.self.state = INJECT_STATE_WORKING) :=
      fun r hp hs => ⟨transition_post_trans _ _ _ hW hp, fun h => absurd hst h, fun _ => hs⟩
    cases hret : (w.call_peek_task env).1 with
    | false =>
      simp only [Bool.not_false, if_true]
      exact ⟨_, rfl, fin _ ⟨rfl, rfl, rfl, Or.inr rfl⟩ (Or.inl q4)⟩
    | true =>
      simp only [Bool.not_true, Bool.false_eq_true, if_false]
      split
      · obtain ⟨r, hr, hp, hs⟩ := provider_task_total env (w.call_peek_task env).2
          effect.new_payload_provider_press
          (env.new_payload_provider_press (w.call_peek_task env).2.self.p_device
            (w.call_peek_task env).2.self.current_task.lang
            (w.call_peek_task env).2.self.current_task_data) q4
        exact ⟨r, hr, fin r hp hs⟩
      · split
        · obtain ⟨r, hr, hp, hs⟩ := provider_task_total env (w.call_peek_task env).2
            effect.new_payload_provider_string
            (env.new_payload_provider_string (w.call_peek_task env).2.self.p_device
              (w.call_peek_task env).2.self.current_task.lang
              (w.call_peek_task env).2.self.current_task_data) q4
          exact ⟨r, hr, fin r hp hs⟩
        · split
          · obtain ⟨r, hr, hp, hs⟩ := process_task_delay_total env (w.call_peek_task env).2 q4
            exact ⟨r, hr, fin r hp hs⟩
          · obtain ⟨r, hr, hp, -, hs⟩ := transfer_state_done_total env
              (w.call_peek_task env).2 INJECT_STATE_FAILED (Or.inr rfl) (by rw [q4]; decide)
            exact ⟨r, hr, fin r hp hs⟩
  · simp only [if_pos hst]
    exact ⟨w, rfl, transition_post_refl w, fun _ => rfl, fun h => absurd h hst⟩

/-- `transfer_state` returns from every state and for every target. -/
theorem transfer_state_total {σ : Type} (env : inject_env σ) (w : inject_world σ)
    (s : inject_state) :
    ∃ r, transfer_state env w s = some r ∧ transition_post w r ∧
      (s = w.self.state → r = w) ∧
      (s ≠ w.self.state →
        (s = INJECT_STATE_IDLE → r.self.state = INJECT_STATE_IDLE ∧
          r.self.retransmit_counter = 0 ∧ r.self.execute = false ∧
          r.m_ringbuf = w.m_ringbuf) ∧
        (s = INJECT_STATE_SUCCEEDED ∨ s = INJECT_STATE_FAILED →
          r.self.retransmit_counter = 0 ∧
          (r.self.state = INJECT_STATE_IDLE ∨ r.self.state = INJECT_STATE_WORKING)) ∧
        (s = INJECT_STATE_WORKING ∨ s = INJECT_STATE_NOT_INITIALIZED → r = w.set_state s)) := by
  by_cases hs : s = w.self.state
  · refine ⟨w, ?_, transition_post_refl w, fun _ => rfl, fun h => absurd hs h⟩
    simp only [transfer_state, transfer_state_with, hs, if_true]
  · have hne : w.self.state ≠ s := fun h => hs h.symm
    cases s with
    | INJECT_STATE_IDLE =>
      unfold transfer_state
      rw [transfer_state_with_idle, if_neg hne]
      obtain ⟨f1, f2, f3, f4⟩ := reset_payload_provider_fields
        ({ ((((w.emit effect.app_timer_stop).zero_counter).set_state INJECT_STATE_IDLE).set_state
            INJECT_STATE_IDLE) with
          self := { ((((w.emit effect.app_timer_stop).zero_counter).set_state
            INJECT_STATE_IDLE).set_state INJECT_STATE_IDLE).self with execute := false } } :
          inject_world σ)
      refine ⟨_, rfl, ⟨by rw [f1]; rfl, by rw [f1]; rfl, by rw [f1]; rfl, Or.inl (by rw [f4]; rfl)⟩,
        fun h => absurd h hs, fun _ => ⟨fun _ => ⟨by rw [f2]; rfl, by rw [f4]; rfl,
          by rw [f3], by rw [f1]; rfl⟩, fun h => by simp at h, fun h => by simp at h⟩⟩
    | INJECT_STATE_SUCCEEDED =>
      obtain ⟨r, hr, hp, hc, hst⟩ := transfer_state_done_total env w INJECT_STATE_SUCCEEDED
        (Or.inl rfl) hne
      exact ⟨r, hr, hp, fun h => absurd h hs, fun _ => ⟨fun h => by simp at h,
        fun _ => ⟨hc, hst⟩, fun h => by simp at h⟩⟩
    | INJECT_STATE_FAILED =>
      obtain ⟨r, hr, hp, hc, hst⟩ := transfer_state_done_total env w INJECT_STATE_FAILED
        (Or.inr rfl) hne
      exact ⟨r, hr, hp, fun h => absurd h hs, fun _ => ⟨fun h => by simp at h,
        fun _ => ⟨hc, hst⟩, fun h => by simp at h⟩⟩
    | INJECT_STATE_WORKING =>
      refine ⟨w.set_state INJECT_STATE_WORKING, ?_, ⟨rfl, rfl, rfl, Or.inr rfl⟩,
        fun h => absurd h hs, fun _ => ⟨fun h => by simp at h, fun h => by simp at h,
          fun _ => rfl⟩⟩
      simp only [transfer_state, transfer_state_with, hs, if_false]
    | INJECT_STATE_NOT_INITIALIZED =>
      refine ⟨w.set_state INJECT_STATE_NOT_INITIALIZED, ?_, ⟨rfl, rfl, rfl, Or.inr rfl⟩,
        fun h => absurd h hs, fun _ => ⟨fun h => by simp at h, fun h => by simp at h,
          fun _ => rfl⟩⟩
      simp only [transfer_state, transfer_state_with, hs, if_false]

theorem esb_tx_success_total {σ : Type} (env : inject_env σ) (w : inject_world σ) :
    ∃ r, esb_tx_success env w = some r ∧
      r.m_ringbuf.rd_idx = w.m_ringbuf.rd_idx ∧ r.m_ringbuf.wr_idx = w.m_ringbuf.wr_idx ∧
      r.m_ringbuf.p_buffer = w.m_ringbuf.p_buffer ∧
      r.self.retransmit_counter = 0 ∧
      (r.self.state = w.self.state ∨ r.self.state = INJECT_STATE_IDLE ∨
        r.self.state = INJECT_STATE_WORKING) := by
  cases hp : w.zero_counter.self.p_payload_provider with
  | none =>
    simp only [esb_tx_success, hp]
    obtain ⟨r, hr, ⟨p1, p2, p3, p4⟩, h1, h2⟩ := transfer_state_total env w.zero_counter
      INJECT_STATE_IDLE
    refine ⟨r, hr, p1, p2, p3, ?_, ?_⟩
    · rcases p4 with h | h
      · exact h
      · rw [h]; rfl
    · by_cases hs : INJECT_STATE_IDLE = w.zero_counter.self.state
      · rw [h1 hs]; exact Or.inl rfl
      · exact Or.inr (Or.inl ((h2 hs).1 rfl).1)
  | some p =>
    cases hok : (w.zero_counter.call_get_next p).1 with
    | true =>
      simp only [esb_tx_success, hp, hok, if_true]
      exact ⟨_, rfl, rfl, rfl, rfl, rfl, Or.inl rfl⟩
    | false =>
      simp only [esb_tx_success, hp, hok, Bool.false_eq_true, if_false]
      obtain ⟨r, hr, ⟨p1, p2, p3, p4⟩, h1, h2⟩ := transfer_state_total env
        (w.zero_counter.call_get_next p).2 INJECT_STATE_SUCCEEDED
      refine ⟨r, hr, p1, p2, p3, ?_, ?_⟩
      · rcases p4 with h | h
        · exact h
        · rw [h]; rfl
      · by_cases hs : INJECT_STATE_SUCCEEDED = (w.zero_counter.call_get_next p).2.self.state
        · rw [h1 hs]; exact Or.inl rfl
        · exact Or.inr ((h2 hs).2.1 (Or.inl rfl)).2

theorem esb_handler_switch_total {σ : Type} (env : inject_env σ) (w : inject_world σ)
    (evt : nrf_esb_evt_id) :
    ∃ r, esb_handler_switch env w evt = some r ∧
      r.m_ringbuf.rd_idx = w.m_ringbuf.rd_idx ∧ r.m_ringbuf.wr_idx = w.m_ringbuf.wr_idx ∧
      r.m_ringbuf.p_buffer = w.m_ringbuf.p_buffer ∧
      (r.self.state = w.self.state ∨ r.self.state = INJECT_STATE_IDLE ∨
        r.self.state = INJECT_STATE_WORKING) ∧
      (evt = NRF_ESB_EVENT_TX_FAILED →
        r.self.retransmit_counter = w.self.retransmit_counter + 1) ∧
      (evt = NRF_ESB_EVENT_TX_SUCCESS ∨ evt = NRF_ESB_EVENT_TX_SUCCESS_ACK_PAY →
        r.self.retransmit_counter = 0) ∧
      (evt = NRF_ESB_EVENT_RX_RECEIVED → r = w) := by
  cases evt with
  | NRF_ESB_EVENT_TX_FAILED =>
    exact ⟨_, rfl, rfl, rfl, rfl, Or.inl rfl, fun _ => rfl, fun h => by simp at h,
      fun h => by simp at h⟩
  | NRF_ESB_EVENT_TX_SUCCESS_ACK_PAY =>
    obtain ⟨r, hr, p1, p2, p3, p4, p5⟩ := esb_tx_success_total env
      (w.emit effect.nrf_esb_flush_rx)
    exact ⟨r, hr, p1, p2, p3, p5, fun h => by simp at h, fun _ => p4, fun h => by simp at h⟩
  | NRF_ESB_EVENT_TX_SUCCESS =>
    obtain ⟨r, hr, p1, p2, p3, p4, p5⟩ := esb_tx_success_total env w
    exact ⟨r, hr, p1, p2, p3, p5, fun h => by simp at h, fun _ => p4, fun h => by simp at h⟩
  | NRF_ESB_EVENT_RX_RECEIVED =>
    exact ⟨w, rfl, rfl, rfl, rfl, Or.inl rfl, fun h => by simp at h, fun h => by simp at h,
      fun _ => rfl⟩

/-- The radio handler returns from every state, for every event; the counter
it leaves is at most the budget, and zero after a success event. -/
theorem esb_handler_total {σ : Type} (env : inject_env σ) (w : inject_world σ)
    (evt : nrf_esb_evt_id) :
    ∃ r, processor_inject_esb_handler_func_ env w evt = some r ∧
      r.m_ringbuf.rd_idx = w.m_ringbuf.rd_idx ∧ r.m_ringbuf.wr_idx = w.m_ringbuf.wr_idx ∧
      r.m_ringbuf.p_buffer = w.m_ringbuf.p_buffer ∧
      (r.self.state = w.self.state ∨ r.self.state = INJECT_STATE_IDLE ∨
        r.self.state = INJECT_STATE_WORKING) ∧
      r.self.retransmit_counter ≤ (INJECT_RETRANSMIT_BEFORE_FAIL : Int) ∧
      (0 ≤ w.self.retransmit_counter → 0 ≤ r.self.retransmit_counter) ∧
      (evt = NRF_ESB_EVENT_TX_SUCCESS ∨ evt = NRF_ESB_EVENT_TX_SUCCESS_ACK_PAY →
        r.self.retransmit_counter = 0) := by
  have tail : ∀ w1 : inject_world σ,
      (w1.self.retransmit_counter < (INJECT_RETRANSMIT_BEFORE_FAIL : Int)) →
      (0 ≤ w.self.retransmit_counter → 0 ≤ w1.self.retransmit_counter) →
      ∃ r, (if w1.self.state = INJECT_STATE_FAILED then transfer_state env w1 INJECT_STATE_IDLE
          else esb_handler_switch env w1 evt) = some r ∧
        r.m_ringbuf.rd_idx = w1.m_ringbuf.rd_idx ∧ r.m_ringbuf.wr_idx = w1.m_ringbuf.wr_idx ∧
        r.m_ringbuf.p_buffer = w1.m_ringbuf.p_buffer ∧
        (r.self.state = w1.self.state ∨ r.self.state = INJECT_STATE_IDLE ∨
          r.self.state = INJECT_STATE_WORKING) ∧
        r.self.retransmit_counter ≤ (INJECT_RETRANSMIT_BEFORE_FAIL : Int) ∧
        (0 ≤ w.self.retransmit_counter → 0 ≤ r.self.retransmit_counter) ∧
        (evt = NRF_ESB_EVENT_TX_SUCCESS ∨ evt = NRF_ESB_EVENT_TX_SUCCESS_ACK_PAY →
          r.self.retransmit_counter = 0) := by
    intro w1 hlt hnn
    by_cases hf : w1.self.state = INJECT_STATE_FAILED
    · rw [if_pos hf]
      obtain ⟨r, hr, ⟨p1, p2, p3, -⟩, -, h2⟩ := transfer_state_total env w1 INJECT_STATE_IDLE
      have hs : INJECT_STATE_IDLE ≠ w1.self.state := by rw [hf]; decide
      obtain ⟨a1, a2, -, -⟩ := (h2 hs).1 rfl
      refine ⟨r, hr, p1, p2, p3, Or.inr (Or.inl a1), ?_, ?_, fun _ => a2⟩
      · rw [a2]; simp [INJECT_RETRANSMIT_BEFORE_FAIL]
      · intro _; rw [a2]
    · rw [if_neg hf]
      obtain ⟨r, hr, p1, p2, p3, p4, p5, p6, p7⟩ := esb_handler_switch_total env w1 evt
      refine ⟨r, hr, p1, p2, p3, p4, ?_, ?_, p6⟩
      · cases evt with
        | NRF_ESB_EVENT_TX_FAILED => rw [p5 rfl]; omega
        | NRF_ESB_EVENT_TX_SUCCESS_ACK_PAY =>
          rw [p6 (Or.inr rfl)]; simp [INJECT_RETRANSMIT_BEFORE_FAIL]
        | NRF_ESB_EVENT_TX_SUCCESS =>
          rw [p6 (Or.inl rfl)]; simp [INJECT_RETRANSMIT_BEFORE_FAIL]
        | NRF_ESB_EVENT_RX_RECEIVED => rw [p7 rfl]; omega
      · intro h0
        have := hnn h0
        cases evt with
        | NRF_ESB_EVENT_TX_FAILED => rw [p5 rfl]; omega
        | NRF_ESB_EVENT_TX_SUCCESS_ACK_PAY => rw [p6 (Or.inr rfl)]
        | NRF_ESB_EVENT_TX_SUCCESS => rw [p6 (Or.inl rfl)]
        | NRF_ESB_EVENT_RX_RECEIVED => rw [p7 rfl]; exact this
  unfold processor_inject_esb_handler_func_
  by_cases hc : w.self.retransmit_counter ≥ (INJECT_RETRANSMIT_BEFORE_FAIL : Int)
  · rw [if_pos hc]
    obtain ⟨w1, hw1, ⟨q1, q2, q3, q4⟩, h1, h2⟩ := transfer_state_total env w INJECT_STATE_FAILED
    rw [hw1, Option.some_bind]
    by_cases hs : INJECT_STATE_FAILED = w.self.state
    · have e := h1 hs
      subst e
      rw [if_pos hs.symm]
      obtain ⟨r, hr, ⟨p1, p2, p3, -⟩, -, h2'⟩ := transfer_state_total env w1 INJECT_STATE_IDLE
      have hs' : INJECT_STATE_IDLE ≠ w1.self.state := by rw [← hs]; decide
      obtain ⟨a1, a2, -, -⟩ := (h2' hs').1 rfl
      refine ⟨r, hr, p1, p2, p3, Or.inr (Or.inl a1), ?_, ?_, fun _ => a2⟩
      · rw [a2]; simp [INJECT_RETRANSMIT_BEFORE_FAIL]
      · intro _; rw [a2]
    · obtain ⟨c0, hst⟩ := (h2 hs).2.1 (Or.inr rfl)
      obtain ⟨r, hr, p1, p2, p3, p4, p5, p6, p7⟩ := tail w1
        (by rw [c0]; simp [INJECT_RETRANSMIT_BEFORE_FAIL]) (fun _ => by rw [c0])
      refine ⟨r, hr, by rw [p1, q1], by rw [p2, q2], by rw [p3, q3], ?_, p5, p6, p7⟩
      rcases p4 with h | h | h
      · rw [h]
        rcases hst with h' | h'
        · exact Or.inr (Or.inl h')
        · exact Or.inr (Or.inr h')
      · exact Or.inr (Or.inl h)
      · exact Or.inr (Or.inr h)
  · rw [if_neg hc, Option.some_bind]
    exact tail w (by omega) (fun h => h)

theorem timer_handler_total {σ : Type} (env : inject_env σ) (w : inject_world σ) :
    ∃ r, processor_inject_timer_handler_func_ env w = some r ∧ transition_post w r ∧
      (r.self.state = w.self.state ∨ r.self.state = INJECT_STATE_IDLE ∨
        r.self.state = INJECT_STATE_WORKING) := by
  unfold processor_inject_timer_handler_func_
  by_cases hst : w.self.state = INJECT_STATE_WORKING
  · rw [if_pos hst]
    by_cases hd : w.self.current_task.type = INJECT_TASK_TYPE_DELAY
    · rw [if_pos hd]
      obtain ⟨r, hr, hp, -, hs⟩ := transfer_state_done_total env w INJECT_STATE_SUCCEEDED
        (Or.inl rfl) (by rw [hst]; decide)
      exact ⟨r, hr, hp, Or.inr hs⟩
    · rw [if_neg hd]
      split
      · exact ⟨_, rfl, ⟨rfl, rfl, rfl, Or.inr rfl⟩, Or.inl rfl⟩
      · exact ⟨w, rfl, transition_post_refl w, Or.inl rfl⟩
  · rw [if_neg hst]
    exact ⟨w, rfl, transition_post_refl w, Or.inl rfl⟩

theorem inject_autostart_total {σ : Type} (env : inject_env σ) (w : inject_world σ) :
    ∃ r, inject_autostart env w = some r ∧ transition_post w r ∧
      (r.self.state = w.self.state ∨ r.self.state = INJECT_STATE_IDLE ∨
        r.self.state = INJECT_STATE_WORKING) := by
  unfold inject_autostart
  by_cases hst : w.self.state = INJECT_STATE_IDLE
  · rw [if_pos hst]
    cases hex : w.self.execute with
    | true =>
      simp only [if_true]
      obtain ⟨r, hr, hp, -, hs⟩ := run_next_task_total env w
      exact ⟨r, hr, hp, Or.inr (hs hst)⟩
    | false =>
      simp only [Bool.false_eq_true, if_false]
      exact ⟨w, rfl, transition_post_refl w, Or.inl rfl⟩
  · rw [if_neg hst]
    exact ⟨w, rfl, transition_post_refl w, Or.inl rfl⟩

theorem start_execution_total {σ : Type} (env : inject_env σ) (w : inject_world σ)
    (execute : Bool) :
    ∃ r, logitacker_processor_inject_start_execution env w execute = some r ∧
      transition_post w r ∧
      (r.self.state = w.self.state ∨ r.self.state = INJECT_STATE_IDLE ∨
        r.self.state = INJECT_STATE_WORKING) := by
  unfold logitacker_processor_inject_start_execution
  cases execute with
  | true =>
    simp only [if_true]
    obtain ⟨r, hr, hp, h1, h2⟩ := run_next_task_total env
      ({ w with self := { w.self with execute := true } } : inject_world σ)
    refine ⟨r, hr, hp, ?_⟩
    by_cases hst : w.self.state = INJECT_STATE_IDLE
    · exact Or.inr (h2 hst)
    · rw [h1 hst]; exact Or.inl rfl
  | false =>
    simp only [Bool.false_eq_true, if_false]
    exact ⟨_, rfl, ⟨rfl, rfl, rfl, Or.inr rfl⟩, Or.inl rfl⟩

theorem at_rest_of {σ : Type} (w r : inject_world σ) (h : w.at_rest)
    (hs : r.self.state = w.self.state ∨ r.self.state = INJECT_STATE_IDLE ∨
      r.self.state = INJECT_STATE_WORKING)
    (hc : r.self.retransmit_counter = 0 ∨
      r.self.retransmit_counter = w.self.retransmit_counter) : r.at_rest := by
  obtain ⟨h1, h2, h3⟩ := h
  refine ⟨?_, ?_, ?_⟩
  · rcases hs with e | e | e
    · rw [e]; exact h1
    · exact Or.inl e
    · exact Or.inr (Or.inl e)
  · rcases hc with e | e
    · rw [e]
    · rw [e]; exact h2
  · rcases hc with e | e
    · rw [e]; simp [INJECT_RETRANSMIT_BEFORE_FAIL]
    · rw [e]; exact h3

/-- Every entry into the engine returns, and keeps the state among Idle,
Working and Uninitialized and the retransmit counter between 0 and the
budget. -/
theorem inject_step_at_rest {σ : Type} (env : inject_env σ) (lenv : inject_lifecycle_env)
    (w : inject_world σ) (op : inject_op) :
    ∃ r, inject_step env lenv w op = some r ∧ (w.at_rest → r.at_rest) := by
  cases op with
  | inject_string lang p_str str =>
    obtain ⟨r, hr, ⟨-, -, -, hc⟩, hs⟩ := inject_autostart_total env
      ({ w with m_ringbuf := (push_task_string w.m_ringbuf lang p_str str).rb } : inject_world σ)
    exact ⟨r, hr, fun h => at_rest_of w r h hs hc⟩
  | inject_press lang p_str combo_str =>
    obtain ⟨r, hr, ⟨-, -, -, hc⟩, hs⟩ := inject_autostart_total env
      ({ w with m_ringbuf := (push_task_press w.m_ringbuf lang p_str combo_str).rb } :
        inject_world σ)
    exact ⟨r, hr, fun h => at_rest_of w r h hs hc⟩
  | inject_delay delay_ms =>
    obtain ⟨r, hr, ⟨-, -, -, hc⟩, hs⟩ := inject_autostart_total env
      ({ w with m_ringbuf := (push_task_delay w.m_ringbuf delay_ms).rb } : inject_world σ)
    exact ⟨r, hr, fun h => at_rest_of w r h hs hc⟩
  | list_tasks p_task_data task_data =>
    obtain ⟨out, ho⟩ := list_tasks_total w p_task_data task_data
    refine ⟨{ w with m_ringbuf := ringbuf_peek_rewind w.m_ringbuf }, ?_, fun h => h⟩
    simp only [inject_step, ho, Option.map_some']
  | clear_tasks => exact ⟨_, rfl, fun h => h⟩
  | start_execution execute =>
    obtain ⟨r, hr, ⟨-, -, -, hc⟩, hs⟩ := start_execution_total env w execute
    exact ⟨r, hr, fun h => at_rest_of w r h hs hc⟩
  | timer_handler =>
    obtain ⟨r, hr, ⟨-, -, -, hc⟩, hs⟩ := timer_handler_total env w
    exact ⟨r, hr, fun h => at_rest_of w r h hs hc⟩
  | esb_handler evt_id =>
    obtain ⟨r, hr, -, -, -, hs, h1, h2, -⟩ := esb_handler_total env w evt_id
    refine ⟨r, hr, fun h => ⟨?_, h2 h.2.1, h1⟩⟩
    rcases hs with e | e | e
    · rw [e]; exact h.1
    · exact Or.inl e
    · exact Or.inr (Or.inl e)
  | bsp_handler => exact ⟨w, rfl, fun h => h⟩
  | init =>
    exact ⟨_, rfl, fun _ => ⟨Or.inl rfl, Int.le_refl 0, by
      show (0 : Int) ≤ (INJECT_RETRANSMIT_BEFORE_FAIL : Int)
      simp [INJECT_RETRANSMIT_BEFORE_FAIL]⟩⟩
  | deinit =>
    exact ⟨_, rfl, fun _ => ⟨Or.inr (Or.inr rfl), Int.le_refl 0, by
      show (0 : Int) ≤ (INJECT_RETRANSMIT_BEFORE_FAIL : Int)
      simp [INJECT_RETRANSMIT_BEFORE_FAIL]⟩⟩

theorem inject_run_at_rest {σ : Type} (env : inject_env σ) (lenv : inject_lifecycle_env)
    (ops : List inject_op) :
    ∀ w : inject_world σ, ∃ r, inject_run env lenv w ops = some r ∧ (w.at_rest → r.at_rest) := by
  induction ops with
  | nil => intro w; exact ⟨w, rfl, fun h => h⟩
  | cons op ops ih =>
    intro w
    obtain ⟨w1, hw1, h1⟩ := inject_step_at_rest env lenv w op
    obtain ⟨r, hr, h2⟩ := ih w1
    refine ⟨r, ?_, fun h => h2 (h1 h)⟩
    simp only [inject_run, hw1, Option.some_bind, hr]

theorem init_at_rest {σ : Type} (lenv : inject_lifecycle_env) (w : inject_world σ) :
    (processor_inject_init_func_ lenv w).at_rest :=
  ⟨Or.inl rfl, Int.le_refl 0, by
    show (0 : Int) ≤ (INJECT_RETRANSMIT_BEFORE_FAIL : Int)
    simp [INJECT_RETRANSMIT_BEFORE_FAIL]⟩

/-- C12: clear.  For every buffer and every engine context,
`logitacker_processor_inject_clear_tasks` returns the buffer to the state
`new_processor_inject` constructs it in: the three cursors are zero, the
available capacity is 32768, and every following `peek_task` and `pop_task`
returns false.  It leaves the whole engine context as it was (state, current
task and its data, provider, retransmit counter, execute flag, scratch TX
frame) and makes no call at all: no timer stop and no radio call. -/
theorem clear_tasks_resets_buffer_only {σ : Type} (w : inject_world σ)
    (lenv : inject_lifecycle_env) (target_rf_address : List Nat) (timer_next_action : Nat)
    (p_task : inject_task) (p_task_data_buf : Nat) (buf : List Nat) :
    (logitacker_processor_inject_clear_tasks w).self = w.self ∧
    (logitacker_processor_inject_clear_tasks w).trace = w.trace ∧
    (logitacker_processor_inject_clear_tasks w).m_ringbuf = flush_tasks w.m_ringbuf ∧
    (logitacker_processor_inject_clear_tasks w).m_ringbuf =
      (new_processor_inject lenv { w with m_ringbuf_initialized := false } target_rf_address
        timer_next_action).m_ringbuf ∧
    (logitacker_processor_inject_clear_tasks w).m_ringbuf.wr_idx = 0 ∧
    (logitacker_processor_inject_clear_tasks w).m_ringbuf.rd_idx = 0 ∧
    (logitacker_processor_inject_clear_tasks w).m_ringbuf.peek_rd_idx = 0 ∧
    ringbuf_available_fetch (logitacker_processor_inject_clear_tasks w).m_ringbuf = 32768 ∧
    (peek_task (logitacker_processor_inject_clear_tasks w).m_ringbuf p_task p_task_data_buf
      buf).ret = false ∧
    (pop_task (logitacker_processor_inject_clear_tasks w).m_ringbuf p_task p_task_data_buf
      buf).ret = false :=
  ⟨rfl, rfl, rfl, rfl, rfl, rfl, rfl, rfl,
    (peek_task_fault (logitacker_processor_inject_clear_tasks w).m_ringbuf p_task
      p_task_data_buf buf (Or.inl rfl)).1,
    (pop_task_fault (logitacker_processor_inject_clear_tasks w).m_ringbuf p_task
      p_task_data_buf buf (Or.inl rfl)).1⟩

/-- Pausing, as far as the transition goes.
`logitacker_processor_inject_start_execution(.., false)` changes the execute
flag and nothing else, and makes no call.  When `transfer_state` to Succeeded
or to Failed runs in state Working with `execute` false, it ends in Idle with
the buffer, its peek cursor included, as it was, and the only calls made are
the callback placeholder line, the timer stop, the store of Idle and the
provider reset: no peek and no timer start.  This is the whole of what the
timer handler does when the Delay timer expires, and of what the radio handler
does when a TX success below the retransmit budget finds the provider
exhausted.  It is not the whole of what the radio handler does when it fails
the task at the retransmit budget: there the handler goes on into its event
switch after the transition. -/
theorem pause_keeps_next_task {σ : Type} (env : inject_env σ) (w0 w : inject_world σ)
    (s : inject_state) (evt : nrf_esb_evt_id) (p : logitacker_tx_payload_provider σ)
    (hs : s = INJECT_STATE_SUCCEEDED ∨ s = INJECT_STATE_FAILED)
    (hst : w.self.state = INJECT_STATE_WORKING) (hex : w.self.execute = false) :
    logitacker_processor_inject_start_execution env w0 false =
      some { w0 with self := { w0.self with execute := false } } ∧
    transfer_state env w s = some (w.task_done s) ∧
    (w.task_done s).self.state = INJECT_STATE_IDLE ∧
    (w.task_done s).self.execute = false ∧
    (w.task_done s).m_ringbuf = w.m_ringbuf ∧
    (w.task_done s).trace =
      w.trace ++
        [if s = INJECT_STATE_SUCCEEDED then effect.log_inject_task_succeeded
          else effect.log_inject_task_failed,
         effect.app_timer_stop, effect.state_store INJECT_STATE_IDLE] ++
        (if w.self.p_payload_provider.isSome then [effect.p_reset] else []) ∧
    (w.self.current_task.type = INJECT_TASK_TYPE_DELAY →
      processor_inject_timer_handler_func_ env w = some (w.task_done INJECT_STATE_SUCCEEDED)) ∧
    (evt = NRF_ESB_EVENT_TX_SUCCESS ∨ evt = NRF_ESB_EVENT_TX_SUCCESS_ACK_PAY →
      w.self.retransmit_counter < 10 → w.self.p_payload_provider = some p →
      (p.p_get_next p.p_ctx w.self.tmp_tx_payload).1 = false →
      processor_inject_esb_handler_func_ env w evt =
        some (((w.tx_success_entry evt).zero_counter.call_get_next p).2.task_done
          INJECT_STATE_SUCCEEDED)) := by
  obtain ⟨f1, f2, f3, -, -, -, f7⟩ := task_done_fields w s
  have hne : ∀ s', s' = INJECT_STATE_SUCCEEDED ∨ s' = INJECT_STATE_FAILED →
      ∀ w' : inject_world σ, w'.self.state = INJECT_STATE_WORKING → w'.self.execute = false →
      transfer_state env w' s' = some (w'.task_done s') := by
    intro s' hs' w' hst' hex'
    rw [transfer_state_task_done env w' s' hs' (by rw [hst']; rcases hs' with h | h <;> rw [h] <;> decide),
      hex']
    simp
  refine ⟨rfl, hne s hs w hst hex, f2, by rw [f3, hex], f1, f7, ?_, ?_⟩
  · intro hd
    simp only [processor_inject_timer_handler_func_, hst, hd, if_true]
    exact hne _ (Or.inl rfl) w hst hex
  · intro hevt hc hp hn
    rw [esb_handler_below_budget env w evt hc (by rw [hst]; decide)]
    rcases hevt with rfl | rfl
    · simp only [esb_handler_switch]
      rw [esb_tx_success_exhausted env w p hp hn]
      exact hne _ (Or.inl rfl) _ hst hex
    · simp only [esb_handler_switch]
      rw [esb_tx_success_exhausted env (w.emit effect.nrf_esb_flush_rx) p hp hn]
      exact hne _ (Or.inl rfl) _ hst hex

theorem pause_keeps_next_task_witness :
    logitacker_processor_inject_start_execution example_env example_string_working false =
      some example_paused ∧
    transfer_state example_env example_paused INJECT_STATE_SUCCEEDED =
      some (example_paused.task_done INJECT_STATE_SUCCEEDED) ∧
    (example_paused.task_done INJECT_STATE_SUCCEEDED).self.state = INJECT_STATE_IDLE ∧
    (example_paused.task_done INJECT_STATE_SUCCEEDED).self.execute = false ∧
    (example_paused.task_done INJECT_STATE_SUCCEEDED).m_ringbuf = example_paused.m_ringbuf ∧
    (example_paused.task_done INJECT_STATE_SUCCEEDED).trace =
      [effect.log_inject_task_succeeded, effect.app_timer_stop,
        effect.state_store INJECT_STATE_IDLE, effect.p_reset] ∧
    processor_inject_esb_handler_func_ example_env example_paused NRF_ESB_EVENT_TX_SUCCESS =
      some (((example_paused.tx_success_entry NRF_ESB_EVENT_TX_SUCCESS).zero_counter.call_get_next
        (example_provider 0)).2.task_done INJECT_STATE_SUCCEEDED) :=
  ⟨(pause_keeps_next_task example_env example_string_working example_paused
      INJECT_STATE_SUCCEEDED NRF_ESB_EVENT_TX_SUCCESS (example_provider 0) (Or.inl rfl) rfl rfl).1,
   (pause_keeps_next_task example_env example_string_working example_paused
      INJECT_STATE_SUCCEEDED NRF_ESB_EVENT_TX_SUCCESS (example_provider 0) (Or.inl rfl) rfl
      rfl).2.1,
   (pause_keeps_next_task example_env example_string_working example_paused
      INJECT_STATE_SUCCEEDED NRF_ESB_EVENT_TX_SUCCESS (example_provider 0) (Or.inl rfl) rfl
      rfl).2.2.1,
   (pause_keeps_next_task example_env example_string_working example_paused
      INJECT_STATE_SUCCEEDED NRF_ESB_EVENT_TX_SUCCESS (example_provider 0) (Or.inl rfl) rfl
      rfl).2.2.2.1,
   (pause_keeps_next_task example_env example_string_working example_paused
      INJECT_STATE_SUCCEEDED NRF_ESB_EVENT_TX_SUCCESS (example_provider 0) (Or.inl rfl) rfl
      rfl).2.2.2.2.1,
   (pause_keeps_next_task example_env example_string_working example_paused
      INJECT_STATE_SUCCEEDED NRF_ESB_EVENT_TX_SUCCESS (example_provider 0) (Or.inl rfl) rfl
      rfl).2.2.2.2.2.1,
   (pause_keeps_next_task example_env example_string_working example_paused
      INJECT_STATE_SUCCEEDED NRF_ESB_EVENT_TX_SUCCESS (example_provider 0) (Or.inl rfl) rfl
      rfl).2.2.2.2.2.2.2 (Or.inl rfl) (by decide) rfl rfl⟩

/-- C14 fails as stated: the engine is initialised, `string "x"` is enqueued and
execution started, so the engine is Working with a live provider and the
next-action timer armed for 8 ms.  `processor_inject_deinit_func_` then leaves
the provider in place and makes no `app_timer_stop` call. -/
theorem deinit_keeps_timer_and_provider :
    ∃ r, inject_run example_env example_lifecycle_env example_initialised
        [inject_op.inject_string 0 1000 [120, 0], inject_op.start_execution true,
          inject_op.deinit] = some r ∧
      r.self.state = INJECT_STATE_NOT_INITIALIZED ∧
      r.self.p_payload_provider.isSome = true ∧
      effect.app_timer_start 8 ∈ r.trace ∧
      effect.app_timer_stop ∉ r.trace :=
  ⟨_, rfl, rfl, rfl, by decide, by decide⟩

/-- C14 (amended): teardown.  For every engine state,
`processor_inject_deinit_func_` sets the state to Uninitialized, zeroes the
retransmit counter, the 5-byte address with its base and prefix and the
scratch TX frame, flushes the task buffer (available capacity 32768), stores
the idle main state and makes five radio calls before and one after: receive
timeout events off, channel hopping off, stop RX, promiscuous mode, all pipes
off, all-channel TX failover off.  It makes no timer call and leaves the
provider, the execute flag, the current task and its data as they were; a
timer expiry after it changes nothing. -/
theorem deinit_resets_context {σ : Type} (env : inject_env σ) (lenv : inject_lifecycle_env)
    (w : inject_world σ) :
    (processor_inject_deinit_func_ lenv w).self.state = INJECT_STATE_NOT_INITIALIZED ∧
    (processor_inject_deinit_func_ lenv w).self.retransmit_counter = 0 ∧
    (processor_inject_deinit_func_ lenv w).self.current_rf_address = [0, 0, 0, 0, 0] ∧
    (processor_inject_deinit_func_ lenv w).self.base_addr = [0, 0, 0, 0] ∧
    (processor_inject_deinit_func_ lenv w).self.prefix_byte = 0 ∧
    (processor_inject_deinit_func_ lenv w).self.tmp_tx_payload = nrf_esb_payload_zero ∧
    (processor_inject_deinit_func_ lenv w).self.logitacker_mainstate =
      lenv.LOGITACKER_MAINSTATE_IDLE ∧
    (processor_inject_deinit_func_ lenv w).m_ringbuf = flush_tasks w.m_ringbuf ∧
    ringbuf_available_fetch (processor_inject_deinit_func_ lenv w).m_ringbuf = 32768 ∧
    (processor_inject_deinit_func_ lenv w).trace =
      w.trace ++
        [effect.radio_disable_rx_timeout_event, effect.radio_stop_channel_hopping,
         effect.nrf_esb_stop_rx,
         effect.nrf_esb_set_mode nrf_esb_mode.NRF_ESB_MODE_PROMISCOUS,
         effect.nrf_esb_enable_pipes 0,
         effect.state_store INJECT_STATE_NOT_INITIALIZED,
         effect.nrf_esb_enable_all_channel_tx_failover false] ∧
    (processor_inject_deinit_func_ lenv w).self.p_payload_provider =
      w.self.p_payload_provider ∧
    (processor_inject_deinit_func_ lenv w).self.execute = w.self.execute ∧
    (processor_inject_deinit_func_ lenv w).self.current_task = w.self.current_task ∧
    (processor_inject_deinit_func_ lenv w).self.current_task_data = w.self.current_task_data ∧
    processor_inject_timer_handler_func_ env (processor_inject_deinit_func_ lenv w) =
      some (processor_inject_deinit_func_ lenv w) := by
  refine ⟨rfl, rfl, rfl, rfl, rfl, rfl, rfl, rfl, rfl, ?_, rfl, rfl, rfl, rfl, rfl⟩
  simp [processor_inject_deinit_func_, inject_world.emit, inject_world.emit_all,
    inject_world.set_state, inject_world.zero_counter]

/-! ## The claims about the states and the retransmit counter -/

/-- C15: transient states.  From a state at rest (Idle, Working or
Uninitialized), `transfer_state` to Succeeded or to Failed writes the callback
placeholder line, stops the timer, zeroes the retransmit counter, stores Idle
(never Succeeded or Failed), resets the provider when there is one, and then
calls `run_next_task` exactly when `execute` is set; it returns, in Idle or in
Working.  And every sequence of public operations, lifecycle callbacks, timer
expiries and radio events started in a state at rest returns, each in its
turn, with the state being Idle, Working or Uninitialized. -/
theorem transient_states_reduce_to_idle {σ : Type} (env : inject_env σ)
    (lenv : inject_lifecycle_env) (w : inject_world σ) (s : inject_state)
    (ops : List inject_op)
    (hs : s = INJECT_STATE_SUCCEEDED ∨ s = INJECT_STATE_FAILED) (hw : w.at_rest) :
    transfer_state env w s =
      (if w.self.execute then logitacker_processor_inject_run_next_task env (w.task_done s)
        else some (w.task_done s)) ∧
    (w.task_done s).self.state = INJECT_STATE_IDLE ∧
    (w.task_done s).self.retransmit_counter = 0 ∧
    (w.task_done s).trace =
      w.trace ++
        [if s = INJECT_STATE_SUCCEEDED then effect.log_inject_task_succeeded
          else effect.log_inject_task_failed,
         effect.app_timer_stop, effect.state_store INJECT_STATE_IDLE] ++
        (if w.self.p_payload_provider.isSome then [effect.p_reset] else []) ∧
    (w.task_done s).self.p_payload_provider =
      w.self.p_payload_provider.map (fun p => { p with p_ctx := p.p_reset p.p_ctx }) ∧
    (∃ r, transfer_state env w s = some r ∧ r.self.retransmit_counter = 0 ∧
      (r.self.state = INJECT_STATE_IDLE ∨ r.self.state = INJECT_STATE_WORKING)) ∧
    (∃ r, inject_run env lenv w ops = some r ∧
      (r.self.state = INJECT_STATE_IDLE ∨ r.self.state = INJECT_STATE_WORKING ∨
        r.self.state = INJECT_STATE_NOT_INITIALIZED)) := by
  have hne : w.self.state ≠ s := by
    obtain ⟨h1, -, -⟩ := hw
    rcases hs with rfl | rfl <;> rcases h1 with h | h | h <;> rw [h] <;> decide
  obtain ⟨-, f2, -, f4, -, -, f7⟩ := task_done_fields w s
  obtain ⟨r, hr, -, hc, hst⟩ := transfer_state_done_total env w s hs hne
  obtain ⟨r2, hr2, h2⟩ := inject_run_at_rest env lenv ops w
  refine ⟨transfer_state_task_done env w s hs hne, f2, f4, f7, ?_, ⟨r, hr, hc, hst⟩,
    ⟨r2, hr2, (h2 hw).1⟩⟩
  unfold inject_world.task_done inject_world.reset_payload_provider
  cases hp : w.self.p_payload_provider <;>
    simp [inject_world.set_state, inject_world.zero_counter, inject_world.emit, hp]

theorem transient_states_reduce_to_idle_witness :
    transfer_state example_env example_string_working INJECT_STATE_SUCCEEDED =
      logitacker_processor_inject_run_next_task example_env
        (example_string_working.task_done INJECT_STATE_SUCCEEDED) ∧
    (example_string_working.task_done INJECT_STATE_SUCCEEDED).self.state = INJECT_STATE_IDLE ∧
    (example_string_working.task_done INJECT_STATE_SUCCEEDED).trace =
      [effect.log_inject_task_succeeded, effect.app_timer_stop,
        effect.state_store INJECT_STATE_IDLE, effect.p_reset] ∧
    (∃ r, transfer_state example_env example_string_working INJECT_STATE_SUCCEEDED = some r ∧
      r.self.retransmit_counter = 0 ∧
      (r.self.state = INJECT_STATE_IDLE ∨ r.self.state = INJECT_STATE_WORKING)) ∧
    (∃ r, inject_run example_env example_lifecycle_env example_string_working
        [inject_op.esb_handler NRF_ESB_EVENT_TX_SUCCESS, inject_op.inject_delay 5,
          inject_op.start_execution true, inject_op.timer_handler] = some r ∧
      (r.self.state = INJECT_STATE_IDLE ∨ r.self.state = INJECT_STATE_WORKING ∨
        r.self.state = INJECT_STATE_NOT_INITIALIZED)) :=
  ⟨(transient_states_reduce_to_idle example_env example_lifecycle_env example_string_working
      INJECT_STATE_SUCCEEDED [] (Or.inl rfl) (by decide)).1,
   (transient_states_reduce_to_idle example_env example_lifecycle_env example_string_working
      INJECT_STATE_SUCCEEDED [] (Or.inl rfl) (by decide)).2.1,
   (transient_states_reduce_to_idle example_env example_lifecycle_env example_string_working
      INJECT_STATE_SUCCEEDED [] (Or.inl rfl) (by decide)).2.2.2.1,
   (transient_states_reduce_to_idle example_env example_lifecycle_env example_string_working
      INJECT_STATE_SUCCEEDED [] (Or.inl rfl) (by decide)).2.2.2.2.2.1,
   (transient_states_reduce_to_idle example_env example_lifecycle_env example_string_working
      INJECT_STATE_SUCCEEDED
      [inject_op.esb_handler NRF_ESB_EVENT_TX_SUCCESS, inject_op.inject_delay 5,
        inject_op.start_execution true, inject_op.timer_handler]
      (Or.inl rfl) (by decide)).2.2.2.2.2.2⟩

/-- C16 fails on the code.  The engine is initialised, `string "x"` is enqueued,
execution is started and the timer expires once, so the first frame is on the
air.  After ten `TX_FAILED` events the eleventh radio event makes the handler
call `transfer_state(FAILED)`, which ends in Idle with the counter zeroed; the
handler then goes on into its event switch.  For `TX_FAILED` it returns in Idle
with `retransmit_counter = 1`, its last call a `nrf_esb_start_tx`; for
`TX_SUCCESS` it returns in Idle with the timer armed for 8 ms as its last
call. -/
theorem idle_after_forced_failure :
    (∃ r, inject_run example_env example_lifecycle_env example_initialised
        ([inject_op.inject_string 0 1000 [120, 0], inject_op.start_execution true,
          inject_op.timer_handler] ++
          List.replicate 11 (inject_op.esb_handler NRF_ESB_EVENT_TX_FAILED)) = some r ∧
      r.self.state = INJECT_STATE_IDLE ∧ r.self.retransmit_counter = 1 ∧
      r.trace.getLast? = some effect.nrf_esb_start_tx) ∧
    (∃ r, inject_run example_env example_lifecycle_env example_initialised
        ([inject_op.inject_string 0 1000 [120, 0], inject_op.start_execution true,
          inject_op.timer_handler] ++
          List.replicate 10 (inject_op.esb_handler NRF_ESB_EVENT_TX_FAILED) ++
          [inject_op.esb_handler NRF_ESB_EVENT_TX_SUCCESS]) = some r ∧
      r.self.state = INJECT_STATE_IDLE ∧ r.self.retransmit_counter = 0 ∧
      r.trace.getLast? = some (effect.app_timer_start 8)) :=
  ⟨⟨_, rfl, rfl, rfl, rfl⟩, ⟨_, rfl, rfl, rfl, rfl⟩⟩

/-- C17: counter bound.  `processor_inject_init_func_` leaves a state at rest
with the retransmit counter at 0.  From every state at rest, every sequence of
public operations, lifecycle callbacks, timer expiries and radio events
returns, each in its turn, and ends with `0 ≤ retransmit_counter ≤ 10`.  A radio
event that arrives with the counter at 10 first runs `transfer_state` to
Failed, which returns with the counter zeroed, and only then is the event
looked at. -/
theorem retransmit_counter_bounded {σ : Type} (env : inject_env σ)
    (lenv : inject_lifecycle_env) (w0 w : inject_world σ) (ops : List inject_op)
    (evt : nrf_esb_evt_id) (hw : w.at_rest) :
    (processor_inject_init_func_ lenv w0).at_rest ∧
    (processor_inject_init_func_ lenv w0).self.retransmit_counter = 0 ∧
    (∃ r, inject_run env lenv w ops = some r ∧
      0 ≤ r.self.retransmit_counter ∧ r.self.retransmit_counter ≤ 10) ∧
    (w.self.retransmit_counter = 10 →
      ∃ wf, transfer_state env w INJECT_STATE_FAILED = some wf ∧
        wf.self.retransmit_counter = 0 ∧
        processor_inject_esb_handler_func_ env w evt = esb_handler_switch env wf evt) := by
  obtain ⟨r, hr, h⟩ := inject_run_at_rest env lenv ops w
  refine ⟨init_at_rest lenv w0, rfl, ⟨r, hr, (h hw).2.1, ?_⟩, ?_⟩
  · have := (h hw).2.2
    simp only [INJECT_RETRANSMIT_BEFORE_FAIL, Nat.cast_ofNat] at this
    exact this
  · intro hc
    have hne : w.self.state ≠ INJECT_STATE_FAILED := by
      rcases hw.1 with h | h | h <;> rw [h] <;> decide
    obtain ⟨wf, hwf, -, hc0, hst⟩ := transfer_state_done_total env w INJECT_STATE_FAILED
      (Or.inr rfl) hne
    refine ⟨wf, hwf, hc0, ?_⟩
    have hge : w.self.retransmit_counter ≥ (INJECT_RETRANSMIT_BEFORE_FAIL : Int) := by
      rw [hc]; simp [INJECT_RETRANSMIT_BEFORE_FAIL]
    have hnf : ¬ wf.self.state = INJECT_STATE_FAILED := by
      rcases hst with h | h <;> rw [h] <;> decide
    unfold processor_inject_esb_handler_func_
    rw [if_pos hge, hwf, Option.some_bind, if_neg hnf]

theorem retransmit_counter_bounded_witness :
    (∃ r, inject_run example_env example_lifecycle_env example_initialised
        ([inject_op.inject_string 0 1000 [120, 0], inject_op.start_execution true,
          inject_op.timer_handler] ++
          List.replicate 25 (inject_op.esb_handler NRF_ESB_EVENT_TX_FAILED)) = some r ∧
      0 ≤ r.self.retransmit_counter ∧ r.self.retransmit_counter ≤ 10) ∧
    (∃ wf, transfer_state example_env
        { example_string_working with
          self := { example_string_working.self with retransmit_counter := 10 } }
        INJECT_STATE_FAILED = some wf ∧
      wf.self.retransmit_counter = 0 ∧
      processor_inject_esb_handler_func_ example_env
        { example_string_working with
          self := { example_string_working.self with retransmit_counter := 10 } }
        NRF_ESB_EVENT_TX_FAILED = esb_handler_switch example_env wf NRF_ESB_EVENT_TX_FAILED) :=
  ⟨(retransmit_counter_bounded example_env example_lifecycle_env example_world
      example_initialised
      ([inject_op.inject_string 0 1000 [120, 0], inject_op.start_execution true,
        inject_op.timer_handler] ++
        List.replicate 25 (inject_op.esb_handler NRF_ESB_EVENT_TX_FAILED))
      NRF_ESB_EVENT_TX_FAILED (by decide)).2.2.1,
   (retransmit_counter_bounded example_env example_lifecycle_env example_world
      { example_string_working with
        self := { example_string_working.self with retransmit_counter := 10 } } []
      NRF_ESB_EVENT_TX_FAILED (by decide)).2.2.2 rfl⟩

/-! ## The claims about the handlers and the dispatch -/

theorem tx_success_entry_fields {σ : Type} (w : inject_world σ) (evt : nrf_esb_evt_id) :
    (w.tx_success_entry evt).self = w.self ∧
    (w.tx_success_entry evt).m_ringbuf = w.m_ringbuf ∧
    (w.tx_success_entry evt).trace =
      w.trace ++ (if evt = NRF_ESB_EVENT_TX_SUCCESS_ACK_PAY then [effect.nrf_esb_flush_rx]
        else []) := by
  cases evt <;> simp [inject_world.tx_success_entry, inject_world.emit]

theorem esb_handler_switch_success {σ : Type} (env : inject_env σ) (w : inject_world σ)
    (evt : nrf_esb_evt_id)
    (hevt : evt = NRF_ESB_EVENT_TX_SUCCESS ∨ evt = NRF_ESB_EVENT_TX_SUCCESS_ACK_PAY) :
    esb_handler_switch env w evt = esb_tx_success env (w.tx_success_entry evt) := by
  rcases hevt with rfl | rfl <;> rfl

/-- C18: TX success handling.  In state Working with the retransmit counter
below 10, the handler of `TX_SUCCESS` (and of `TX_SUCCESS_ACK_PAY`, after its
`nrf_esb_flush_rx`) zeroes the counter and, the provider being non-null, calls
its `p_get_next` once.  When that returns true the handler returns with the
new frame in the scratch TX frame, the state Working, and as its only further
call the timer start for `tx_delay_ms`; no radio write.  When it returns false
the handler is `transfer_state` to Succeeded.  With a null provider it is
`transfer_state` to Idle and returns in Idle.  From every state (`w2`) the
handler of a success event returns with the counter at 0.  Initialisation sets
`tx_delay_ms` to 8. -/
theorem tx_success_handling {σ : Type} (env : inject_env σ) (lenv : inject_lifecycle_env)
    (w0 w w2 : inject_world σ) (evt : nrf_esb_evt_id)
    (hevt : evt = NRF_ESB_EVENT_TX_SUCCESS ∨ evt = NRF_ESB_EVENT_TX_SUCCESS_ACK_PAY)
    (hst : w.self.state = INJECT_STATE_WORKING) (hc : w.self.retransmit_counter < 10) :
    (∀ p, w.self.p_payload_provider = some p →
      (p.p_get_next p.p_ctx w.self.tmp_tx_payload).1 = true →
      ∃ r, processor_inject_esb_handler_func_ env w evt = some r ∧
        r.self =
          { w.self with
            retransmit_counter := 0
            tmp_tx_payload := (p.p_get_next p.p_ctx w.self.tmp_tx_payload).2.2
            p_payload_provider :=
              some { p with p_ctx := (p.p_get_next p.p_ctx w.self.tmp_tx_payload).2.1 } } ∧
        r.self.state = INJECT_STATE_WORKING ∧
        r.m_ringbuf = w.m_ringbuf ∧
        r.trace =
          w.trace ++
            (if evt = NRF_ESB_EVENT_TX_SUCCESS_ACK_PAY then [effect.nrf_esb_flush_rx] else []) ++
            [effect.p_get_next true, effect.app_timer_start w.self.tx_delay_ms]) ∧
    (∀ p, w.self.p_payload_provider = some p →
      (p.p_get_next p.p_ctx w.self.tmp_tx_payload).1 = false →
      processor_inject_esb_handler_func_ env w evt =
        transfer_state env ((w.tx_success_entry evt).zero_counter.call_get_next p).2
          INJECT_STATE_SUCCEEDED ∧
      ((w.tx_success_entry evt).zero_counter.call_get_next p).2.trace =
        w.trace ++
          (if evt = NRF_ESB_EVENT_TX_SUCCESS_ACK_PAY then [effect.nrf_esb_flush_rx] else []) ++
          [effect.p_get_next false] ∧
      ∃ r, processor_inject_esb_handler_func_ env w evt = some r ∧
        r.self.retransmit_counter = 0 ∧
        (r.self.state = INJECT_STATE_IDLE ∨ r.self.state = INJECT_STATE_WORKING)) ∧
    (w.self.p_payload_provider = none →
      processor_inject_esb_handler_func_ env w evt =
        transfer_state env (w.tx_success_entry evt).zero_counter INJECT_STATE_IDLE ∧
      ∃ r, processor_inject_esb_handler_func_ env w evt = some r ∧
        r.self.state = INJECT_STATE_IDLE ∧ r.self.retransmit_counter = 0) ∧
    (∃ r, processor_inject_esb_handler_func_ env w2 evt = some r ∧
      r.self.retransmit_counter = 0) ∧
    (processor_inject_init_func_ lenv w0).self.tx_delay_ms = 8 := by
  obtain ⟨e1, e2, e3⟩ := tx_success_entry_fields w evt
  have hh : processor_inject_esb_handler_func_ env w evt =
      esb_tx_success env (w.tx_success_entry evt) := by
    rw [esb_handler_below_budget env w evt hc (by rw [hst]; decide),
      esb_handler_switch_success env w evt hevt]
  refine ⟨?_, ?_, ?_, ?_, rfl⟩
  · intro p hp hn
    have h1 : (w.tx_success_entry evt).zero_counter.self.p_payload_provider = some p := by
      show (w.tx_success_entry evt).self.p_payload_provider = some p
      rw [e1]; exact hp
    have h2 : ((w.tx_success_entry evt).zero_counter.call_get_next p).1 = true := by
      show (p.p_get_next p.p_ctx (w.tx_success_entry evt).self.tmp_tx_payload).1 = true
      rw [e1]; exact hn
    rw [hh]
    simp only [esb_tx_success, h1, h2, if_true]
    refine ⟨_, rfl, ?_, ?_, ?_, ?_⟩
    · simp only [inject_world.emit, inject_world.call_get_next, inject_world.zero_counter, e1]
    · simp only [inject_world.emit, inject_world.call_get_next, inject_world.zero_counter, e1]
      exact hst
    · simp only [inject_world.emit, inject_world.call_get_next, inject_world.zero_counter, e2]
    · simp only [inject_world.emit, inject_world.call_get_next, inject_world.zero_counter, e1, e3]
      rw [hn]
      simp
  · intro p hp hn
    have hx : esb_tx_success env (w.tx_success_entry evt) =
        transfer_state env ((w.tx_success_entry evt).zero_counter.call_get_next p).2
          INJECT_STATE_SUCCEEDED :=
      esb_tx_success_exhausted env (w.tx_success_entry evt) p (by rw [e1]; exact hp)
        (by rw [e1]; exact hn)
    refine ⟨by rw [hh, hx], ?_, ?_⟩
    · simp only [inject_world.call_get_next, inject_world.zero_counter, e1, e3]
      rw [hn]
    · rw [hh, hx]
      obtain ⟨r, hr, -, hc0, hs⟩ := transfer_state_done_total env
        ((w.tx_success_entry evt).zero_counter.call_get_next p).2 INJECT_STATE_SUCCEEDED
        (Or.inl rfl) (by
          show (w.tx_success_entry evt).self.state ≠ _
          rw [e1, hst]; decide)
      exact ⟨r, hr, hc0, hs⟩
  · intro hp
    have h1 : (w.tx_success_entry evt).zero_counter.self.p_payload_provider = none := by
      show (w.tx_success_entry evt).self.p_payload_provider = none
      rw [e1]; exact hp
    have hx : esb_tx_success env (w.tx_success_entry evt) =
        transfer_state env (w.tx_success_entry evt).zero_counter INJECT_STATE_IDLE := by
      simp only [esb_tx_success, h1]
    refine ⟨by rw [hh, hx], ?_⟩
    rw [hh, hx]
    obtain ⟨r, hr, -, -, h2⟩ := transfer_state_total env (w.tx_success_entry evt).zero_counter
      INJECT_STATE_IDLE
    have hne : INJECT_STATE_IDLE ≠ (w.tx_success_entry evt).zero_counter.self.state := by
      show _ ≠ (w.tx_success_entry evt).self.state
      rw [e1, hst]; decide
    obtain ⟨a1, a2, -, -⟩ := (h2 hne).1 rfl
    exact ⟨r, hr, a1, a2⟩
  · obtain ⟨r, hr, -, -, -, -, -, -, h0⟩ := esb_handler_total env w2 evt
    exact ⟨r, hr, h0 hevt⟩
theorem tx_success_handling_witness :
    (∃ r, processor_inject_esb_handler_func_ example_env example_string_sending
        NRF_ESB_EVENT_TX_SUCCESS_ACK_PAY = some r ∧
      r.self =
        { example_string_sending.self with
          retransmit_counter := 0
          tmp_tx_payload := example_string_sending.self.tmp_tx_payload
          p_payload_provider := some { example_provider 1 with p_ctx := 0 } } ∧
      r.self.state = INJECT_STATE_WORKING ∧
      r.m_ringbuf = example_string_sending.m_ringbuf ∧
      r.trace =
        [effect.nrf_esb_flush_rx, effect.p_get_next true, effect.app_timer_start 8]) ∧
    (processor_inject_esb_handler_func_ example_env example_string_working
        NRF_ESB_EVENT_TX_SUCCESS =
      transfer_state example_env
        ((example_string_working.tx_success_entry
          NRF_ESB_EVENT_TX_SUCCESS).zero_counter.call_get_next (example_provider 0)).2
        INJECT_STATE_SUCCEEDED) ∧
    (∃ r, processor_inject_esb_handler_func_ example_env example_delay_working
        NRF_ESB_EVENT_TX_SUCCESS = some r ∧
      r.self.state = INJECT_STATE_IDLE ∧ r.self.retransmit_counter = 0) ∧
    (∃ r, processor_inject_esb_handler_func_ example_env
        { example_world with
          self := { example_world.self with
                    state := INJECT_STATE_FAILED, retransmit_counter := 12 } }
        NRF_ESB_EVENT_TX_SUCCESS = some r ∧
      r.self.retransmit_counter = 0) :=
  ⟨(tx_success_handling example_env example_lifecycle_env example_world example_string_sending
      example_world NRF_ESB_EVENT_TX_SUCCESS_ACK_PAY (Or.inr rfl) rfl (by decide)).1
      (example_provider 1) rfl rfl,
   ((tx_success_handling example_env example_lifecycle_env example_world example_string_working
      example_world NRF_ESB_EVENT_TX_SUCCESS (Or.inl rfl) rfl (by decide)).2.1
      (example_provider 0) rfl rfl).1,
   ((tx_success_handling example_env example_lifecycle_env example_world example_delay_working
      example_world NRF_ESB_EVENT_TX_SUCCESS (Or.inl rfl) rfl (by decide)).2.2.1 rfl).2,
   (tx_success_handling example_env example_lifecycle_env example_world example_delay_working
      { example_world with
        self := { example_world.self with
                  state := INJECT_STATE_FAILED, retransmit_counter := 12 } }
      NRF_ESB_EVENT_TX_SUCCESS (Or.inl rfl) rfl (by decide)).2.2.2.1⟩

/-- C19: timer handler.  In state Working on a Delay task the timer handler is
`transfer_state` to Succeeded, and returns.  In state Working on a String or
Combo task it stores the updated Unifying checksum in the scratch TX frame and
passes that frame to `nrf_esb_write_payload`, once: that is its only call, and
no other member of the context changes (state, retransmit counter, execute
flag, current task, provider), nor the task buffer.  In state Working on a task
of any other kind, and in every state other than Working, it changes nothing
and makes no call. -/
theorem timer_handler_cases {σ : Type} (env : inject_env σ) (w : inject_world σ) :
    (w.self.state = INJECT_STATE_WORKING →
      w.self.current_task.type = INJECT_TASK_TYPE_DELAY →
      processor_inject_timer_handler_func_ env w =
        transfer_state env w INJECT_STATE_SUCCEEDED ∧
      ∃ r, processor_inject_timer_handler_func_ env w = some r ∧
        r.self.retransmit_counter = 0 ∧
        (r.self.state = INJECT_STATE_IDLE ∨ r.self.state = INJECT_STATE_WORKING)) ∧
    (w.self.state = INJECT_STATE_WORKING →
      w.self.current_task.type = INJECT_TASK_TYPE_TYPE_STRING ∨
        w.self.current_task.type = INJECT_TASK_TYPE_PRESS_KEYS →
      ∃ r, processor_inject_timer_handler_func_ env w = some r ∧
        r.self =
          { w.self with
            tmp_tx_payload :=
              { w.self.tmp_tx_payload with
                data := env.unifying_payload_update_checksum w.self.tmp_tx_payload.data
                  w.self.tmp_tx_payload.length } } ∧
        r.m_ringbuf = w.m_ringbuf ∧
        r.trace = w.trace ++ [effect.nrf_esb_write_payload r.self.tmp_tx_payload]) ∧
    (w.self.state = INJECT_STATE_WORKING →
      w.self.current_task.type ≠ INJECT_TASK_TYPE_DELAY →
      w.self.current_task.type ≠ INJECT_TASK_TYPE_TYPE_STRING →
      w.self.current_task.type ≠ INJECT_TASK_TYPE_PRESS_KEYS →
      processor_inject_timer_handler_func_ env w = some w) ∧
    (w.self.state ≠ INJECT_STATE_WORKING →
      processor_inject_timer_handler_func_ env w = some w) := by
  refine ⟨?_, ?_, ?_, ?_⟩
  · intro hst hd
    have e : processor_inject_timer_handler_func_ env w =
        transfer_state env w INJECT_STATE_SUCCEEDED := by
      simp only [processor_inject_timer_handler_func_, hst, hd, if_true]
    obtain ⟨r, hr, -, hc, hs⟩ := transfer_state_done_total env w INJECT_STATE_SUCCEEDED
      (Or.inl rfl) (by rw [hst]; decide)
    exact ⟨e, r, by rw [e]; exact hr, hc, hs⟩
  · intro hst ht
    have hd : ¬ w.self.current_task.type = INJECT_TASK_TYPE_DELAY := by
      rcases ht with h | h <;> rw [h] <;> decide
    have ht' : w.self.current_task.type = INJECT_TASK_TYPE_PRESS_KEYS ∨
        w.self.current_task.type = INJECT_TASK_TYPE_TYPE_STRING := ht.symm
    refine ⟨({ w with
        self := { w.self with
                  tmp_tx_payload :=
                    { w.self.tmp_tx_payload with
                      data := env.unifying_payload_update_checksum w.self.tmp_tx_payload.data
                        w.self.tmp_tx_payload.length } } } : inject_world σ).emit
      (effect.nrf_esb_write_payload
        { w.self.tmp_tx_payload with
          data := env.unifying_payload_update_checksum w.self.tmp_tx_payload.data
            w.self.tmp_tx_payload.length }), ?_, rfl, rfl, rfl⟩
    simp only [processor_inject_timer_handler_func_, hst, hd, ht', if_true, if_false]
  · intro hst h1 h2 h3
    have ht : ¬ (w.self.current_task.type = INJECT_TASK_TYPE_PRESS_KEYS ∨
        w.self.current_task.type = INJECT_TASK_TYPE_TYPE_STRING) := by
      rintro (h | h)
      · exact h3 h
      · exact h2 h
    simp only [processor_inject_timer_handler_func_, hst, h1, ht, if_true, if_false]
  · intro hst
    simp only [processor_inject_timer_handler_func_, hst, if_false]

theorem timer_handler_cases_witness :
    (processor_inject_timer_handler_func_ example_env example_delay_working =
        transfer_state example_env example_delay_working INJECT_STATE_SUCCEEDED ∧
      ∃ r, processor_inject_timer_handler_func_ example_env example_delay_working = some r ∧
        r.self.retransmit_counter = 0 ∧
        (r.self.state = INJECT_STATE_IDLE ∨ r.self.state = INJECT_STATE_WORKING)) ∧
    (∃ r, processor_inject_timer_handler_func_ example_env example_string_sending = some r ∧
      r.self = example_string_sending.self ∧
      r.m_ringbuf = example_string_sending.m_ringbuf ∧
      r.trace = [effect.nrf_esb_write_payload r.self.tmp_tx_payload]) ∧
    processor_inject_timer_handler_func_ example_env
        { example_string_sending with
          self := { example_string_sending.self with
                    current_task := { example_zero_task with type := 7 } } } =
      some { example_string_sending with
          self := { example_string_sending.self with
                    current_task := { example_zero_task with type := 7 } } } ∧
    processor_inject_timer_handler_func_ example_env example_world = some example_world :=
  ⟨(timer_handler_cases example_env example_delay_working).1 rfl rfl,
   (timer_handler_cases example_env example_string_sending).2.1 rfl (Or.inl rfl),
   (timer_handler_cases example_env
      { example_string_sending with
        self := { example_string_sending.self with
                  current_task := { example_zero_task with type := 7 } } }).2.2.1 rfl
      (by decide) (by decide) (by decide),
   (timer_handler_cases example_env example_world).2.2.2 (by decide)⟩

theorem run_next_task_provider_task {σ : Type} (env : inject_env σ) (W : inject_world σ)
    (e : effect) (p : logitacker_tx_payload_provider σ)
    (hst : W.self.state = INJECT_STATE_IDLE) :
    ((p.p_get_next p.p_ctx W.self.tmp_tx_payload).1 = true →
      (if !((W.emit e).call_get_next p).1 then
          transfer_state_with (logitacker_processor_inject_run_next_task env)
            ((W.emit e).call_get_next p).2 INJECT_STATE_FAILED
        else
          (transfer_state_with (logitacker_processor_inject_run_next_task env)
            ((W.emit e).call_get_next p).2 INJECT_STATE_WORKING).map
            (fun w1 => w1.emit (effect.app_timer_start w1.self.tx_delay_ms))) =
        some
          { self :=
              { W.self with
                state := INJECT_STATE_WORKING
                tmp_tx_payload := (p.p_get_next p.p_ctx W.self.tmp_tx_payload).2.2
                p_payload_provider :=
                  some { p with p_ctx := (p.p_get_next p.p_ctx W.self.tmp_tx_payload).2.1 } }
            m_ringbuf := W.m_ringbuf
            m_ringbuf_initialized := W.m_ringbuf_initialized
            trace :=
              W.trace ++ [e, effect.p_get_next true,
                effect.state_store INJECT_STATE_WORKING,
                effect.app_timer_start W.self.tx_delay_ms] }) ∧
    ((p.p_get_next p.p_ctx W.self.tmp_tx_payload).1 = false →
      (if !((W.emit e).call_get_next p).1 then
          transfer_state_with (logitacker_processor_inject_run_next_task env)
            ((W.emit e).call_get_next p).2 INJECT_STATE_FAILED
        else
          (transfer_state_with (logitacker_processor_inject_run_next_task env)
            ((W.emit e).call_get_next p).2 INJECT_STATE_WORKING).map
            (fun w1 => w1.emit (effect.app_timer_start w1.self.tx_delay_ms))) =
        transfer_state env ((W.emit e).call_get_next p).2 INJECT_STATE_FAILED) := by
  constructor
  · intro hn
    have h1 : ((W.emit e).call_get_next p).1 = true := hn
    simp only [h1, Bool.not_true, Bool.false_eq_true, if_false]
    rw [transfer_state_with_working _ ((W.emit e).call_get_next p).2 hst]
    simp only [Option.map_some', inject_world.emit, inject_world.set_state,
      inject_world.call_get_next, hn, List.append_assoc, List.singleton_append,
      List.cons_append, List.nil_append]
  · intro hn
    have h1 : ((W.emit e).call_get_next p).1 = false := hn
    simp only [h1, Bool.not_false, if_true]
    rfl

/-- C20: dispatch.  Let `run_next_task` start in Idle and its `peek_task`
succeed, and let `W` be the state after the peek.  For a Delay task with
`delay_ms ≠ 0` it sets the provider to NULL, stores Working and starts the timer
for `delay_ms`.  For a String (Combo) task it constructs the string (press)
provider and calls its `p_get_next` once: if that returns true, the frame is in
the scratch TX frame, Working is stored and the timer is started for
`tx_delay_ms`; if it returns false, `run_next_task` is `transfer_state` to
Failed.  For a task of any other kind it is `transfer_state` to Failed as well.
That transfer ends with `run_next_task` exactly when `execute` is set. -/
theorem run_next_task_dispatch {σ : Type} (env : inject_env σ) (w W : inject_world σ)
    (hst : w.self.state = INJECT_STATE_IDLE) (hpeek : (w.call_peek_task env).1 = true)
    (hW : W = (w.call_peek_task env).2) :
    (W.self.current_task.type = INJECT_TASK_TYPE_DELAY → W.self.current_task.delay_ms ≠ 0 →
      logitacker_processor_inject_run_next_task env w =
        some
          { self := { W.self with state := INJECT_STATE_WORKING, p_payload_provider := none }
            m_ringbuf := W.m_ringbuf
            m_ringbuf_initialized := W.m_ringbuf_initialized
            trace :=
              W.trace ++ [effect.state_store INJECT_STATE_WORKING,
                effect.app_timer_start W.self.current_task.delay_ms] }) ∧
    (∀ p e, (W.self.current_task.type = INJECT_TASK_TYPE_TYPE_STRING ∧
          p = env.new_payload_provider_string W.self.p_device W.self.current_task.lang
            W.self.current_task_data ∧ e = effect.new_payload_provider_string) ∨
        (W.self.current_task.type = INJECT_TASK_TYPE_PRESS_KEYS ∧
          p = env.new_payload_provider_press W.self.p_device W.self.current_task.lang
            W.self.current_task_data ∧ e = effect.new_payload_provider_press) →
      ((p.p_get_next p.p_ctx W.self.tmp_tx_payload).1 = true →
        logitacker_processor_inject_run_next_task env w =
          some
            { self :=
                { W.self with
                  state := INJECT_STATE_WORKING
                  tmp_tx_payload := (p.p_get_next p.p_ctx W.self.tmp_tx_payload).2.2
                  p_payload_provider :=
                    some { p with p_ctx := (p.p_get_next p.p_ctx W.self.tmp_tx_payload).2.1 } }
              m_ringbuf := W.m_ringbuf
              m_ringbuf_initialized := W.m_ringbuf_initialized
              trace :=
                W.trace ++ [e, effect.p_get_next true,
                  effect.state_store INJECT_STATE_WORKING,
                  effect.app_timer_start W.self.tx_delay_ms] }) ∧
      ((p.p_get_next p.p_ctx W.self.tmp_tx_payload).1 = false →
        logitacker_processor_inject_run_next_task env w =
          transfer_state env ((W.emit e).call_get_next p).2 INJECT_STATE_FAILED ∧
        transfer_state env ((W.emit e).call_get_next p).2 INJECT_STATE_FAILED =
          (if W.self.execute then
            logitacker_processor_inject_run_next_task env
              (((W.emit e).call_get_next p).2.task_done INJECT_STATE_FAILED)
          else some (((W.emit e).call_get_next p).2.task_done INJECT_STATE_FAILED)))) ∧
    (W.self.current_task.type ≠ INJECT_TASK_TYPE_DELAY →
      W.self.current_task.type ≠ INJECT_TASK_TYPE_TYPE_STRING →
      W.self.current_task.type ≠ INJECT_TASK_TYPE_PRESS_KEYS →
      logitacker_processor_inject_run_next_task env w =
        transfer_state env W INJECT_STATE_FAILED ∧
      transfer_state env W INJECT_STATE_FAILED =
        (if W.self.execute then
          logitacker_processor_inject_run_next_task env (W.task_done INJECT_STATE_FAILED)
        else some (W.task_done INJECT_STATE_FAILED))) := by
  subst hW
  obtain ⟨-, -, -, q4, -, -, -, -⟩ := call_peek_task_fields env w
  rw [hst] at q4
  have hn : ¬ (w.self.state ≠ INJECT_STATE_IDLE) := fun h => h hst
  have hu := run_next_task_unfold env w
  simp only [if_neg hn, hpeek, Bool.not_true, Bool.false_eq_true, if_false] at hu
  have hfail : ∀ X : inject_world σ, X.self.state = INJECT_STATE_IDLE →
      transfer_state env X INJECT_STATE_FAILED =
        (if X.self.execute then
          logitacker_processor_inject_run_next_task env (X.task_done INJECT_STATE_FAILED)
        else some (X.task_done INJECT_STATE_FAILED)) :=
    fun X hX => transfer_state_task_done env X INJECT_STATE_FAILED (Or.inr rfl)
      (by rw [hX]; decide)
  refine ⟨?_, ?_, ?_⟩
  · intro hd hz
    have h1 : ¬ (w.call_peek_task env).2.self.current_task.type = INJECT_TASK_TYPE_PRESS_KEYS := by
      rw [hd]; decide
    have h2 : ¬ (w.call_peek_task env).2.self.current_task.type =
        INJECT_TASK_TYPE_TYPE_STRING := by
      rw [hd]; decide
    rw [hu, if_neg h1, if_neg h2, if_pos hd]
    unfold process_task_delay_with
    simp only [hz, if_false]
    rw [transfer_state_with_working]
    · simp only [Option.map_some', inject_world.emit, inject_world.set_state,
        List.append_assoc, List.singleton_append]
    · exact q4
  · intro p e hcase
    obtain ⟨g1, g2⟩ := run_next_task_provider_task env (w.call_peek_task env).2 e p q4
    have hrun : logitacker_processor_inject_run_next_task env w =
        (if !(((w.call_peek_task env).2.emit e).call_get_next p).1 then
          transfer_state_with (logitacker_processor_inject_run_next_task env)
            (((w.call_peek_task env).2.emit e).call_get_next p).2 INJECT_STATE_FAILED
        else
          (transfer_state_with (logitacker_processor_inject_run_next_task env)
            (((w.call_peek_task env).2.emit e).call_get_next p).2 INJECT_STATE_WORKING).map
            (fun w1 => w1.emit (effect.app_timer_start w1.self.tx_delay_ms))) := by
      rcases hcase with ⟨ht, rfl, rfl⟩ | ⟨ht, rfl, rfl⟩
      · have h1 : ¬ (w.call_peek_task env).2.self.current_task.type =
            INJECT_TASK_TYPE_PRESS_KEYS := by
          rw [ht]; decide
        rw [hu, if_neg h1, if_pos ht]
        rfl
      · rw [hu, if_pos ht]
        rfl
    refine ⟨fun hn1 => by rw [hrun]; exact g1 hn1, fun hn0 => ⟨by rw [hrun]; exact g2 hn0, ?_⟩⟩
    exact hfail _ q4
  · intro h1 h2 h3
    rw [hu, if_neg h3, if_neg h2, if_neg h1]
    exact ⟨rfl, hfail _ q4⟩
theorem run_next_task_dispatch_witness :
    logitacker_processor_inject_run_next_task example_env example_delay_queued =
      some
        { self :=
            { (example_delay_queued.call_peek_task example_env).2.self with
              state := INJECT_STATE_WORKING, p_payload_provider := none }
          m_ringbuf := (example_delay_queued.call_peek_task example_env).2.m_ringbuf
          m_ringbuf_initialized := true
          trace := [effect.state_store INJECT_STATE_WORKING, effect.app_timer_start 500] } ∧
    logitacker_processor_inject_run_next_task example_env example_string_queued =
      some
        { self :=
            { (example_string_queued.call_peek_task example_env).2.self with
              state := INJECT_STATE_WORKING
              tmp_tx_payload := example_world.self.tmp_tx_payload
              p_payload_provider := some { example_provider 2 with p_ctx := 1 } }
          m_ringbuf := (example_string_queued.call_peek_task example_env).2.m_ringbuf
          m_ringbuf_initialized := true
          trace :=
            [effect.new_payload_provider_string, effect.p_get_next true,
              effect.state_store INJECT_STATE_WORKING, effect.app_timer_start 8] } ∧
    logitacker_processor_inject_run_next_task example_env example_unknown_queued =
      transfer_state example_env (example_unknown_queued.call_peek_task example_env).2
        INJECT_STATE_FAILED :=
  ⟨(run_next_task_dispatch example_env example_delay_queued _ rfl rfl rfl).1 rfl (by decide),
   ((run_next_task_dispatch example_env example_string_queued _ rfl rfl rfl).2.1
      (example_provider 2) effect.new_payload_provider_string
      (Or.inl ⟨rfl, rfl, rfl⟩)).1 rfl,
   ((run_next_task_dispatch example_env example_unknown_queued _ rfl rfl rfl).2.2
      (by decide) (by decide) (by decide)).1⟩

/-! ## The scratch buffer of a read -/

theorem pop_task_fault_data (rb : ringbuf) (p : inject_task) (a : Nat) (buf : List Nat)
    (h : framing_fault rb rb.rd_idx) :
    ∃ bs : List Nat, bs.length ≤ INJECT_MAX_TASK_DATA_SIZE ∧
      (pop_task rb p a buf).data_buf = bs ++ buf.drop bs.length := by
  unfold pop_task
  by_cases c1 : ringbuf_available_fetch rb = INJECT_RINGBUF_BYTES
  · exact ⟨[], by simp, by simp [c1, label_error_flush_ringbuf]⟩
  have c1' : ¬ rb.wr_idx - rb.rd_idx = 0 := by
    intro hz; apply c1; simp [ringbuf_available_fetch, hz]
  by_cases c2 : rb.wr_idx - rb.rd_idx < sizeof_inject_task_t
  · have hm : min sizeof_inject_task_t (rb.wr_idx - rb.rd_idx) ≠ sizeof_inject_task_t := by omega
    exact ⟨[], by simp, by simp [c1, ringbuf_fetch_data, hm, label_error_flush_ringbuf]⟩
  have hm : min sizeof_inject_task_t (rb.wr_idx - rb.rd_idx) = sizeof_inject_task_t := by omega
  have hdl : (task_of_bytes (read_bytes rb.p_buffer rb.rd_idx sizeof_inject_task_t ++ [])).data_len
      = stored_data_len rb rb.rd_idx := by
    simp [task_of_bytes, stored_data_len]
  simp only [c1, if_false, ringbuf_fetch_data, hm, drop_task_bytes, ne_eq, not_true_eq_false,
    hdl]
  by_cases c3 : stored_data_len rb rb.rd_idx > INJECT_MAX_TASK_DATA_SIZE
  · exact ⟨[], by simp, by simp [c3, label_error_flush_ringbuf]⟩
  have c4 : rb.wr_idx - (rb.rd_idx + sizeof_inject_task_t) < stored_data_len rb rb.rd_idx := by
    rcases h with h | h | h | h
    · exact absurd h c1'
    · exact absurd h c2
    · exact absurd h c3
    · exact h
  have hm2 : min (stored_data_len rb rb.rd_idx) (rb.wr_idx - (rb.rd_idx + sizeof_inject_task_t))
      = rb.wr_idx - (rb.rd_idx + sizeof_inject_task_t) := by omega
  have hne : rb.wr_idx - (rb.rd_idx + sizeof_inject_task_t) ≠ stored_data_len rb rb.rd_idx := by
    omega
  refine ⟨read_bytes rb.p_buffer (rb.rd_idx + sizeof_inject_task_t)
    (rb.wr_idx - (rb.rd_idx + sizeof_inject_task_t)), ?_, ?_⟩
  · rw [length_read_bytes]; omega
  · simp [c3, hm2, hne, label_error_flush_ringbuf, length_read_bytes]

theorem peek_task_fault_data (rb : ringbuf) (p : inject_task) (a : Nat) (buf : List Nat)
    (h : framing_fault rb rb.peek_rd_idx) :
    ∃ bs : List Nat, bs.length ≤ INJECT_MAX_TASK_DATA_SIZE ∧
      (peek_task rb p a buf).data_buf = bs ++ buf.drop bs.length := by
  unfold peek_task
  by_cases c1 : ringbuf_available_peek rb = INJECT_RINGBUF_BYTES
  · exact ⟨[], by simp, by simp [c1, label_reset_peek]⟩
  have c1' : ¬ rb.wr_idx - rb.peek_rd_idx = 0 := by
    intro hz; apply c1; simp [ringbuf_available_peek, hz]
  by_cases c2 : rb.wr_idx - rb.peek_rd_idx < sizeof_inject_task_t
  · have hm : min sizeof_inject_task_t (rb.wr_idx - rb.peek_rd_idx) ≠ sizeof_inject_task_t := by
      omega
    exact ⟨[], by simp, by simp [c1, ringbuf_peek_data, hm, label_reset_peek]⟩
  have hm : min sizeof_inject_task_t (rb.wr_idx - rb.peek_rd_idx) = sizeof_inject_task_t := by
    omega
  have hdl : (task_of_bytes
      (read_bytes rb.p_buffer rb.peek_rd_idx sizeof_inject_task_t ++ [])).data_len
      = stored_data_len rb rb.peek_rd_idx := by
    simp [task_of_bytes, stored_data_len]
  simp only [c1, if_false, ringbuf_peek_data, hm, drop_task_bytes, ne_eq, not_true_eq_false,
    hdl]
  by_cases c3 : stored_data_len rb rb.peek_rd_idx > INJECT_MAX_TASK_DATA_SIZE
  · exact ⟨[], by simp, by simp [c3, label_reset_peek]⟩
  have c4 : rb.wr_idx - (rb.peek_rd_idx + sizeof_inject_task_t) <
      stored_data_len rb rb.peek_rd_idx := by
    rcases h with h | h | h | h
    · exact absurd h c1'
    · exact absurd h c2
    · exact absurd h c3
    · exact h
  have hm2 : min (stored_data_len rb rb.peek_rd_idx)
      (rb.wr_idx - (rb.peek_rd_idx + sizeof_inject_task_t))
      = rb.wr_idx - (rb.peek_rd_idx + sizeof_inject_task_t) := by omega
  have hne : rb.wr_idx - (rb.peek_rd_idx + sizeof_inject_task_t) ≠
      stored_data_len rb rb.peek_rd_idx := by
    omega
  refine ⟨read_bytes rb.p_buffer (rb.peek_rd_idx + sizeof_inject_task_t)
    (rb.wr_idx - (rb.peek_rd_idx + sizeof_inject_task_t)), ?_, ?_⟩
  · rw [length_read_bytes]; omega
  · simp [c3, hm2, hne, label_reset_peek, length_read_bytes]
theorem drop_overwritten (bs buf : List Nat) (n : Nat) (h : bs.length ≤ n) :
    (bs ++ buf.drop bs.length).drop n = buf.drop n := by
  rw [List.drop_append_eq_append_drop, List.drop_eq_nil_of_le h, List.nil_append,
    List.drop_drop]
  congr 1
  omega

/-- C27: bound on the scratch buffer.  For every buffer content and every
previous content of the out-parameters, `pop_task` and `peek_task` overwrite at
most the first 256 bytes of the caller's data buffer: the returned buffer is a
block of at most `INJECT_MAX_TASK_DATA_SIZE` bytes followed by the old content
after that block, so everything from byte 256 on is as it was.  When either
returns true, the returned `data_len` is at most 256 and the block is exactly
the `data_len` stored bytes that follow the header; when either returns false,
the returned header has `data_len` 0. -/
theorem task_data_copy_bounded (rb : ringbuf) (p_task : inject_task) (p_task_data_buf : Nat)
    (buf : List Nat) :
    ((∃ bs : List Nat, bs.length ≤ INJECT_MAX_TASK_DATA_SIZE ∧
        (pop_task rb p_task p_task_data_buf buf).data_buf = bs ++ buf.drop bs.length) ∧
      (pop_task rb p_task p_task_data_buf buf).data_buf.drop 256 = buf.drop 256 ∧
      ((pop_task rb p_task p_task_data_buf buf).ret = true →
        (pop_task rb p_task p_task_data_buf buf).task.data_len ≤ 256 ∧
        (pop_task rb p_task p_task_data_buf buf).data_buf =
          read_bytes rb.p_buffer (rb.rd_idx + sizeof_inject_task_t)
              (pop_task rb p_task p_task_data_buf buf).task.data_len ++
            buf.drop (pop_task rb p_task p_task_data_buf buf).task.data_len) ∧
      ((pop_task rb p_task p_task_data_buf buf).ret = false →
        (pop_task rb p_task p_task_data_buf buf).task.data_len = 0)) ∧
    ((∃ bs : List Nat, bs.length ≤ INJECT_MAX_TASK_DATA_SIZE ∧
        (peek_task rb p_task p_task_data_buf buf).data_buf = bs ++ buf.drop bs.length) ∧
      (peek_task rb p_task p_task_data_buf buf).data_buf.drop 256 = buf.drop 256 ∧
      ((peek_task rb p_task p_task_data_buf buf).ret = true →
        (peek_task rb p_task p_task_data_buf buf).task.data_len ≤ 256 ∧
        (peek_task rb p_task p_task_data_buf buf).data_buf =
          read_bytes rb.p_buffer (rb.peek_rd_idx + sizeof_inject_task_t)
              (peek_task rb p_task p_task_data_buf buf).task.data_len ++
            buf.drop (peek_task rb p_task p_task_data_buf buf).task.data_len) ∧
      ((peek_task rb p_task p_task_data_buf buf).ret = false →
        (peek_task rb p_task p_task_data_buf buf).task.data_len = 0)) := by
  constructor
  · have hbs : ∃ bs : List Nat, bs.length ≤ INJECT_MAX_TASK_DATA_SIZE ∧
        (pop_task rb p_task p_task_data_buf buf).data_buf = bs ++ buf.drop bs.length := by
      by_cases hf : framing_fault rb rb.rd_idx
      · exact pop_task_fault_data rb p_task p_task_data_buf buf hf
      · rw [pop_task_no_fault_eq rb p_task p_task_data_buf buf hf]
        simp only [framing_fault, not_or, Nat.not_lt, gt_iff_lt] at hf
        exact ⟨read_bytes rb.p_buffer (rb.rd_idx + sizeof_inject_task_t)
          (stored_data_len rb rb.rd_idx), by rw [length_read_bytes]; exact hf.2.2.1,
          by rw [length_read_bytes]⟩
    refine ⟨hbs, ?_, ?_, ?_⟩
    · obtain ⟨bs, h1, h2⟩ := hbs
      rw [h2]
      exact drop_overwritten bs buf 256 h1
    · intro hret
      have hf : ¬ framing_fault rb rb.rd_idx := by
        intro hn
        rw [(pop_task_fault rb p_task p_task_data_buf buf hn).1] at hret
        exact absurd hret (by simp)
      have hdl : (task_of_bytes (read_bytes rb.p_buffer rb.rd_idx sizeof_inject_task_t)).data_len
          = stored_data_len rb rb.rd_idx := by
        simp [task_of_bytes, stored_data_len]
      rw [pop_task_no_fault_eq rb p_task p_task_data_buf buf hf]
      simp only [framing_fault, not_or, Nat.not_lt, gt_iff_lt, INJECT_MAX_TASK_DATA_SIZE] at hf
      simp only [hdl]
      exact ⟨hf.2.2.1, trivial⟩
    · intro hret
      have hf : framing_fault rb rb.rd_idx := by
        by_contra hn
        rw [pop_task_no_fault_eq rb p_task p_task_data_buf buf hn] at hret
        exact absurd hret (by simp)
      exact (pop_task_fault rb p_task p_task_data_buf buf hf).2.2.1
  · have hbs : ∃ bs : List Nat, bs.length ≤ INJECT_MAX_TASK_DATA_SIZE ∧
        (peek_task rb p_task p_task_data_buf buf).data_buf = bs ++ buf.drop bs.length := by
      by_cases hf : framing_fault rb rb.peek_rd_idx
      · exact peek_task_fault_data rb p_task p_task_data_buf buf hf
      · rw [peek_task_no_fault rb p_task p_task_data_buf buf hf]
        simp only [framing_fault, not_or, Nat.not_lt, gt_iff_lt] at hf
        exact ⟨read_bytes rb.p_buffer (rb.peek_rd_idx + sizeof_inject_task_t)
          (stored_data_len rb rb.peek_rd_idx), by rw [length_read_bytes]; exact hf.2.2.1,
          by rw [length_read_bytes]⟩
    refine ⟨hbs, ?_, ?_, ?_⟩
    · obtain ⟨bs, h1, h2⟩ := hbs
      rw [h2]
      exact drop_overwritten bs buf 256 h1
    · intro hret
      have hf : ¬ framing_fault rb rb.peek_rd_idx := by
        intro hn
        rw [(peek_task_fault rb p_task p_task_data_buf buf hn).1] at hret
        exact absurd hret (by simp)
      have hdl : (task_of_bytes
          (read_bytes rb.p_buffer rb.peek_rd_idx sizeof_inject_task_t)).data_len
          = stored_data_len rb rb.peek_rd_idx := by
        simp [task_of_bytes, stored_data_len]
      rw [peek_task_no_fault rb p_task p_task_data_buf buf hf]
      simp only [framing_fault, not_or, Nat.not_lt, gt_iff_lt, INJECT_MAX_TASK_DATA_SIZE] at hf
      simp only [hdl]
      exact ⟨hf.2.2.1, trivial⟩
    · intro hret
      have hf : framing_fault rb rb.peek_rd_idx := by
        by_contra hn
        rw [peek_task_no_fault rb p_task p_task_data_buf buf hn] at hret
        exact absurd hret (by simp)
      exact (peek_task_fault rb p_task p_task_data_buf buf hf).2.2.1
theorem task_data_copy_bounded_witness :
    (pop_task example_corrupt example_zero_task 99 example_scratch).task.data_len = 0 ∧
    (pop_task example_corrupt example_zero_task 99 example_scratch).data_buf.drop 256 =
      example_scratch.drop 256 ∧
    (peek_task example_string_queued.m_ringbuf example_zero_task 99 example_scratch).task.data_len
      ≤ 256 ∧
    (peek_task example_string_queued.m_ringbuf example_zero_task 99 example_scratch).data_buf =
      read_bytes example_string_queued.m_ringbuf.p_buffer
          (example_string_queued.m_ringbuf.peek_rd_idx + sizeof_inject_task_t)
          (peek_task example_string_queued.m_ringbuf example_zero_task 99
            example_scratch).task.data_len ++
        example_scratch.drop
          (peek_task example_string_queued.m_ringbuf example_zero_task 99
            example_scratch).task.data_len :=
  ⟨(task_data_copy_bounded example_corrupt example_zero_task 99 example_scratch).1.2.2.2 rfl,
   (task_data_copy_bounded example_corrupt example_zero_task 99 example_scratch).1.2.1,
   ((task_data_copy_bounded example_string_queued.m_ringbuf example_zero_task 99
      example_scratch).2.2.2.1 rfl).1,
   ((task_data_copy_bounded example_string_queued.m_ringbuf example_zero_task 99
      example_scratch).2.2.2.1 rfl).2⟩

/-! ## The claims about the guard, the events and the recursion -/

theorem call_peek_task_fails_iff {σ : Type} (env : inject_env σ) (w : inject_world σ) :
    (w.call_peek_task env).1 = false ↔ framing_fault w.m_ringbuf w.m_ringbuf.peek_rd_idx := by
  show (peek_task w.m_ringbuf w.self.current_task env.p_current_task_data
    w.self.current_task_data).ret = false ↔ _
  constructor
  · intro h
    by_contra hn
    rw [peek_task_no_fault _ _ _ _ hn] at h
    exact absurd h (by simp)
  · intro h
    exact (peek_task_fault _ _ _ _ h).1

/-- C21: guard and empty case of `run_next_task`.  In a state other than Idle,
`run_next_task` returns without changing anything and without any call, so
`logitacker_processor_inject_start_execution(.., true)` then only sets the
flag.  In state Idle, when `peek_task` fails, which it does exactly when the
queue is empty or framed wrongly at the peek cursor, `run_next_task` returns in
Idle with the peek cursor on the consume cursor and `execute` cleared; it makes
no call (no timer start), and leaves the consume cursor, the write cursor, the
stored bytes, the provider and the retransmit counter as they were. -/
theorem run_next_task_guard_and_empty {σ : Type} (env : inject_env σ) (w : inject_world σ) :
    (w.self.state ≠ INJECT_STATE_IDLE →
      logitacker_processor_inject_run_next_task env w = some w ∧
      logitacker_processor_inject_start_execution env w true =
        some { w with self := { w.self with execute := true } }) ∧
    ((w.call_peek_task env).1 = false ↔
      framing_fault w.m_ringbuf w.m_ringbuf.peek_rd_idx) ∧
    (w.self.state = INJECT_STATE_IDLE → (w.call_peek_task env).1 = false →
      ∃ r, logitacker_processor_inject_run_next_task env w = some r ∧
        r.self.state = INJECT_STATE_IDLE ∧
        r.m_ringbuf.peek_rd_idx = r.m_ringbuf.rd_idx ∧
        r.self.execute = false ∧
        r.trace = w.trace ∧
        r.m_ringbuf.rd_idx = w.m_ringbuf.rd_idx ∧
        r.m_ringbuf.wr_idx = w.m_ringbuf.wr_idx ∧
        r.m_ringbuf.p_buffer = w.m_ringbuf.p_buffer ∧
        r.self.p_payload_provider = w.self.p_payload_provider ∧
        r.self.retransmit_counter = w.self.retransmit_counter) := by
  refine ⟨?_, call_peek_task_fails_iff env w, ?_⟩
  · intro hst
    have h1 : logitacker_processor_inject_run_next_task env w = some w := by
      rw [run_next_task_unfold, if_pos hst]
    refine ⟨h1, ?_⟩
    have hst' : ({ w with self := { w.self with execute := true } } : inject_world σ).self.state
        ≠ INJECT_STATE_IDLE := hst
    simp only [logitacker_processor_inject_start_execution, if_true]
    rw [run_next_task_unfold, if_pos hst']
  · intro hst hret
    obtain ⟨q1, q2, q3, q4, -, q6, q7, -⟩ := call_peek_task_fields env w
    have hn : ¬ (w.self.state ≠ INJECT_STATE_IDLE) := fun h => h hst
    refine ⟨(w.call_peek_task env).2.end_of_script, ?_, ?_, rfl, rfl, q7, q1, q2, q3, rfl, q6⟩
    · rw [run_next_task_unfold, if_neg hn, hret]
      simp
    · show (w.call_peek_task env).2.self.state = _
      rw [q4, hst]

theorem run_next_task_guard_and_empty_witness :
    (logitacker_processor_inject_run_next_task example_env example_string_working =
        some example_string_working ∧
      logitacker_processor_inject_start_execution example_env example_paused true =
        some example_string_working) ∧
    (∃ r, logitacker_processor_inject_run_next_task example_env
        { example_short_header_world with
          self := { example_short_header_world.self with execute := true } } = some r ∧
      r.self.state = INJECT_STATE_IDLE ∧
      r.m_ringbuf.peek_rd_idx = r.m_ringbuf.rd_idx ∧
      r.self.execute = false ∧
      r.trace = [] ∧
      r.m_ringbuf.rd_idx = 0 ∧
      r.m_ringbuf.wr_idx = 5 ∧
      r.m_ringbuf.p_buffer = example_short_header.p_buffer ∧
      r.self.p_payload_provider = none ∧
      r.self.retransmit_counter = 0) :=
  ⟨⟨((run_next_task_guard_and_empty example_env example_string_working).1 (by decide)).1,
    ((run_next_task_guard_and_empty example_env example_paused).1 (by decide)).2⟩,
   (run_next_task_guard_and_empty example_env
      { example_short_header_world with
        self := { example_short_header_world.self with execute := true } }).2.2 rfl rfl⟩

/-- C22 fails as stated: with the retransmit counter at 10 the handler of an
`RX_RECEIVED` event runs `transfer_state` to Failed first.  Here the engine
leaves Working for Idle, the counter goes from 10 to 0, `execute` is cleared
at the end of the script, and the timer stop and the provider reset are
called. -/
theorem rx_received_at_budget_not_ignored :
    ∃ r, processor_inject_esb_handler_func_ example_env example_budget_spent
        NRF_ESB_EVENT_RX_RECEIVED = some r ∧
      example_budget_spent.self.state = INJECT_STATE_WORKING ∧
      r.self.state = INJECT_STATE_IDLE ∧
      example_budget_spent.self.retransmit_counter = 10 ∧
      r.self.retransmit_counter = 0 ∧
      r.self.execute = false ∧
      r.trace =
        example_budget_spent.trace ++
          [effect.log_inject_task_failed, effect.app_timer_stop,
            effect.state_store INJECT_STATE_IDLE, effect.p_reset] :=
  ⟨_, rfl, rfl, rfl, rfl, rfl, rfl, rfl⟩

/-- C22 (amended): `RX_RECEIVED` is ignored below the budget.  For every engine
context whose retransmit counter is below 10 and whose state is not Failed,
the handler of an `RX_RECEIVED` event returns the program state as it was: no
member of the context and nothing of the task buffer changes, and no call is
made.  With the counter at 10 or more the budget check that precedes the event
switch acts first, and the handler is `transfer_state` to Failed. -/
theorem rx_received_ignored_below_budget {σ : Type} (env : inject_env σ)
    (w : inject_world σ) (hst : w.self.state ≠ INJECT_STATE_FAILED) :
    (w.self.retransmit_counter < 10 →
      processor_inject_esb_handler_func_ env w NRF_ESB_EVENT_RX_RECEIVED = some w) ∧
    (10 ≤ w.self.retransmit_counter →
      processor_inject_esb_handler_func_ env w NRF_ESB_EVENT_RX_RECEIVED =
        transfer_state env w INJECT_STATE_FAILED) := by
  constructor
  · intro hc
    rw [esb_handler_below_budget env w _ hc hst]
    rfl
  · intro hc
    obtain ⟨wf, hwf, -, -, hs⟩ := transfer_state_done_total env w INJECT_STATE_FAILED
      (Or.inr rfl) hst
    have hge : w.self.retransmit_counter ≥ (INJECT_RETRANSMIT_BEFORE_FAIL : Int) := by
      simp only [INJECT_RETRANSMIT_BEFORE_FAIL, Nat.cast_ofNat]
      omega
    have hnf : ¬ wf.self.state = INJECT_STATE_FAILED := by
      rcases hs with h | h <;> rw [h] <;> decide
    unfold processor_inject_esb_handler_func_
    rw [if_pos hge, hwf, Option.some_bind, if_neg hnf]
    rfl

theorem rx_received_ignored_below_budget_witness :
    processor_inject_esb_handler_func_ example_env example_string_sending
        NRF_ESB_EVENT_RX_RECEIVED = some example_string_sending ∧
    processor_inject_esb_handler_func_ example_env example_budget_spent
        NRF_ESB_EVENT_RX_RECEIVED =
      transfer_state example_env example_budget_spent INJECT_STATE_FAILED :=
  ⟨(rx_received_ignored_below_budget example_env example_string_sending (by decide)).1
      (by decide),
   (rx_received_ignored_below_budget example_env example_budget_spent (by decide)).2
      (by decide)⟩

/-- C23 fails on the code.  The engine is initialised, `string "x"` and
`string "y"` are enqueued, execution is started and the timer expires once, so
the first frame of `x` is on the air; ten `TX_FAILED` events follow, after which
the engine is still Working with the counter at 10, the frame `[120, 1]` in the
scratch TX frame and 29 calls made.  The handler of the next event, a
`TX_SUCCESS`, runs `transfer_state(FAILED)`, whose `run_next_task` constructs
the provider of `y`, loads its first frame `[121, 1]` and starts the timer; the
handler then goes on into its `TX_SUCCESS` case and calls `p_get_next` of that
same provider a second time.  It returns with the second frame `[121, 2]` in
the scratch TX frame: among the calls of this one invocation are two
`p_get_next` calls and no `nrf_esb_write_payload` between them. -/
theorem first_frame_overwritten_after_forced_failure :
    (inject_run example_numbered_env example_lifecycle_env example_initialised
        ([inject_op.inject_string 0 1000 [120, 0], inject_op.inject_string 0 1000 [121, 0],
          inject_op.start_execution true, inject_op.timer_handler] ++
          List.replicate 10 (inject_op.esb_handler NRF_ESB_EVENT_TX_FAILED))).map
      (fun w => (w.self.state, w.self.retransmit_counter, w.self.tmp_tx_payload.data,
        w.trace.length)) =
      some (INJECT_STATE_WORKING, 10, [120, 1], 29) ∧
    (inject_run example_numbered_env example_lifecycle_env example_initialised
        ([inject_op.inject_string 0 1000 [120, 0], inject_op.inject_string 0 1000 [121, 0],
          inject_op.start_execution true, inject_op.timer_handler] ++
          List.replicate 10 (inject_op.esb_handler NRF_ESB_EVENT_TX_FAILED) ++
          [inject_op.esb_handler NRF_ESB_EVENT_TX_SUCCESS])).map
      (fun r => (r.self.state, r.self.tmp_tx_payload.data, r.trace.drop 29)) =
      some (INJECT_STATE_WORKING, [121, 2],
        [effect.log_inject_task_failed, effect.app_timer_stop,
          effect.state_store INJECT_STATE_IDLE, effect.p_reset,
          effect.new_payload_provider_string, effect.p_get_next true,
          effect.state_store INJECT_STATE_WORKING, effect.app_timer_start 8,
          effect.p_get_next true, effect.app_timer_start 8]) := by
  decide!

/-! ## Idle means paused -/

theorem idle_paused_of {σ : Type} (r : inject_world σ)
    (h : r.self.state = INJECT_STATE_WORKING ∨
      (r.self.state = INJECT_STATE_IDLE ∧ r.self.execute = false)) : r.idle_paused := by
  intro hst
  rcases h with h | h
  · rw [h] at hst; exact absurd hst (by decide)
  · exact h.2

/-- `transfer_state` to Succeeded or to Failed ends in Working, or in Idle with
`execute` false. -/
theorem transfer_state_done_ends {σ : Type} (env : inject_env σ) (w : inject_world σ)
    (s : inject_state) (hs : s = INJECT_STATE_SUCCEEDED ∨ s = INJECT_STATE_FAILED)
    (hne : w.self.state ≠ s) :
    ∃ r, transfer_state env w s = some r ∧ transition_post w r ∧
      (r.self.state = INJECT_STATE_WORKING ∨
        (r.self.state = INJECT_STATE_IDLE ∧ r.self.execute = false)) := by
  obtain ⟨r, hr, p1, p2, p3, p4, p5⟩ := transfer_state_done env w s hs hne
  refine ⟨r, hr, ⟨p1, p2, p3, Or.inl p4⟩, ?_⟩
  rcases p5 with h | h
  · exact Or.inl h.1
  · exact Or.inr ⟨h.1, h.2.1⟩

theorem provider_task_ends {σ : Type} (env : inject_env σ) (w : inject_world σ) (e : effect)
    (p : logitacker_tx_payload_provider σ) (hst : w.self.state = INJECT_STATE_IDLE) :
    ∃ r,
      (if !((w.emit e).call_get_next p).1 then
          transfer_state_with (logitacker_processor_inject_run_next_task env)
            ((w.emit e).call_get_next p).2 INJECT_STATE_FAILED
        else
          (transfer_state_with (logitacker_processor_inject_run_next_task env)
            ((w.emit e).call_get_next p).2 INJECT_STATE_WORKING).map
            (fun w1 => w1.emit (effect.app_timer_start w1.self.tx_delay_ms))) = some r ∧
      (r.self.state = INJECT_STATE_WORKING ∨
        (r.self.state = INJECT_STATE_IDLE ∧ r.self.execute = false)) := by
  have hXs : ((w.emit e).call_get_next p).2.self.state = INJECT_STATE_IDLE := hst
  cases hok : ((w.emit e).call_get_next p).1 with
  | false =>
    simp only [Bool.not_false, if_true]
    obtain ⟨r, hr, -, hs⟩ := transfer_state_done_ends env ((w.emit e).call_get_next p).2
      INJECT_STATE_FAILED (Or.inr rfl) (by rw [hXs]; decide)
    exact ⟨r, hr, hs⟩
  | true =>
    simp only [Bool.not_true, Bool.false_eq_true, if_false]
    rw [transfer_state_with_working _ ((w.emit e).call_get_next p).2 hXs]
    exact ⟨_, rfl, Or.inl rfl⟩

/-- From Idle, `run_next_task` ends in Working, or in Idle with `execute`
false. -/
theorem run_next_task_ends {σ : Type} (env : inject_env σ) (w : inject_world σ)
    (hst : w.self.state = INJECT_STATE_IDLE) :
    ∃ r, logitacker_processor_inject_run_next_task env w = some r ∧
      (r.self.state = INJECT_STATE_WORKING ∨
        (r.self.state = INJECT_STATE_IDLE ∧ r.self.execute = false)) := by
  rw [run_next_task_unfold]
  have hn : ¬ (w.self.state ≠ INJECT_STATE_IDLE) := fun h => h hst
  simp only [if_neg hn]
  obtain ⟨-, -, -, q4, -, -, -, -⟩ := call_peek_task_fields env w
  rw [hst] at q4
  cases hret : (w.call_peek_task env).1 with
  | false =>
    simp only [Bool.not_false, if_true]
    exact ⟨_, rfl, Or.inr ⟨q4, rfl⟩⟩
  | true =>
    simp only [Bool.not_true, Bool.false_eq_true, if_false]
    split
    · exact provider_task_ends env (w.call_peek_task env).2 effect.new_payload_provider_press
        (env.new_payload_provider_press (w.call_peek_task env).2.self.p_device
          (w.call_peek_task env).2.self.current_task.lang
          (w.call_peek_task env).2.self.current_task_data) q4
    · split
      · exact provider_task_ends env (w.call_peek_task env).2
          effect.new_payload_provider_string
          (env.new_payload_provider_string (w.call_peek_task env).2.self.p_device
            (w.call_peek_task env).2.self.current_task.lang
            (w.call_peek_task env).2.self.current_task_data) q4
      · split
        · unfold process_task_delay_with
          by_cases hz : (w.call_peek_task env).2.self.current_task.delay_ms = 0
          · simp only [hz, if_true]
            obtain ⟨r, hr, -, hs⟩ := transfer_state_done_ends env
              { (w.call_peek_task env).2 with
                self := { (w.call_peek_task env).2.self with p_payload_provider := none } }
              INJECT_STATE_SUCCEEDED (Or.inl rfl)
              (by show (w.call_peek_task env).2.self.state ≠ _; rw [q4]; decide)
            exact ⟨r, hr, hs⟩
          · simp only [hz, if_false]
            rw [transfer_state_with_working]
            · exact ⟨_, rfl, Or.inl rfl⟩
            · exact q4
        · obtain ⟨r, hr, -, hs⟩ := transfer_state_done_ends env (w.call_peek_task env).2
            INJECT_STATE_FAILED (Or.inr rfl) (by rw [q4]; decide)
          exact ⟨r, hr, hs⟩

theorem esb_tx_success_idle_paused {σ : Type} (env : inject_env σ) (w : inject_world σ)
    (hw : w.idle_paused) :
    ∃ r, esb_tx_success env w = some r ∧ r.idle_paused := by
  cases hp : w.zero_counter.self.p_payload_provider with
  | none =>
    simp only [esb_tx_success, hp]
    obtain ⟨r, hr, -, h1, h2⟩ := transfer_state_total env w.zero_counter INJECT_STATE_IDLE
    refine ⟨r, hr, ?_⟩
    by_cases hs : INJECT_STATE_IDLE = w.zero_counter.self.state
    · rw [h1 hs]; exact hw
    · exact fun _ => ((h2 hs).1 rfl).2.2.1
  | some p =>
    cases hok : (w.zero_counter.call_get_next p).1 with
    | true =>
      simp only [esb_tx_success, hp, hok, if_true]
      exact ⟨_, rfl, hw⟩
    | false =>
      simp only [esb_tx_success, hp, hok, Bool.false_eq_true, if_false]
      by_cases hs : (w.zero_counter.call_get_next p).2.self.state = INJECT_STATE_SUCCEEDED
      · obtain ⟨r, hr, -, h1, -⟩ := transfer_state_total env
          (w.zero_counter.call_get_next p).2 INJECT_STATE_SUCCEEDED
        refine ⟨r, hr, ?_⟩
        rw [h1 hs.symm]
        exact hw
      · obtain ⟨r, hr, -, he⟩ := transfer_state_done_ends env
          (w.zero_counter.call_get_next p).2 INJECT_STATE_SUCCEEDED (Or.inl rfl) hs
        exact ⟨r, hr, idle_paused_of r he⟩

theorem esb_handler_idle_paused {σ : Type} (env : inject_env σ) (w : inject_world σ)
    (evt : nrf_esb_evt_id) (hw : w.idle_paused) :
    ∃ r, processor_inject_esb_handler_func_ env w evt = some r ∧ r.idle_paused := by
  have toidle : ∀ w1 : inject_world σ, w1.self.state = INJECT_STATE_FAILED →
      ∃ r, transfer_state env w1 INJECT_STATE_IDLE = some r ∧ r.idle_paused := by
    intro w1 hf
    obtain ⟨r, hr, -, -, h2⟩ := transfer_state_total env w1 INJECT_STATE_IDLE
    have hs : INJECT_STATE_IDLE ≠ w1.self.state := by rw [hf]; decide
    exact ⟨r, hr, fun _ => ((h2 hs).1 rfl).2.2.1⟩
  have tail : ∀ w1 : inject_world σ, w1.idle_paused →
      ∃ r, (if w1.self.state = INJECT_STATE_FAILED then transfer_state env w1 INJECT_STATE_IDLE
          else esb_handler_switch env w1 evt) = some r ∧ r.idle_paused := by
    intro w1 h1
    by_cases hf : w1.self.state = INJECT_STATE_FAILED
    · rw [if_pos hf]
      exact toidle w1 hf
    · rw [if_neg hf]
      cases evt with
      | NRF_ESB_EVENT_TX_FAILED => exact ⟨_, rfl, h1⟩
      | NRF_ESB_EVENT_TX_SUCCESS_ACK_PAY =>
        exact esb_tx_success_idle_paused env (w1.emit effect.nrf_esb_flush_rx) h1
      | NRF_ESB_EVENT_TX_SUCCESS => exact esb_tx_success_idle_paused env w1 h1
      | NRF_ESB_EVENT_RX_RECEIVED => exact ⟨w1, rfl, h1⟩
  unfold processor_inject_esb_handler_func_
  by_cases hc : w.self.retransmit_counter ≥ (INJECT_RETRANSMIT_BEFORE_FAIL : Int)
  · rw [if_pos hc]
    by_cases hs : w.self.state = INJECT_STATE_FAILED
    · obtain ⟨w1, hw1, -, h1, -⟩ := transfer_state_total env w INJECT_STATE_FAILED
      rw [hw1, Option.some_bind, h1 hs.symm]
      exact tail w hw
    · obtain ⟨w1, hw1, -, he⟩ := transfer_state_done_ends env w INJECT_STATE_FAILED
        (Or.inr rfl) hs
      rw [hw1, Option.some_bind]
      exact tail w1 (idle_paused_of w1 he)
  · rw [if_neg hc, Option.some_bind]
    exact tail w hw

theorem inject_autostart_idle_paused {σ : Type} (env : inject_env σ) (w : inject_world σ)
    (hw : w.idle_paused) : inject_autostart env w = some w := by
  unfold inject_autostart
  by_cases hst : w.self.state = INJECT_STATE_IDLE
  · rw [if_pos hst, hw hst]
    rfl
  · rw [if_neg hst]

/-- Every entry into the engine other than initialisation keeps "Idle means
paused". -/
theorem inject_step_idle_paused {σ : Type} (env : inject_env σ) (lenv : inject_lifecycle_env)
    (w : inject_world σ) (op : inject_op) (hw : w.idle_paused) (hop : op ≠ inject_op.init) :
    ∃ r, inject_step env lenv w op = some r ∧ r.idle_paused := by
  cases op with
  | inject_string lang p_str str =>
    exact ⟨_, inject_autostart_idle_paused env
      ({ w with m_ringbuf := (push_task_string w.m_ringbuf lang p_str str).rb } :
        inject_world σ) hw, hw⟩
  | inject_press lang p_str combo_str =>
    exact ⟨_, inject_autostart_idle_paused env
      ({ w with m_ringbuf := (push_task_press w.m_ringbuf lang p_str combo_str).rb } :
        inject_world σ) hw, hw⟩
  | inject_delay delay_ms =>
    exact ⟨_, inject_autostart_idle_paused env
      ({ w with m_ringbuf := (push_task_delay w.m_ringbuf delay_ms).rb } : inject_world σ) hw,
      hw⟩
  | list_tasks p_task_data task_data =>
    obtain ⟨out, ho⟩ := list_tasks_total w p_task_data task_data
    refine ⟨{ w with m_ringbuf := ringbuf_peek_rewind w.m_ringbuf }, ?_, hw⟩
    simp only [inject_step, ho, Option.map_some']
  | clear_tasks => exact ⟨_, rfl, hw⟩
  | start_execution execute =>
    cases execute with
    | false => exact ⟨_, rfl, fun _ => rfl⟩
    | true =>
      simp only [inject_step, logitacker_processor_inject_start_execution, if_true]
      by_cases hst : w.self.state = INJECT_STATE_IDLE
      · obtain ⟨r, hr, he⟩ := run_next_task_ends env
          ({ w with self := { w.self with execute := true } } : inject_world σ) hst
        exact ⟨r, hr, idle_paused_of r he⟩
      · obtain ⟨r, hr, -, h1, -⟩ := run_next_task_total env
          ({ w with self := { w.self with execute := true } } : inject_world σ)
        refine ⟨r, hr, ?_⟩
        rw [h1 hst]
        exact fun h => absurd h hst
  | timer_handler =>
    simp only [inject_step, processor_inject_timer_handler_func_]
    by_cases hst : w.self.state = INJECT_STATE_WORKING
    · rw [if_pos hst]
      by_cases hd : w.self.current_task.type = INJECT_TASK_TYPE_DELAY
      · rw [if_pos hd]
        obtain ⟨r, hr, -, he⟩ := transfer_state_done_ends env w INJECT_STATE_SUCCEEDED
          (Or.inl rfl) (by rw [hst]; decide)
        exact ⟨r, hr, idle_paused_of r he⟩
      · rw [if_neg hd]
        split
        · exact ⟨_, rfl, hw⟩
        · exact ⟨w, rfl, hw⟩
    · rw [if_neg hst]
      exact ⟨w, rfl, hw⟩
  | esb_handler evt_id => exact esb_handler_idle_paused env w evt_id hw
  | bsp_handler => exact ⟨w, rfl, hw⟩
  | init => exact absurd rfl hop
  | deinit =>
    exact ⟨_, rfl, fun (h : INJECT_STATE_NOT_INITIALIZED = INJECT_STATE_IDLE) =>
      absurd h (by decide)⟩

theorem inject_run_idle_paused {σ : Type} (env : inject_env σ) (lenv : inject_lifecycle_env)
    (ops : List inject_op) :
    ∀ w : inject_world σ, w.idle_paused → (∀ op ∈ ops, op ≠ inject_op.init) →
      ∃ r, inject_run env lenv w ops = some r ∧ r.idle_paused := by
  induction ops with
  | nil => intro w hw _; exact ⟨w, rfl, hw⟩
  | cons op ops ih =>
    intro w hw hops
    obtain ⟨w1, hw1, h1⟩ := inject_step_idle_paused env lenv w op hw
      (hops op (List.mem_cons_self _ _))
    obtain ⟨r, hr, h2⟩ := ih w1 h1 (fun x hx => hops x (List.mem_cons_of_mem _ hx))
    refine ⟨r, ?_, h2⟩
    simp only [inject_run, hw1, Option.some_bind, hr]

/-- C24: Idle means paused.  `new_processor_inject` followed by
`processor_inject_init_func_` leaves `execute` false.  From every state in
which Idle implies `execute = false`, every sequence of enqueues, listings,
clears, `start_execution` calls, timer expiries, radio events, button events and
teardowns (every entry but a renewed initialisation) returns, each in its turn,
in a state with the same property.  Hence an enqueue in the state reached
never takes its auto-start branch: it stores the task, or refuses it, and
changes nothing else. -/
theorem idle_implies_paused {σ : Type} (env : inject_env σ) (lenv : inject_lifecycle_env)
    (w0 w : inject_world σ) (target_rf_address : List Nat) (timer_next_action : Nat)
    (ops : List inject_op)
    (hw : w.self.state = INJECT_STATE_IDLE → w.self.execute = false)
    (hops : ∀ op ∈ ops, op ≠ inject_op.init) :
    (processor_inject_init_func_ lenv
      (new_processor_inject lenv w0 target_rf_address timer_next_action)).self.execute = false ∧
    ∃ r, inject_run env lenv w ops = some r ∧
      (r.self.state = INJECT_STATE_IDLE → r.self.execute = false) ∧
      (∀ lang p_str str, logitacker_processor_inject_string env r lang p_str str =
        some { r with m_ringbuf := (push_task_string r.m_ringbuf lang p_str str).rb }) ∧
      (∀ lang p_str combo_str, logitacker_processor_inject_press env r lang p_str combo_str =
        some { r with m_ringbuf := (push_task_press r.m_ringbuf lang p_str combo_str).rb }) ∧
      (∀ delay_ms, logitacker_processor_inject_delay env r delay_ms =
        some { r with m_ringbuf := (push_task_delay r.m_ringbuf delay_ms).rb }) := by
  obtain ⟨r, hr, h⟩ := inject_run_idle_paused env lenv ops w hw hops
  exact ⟨rfl, r, hr, h,
    fun lang p_str str => inject_autostart_idle_paused env
      ({ r with m_ringbuf := (push_task_string r.m_ringbuf lang p_str str).rb } :
        inject_world σ) h,
    fun lang p_str combo_str => inject_autostart_idle_paused env
      ({ r with m_ringbuf := (push_task_press r.m_ringbuf lang p_str combo_str).rb } :
        inject_world σ) h,
    fun delay_ms => inject_autostart_idle_paused env
      ({ r with m_ringbuf := (push_task_delay r.m_ringbuf delay_ms).rb } : inject_world σ) h⟩

theorem idle_implies_paused_witness :
    example_initialised.self.execute = false ∧
    ∃ r, inject_run example_env example_lifecycle_env example_initialised
        [inject_op.inject_delay 0, inject_op.start_execution true,
          inject_op.inject_string 0 1000 [120, 0], inject_op.start_execution true,
          inject_op.timer_handler, inject_op.esb_handler NRF_ESB_EVENT_TX_SUCCESS,
          inject_op.timer_handler, inject_op.esb_handler NRF_ESB_EVENT_TX_SUCCESS] = some r ∧
      (r.self.state = INJECT_STATE_IDLE → r.self.execute = false) ∧
      (∀ lang p_str str, logitacker_processor_inject_string example_env r lang p_str str =
        some { r with m_ringbuf := (push_task_string r.m_ringbuf lang p_str str).rb }) ∧
      (∀ lang p_str combo_str,
        logitacker_processor_inject_press example_env r lang p_str combo_str =
          some { r with m_ringbuf := (push_task_press r.m_ringbuf lang p_str combo_str).rb }) ∧
      (∀ delay_ms, logitacker_processor_inject_delay example_env r delay_ms =
        some { r with m_ringbuf := (push_task_delay r.m_ringbuf delay_ms).rb }) :=
  idle_implies_paused example_env example_lifecycle_env example_world example_initialised
    [1, 2, 3, 4, 5] 0
    [inject_op.inject_delay 0, inject_op.start_execution true,
      inject_op.inject_string 0 1000 [120, 0], inject_op.start_execution true,
      inject_op.timer_handler, inject_op.esb_handler NRF_ESB_EVENT_TX_SUCCESS,
      inject_op.timer_handler, inject_op.esb_handler NRF_ESB_EVENT_TX_SUCCESS]
    (fun _ => rfl) (by simp)

/-! ## The depth of the recursion -/

theorem peek_task_ret_rb (rb : ringbuf) (p q : inject_task) (a b : Nat) (buf buf2 : List Nat) :
    (peek_task rb p a buf).ret = (peek_task rb q b buf2).ret ∧
    (peek_task rb p a buf).rb = (peek_task rb q b buf2).rb := by
  by_cases hf : framing_fault rb rb.peek_rd_idx
  · obtain ⟨h1, -, -, -, h5⟩ := peek_task_fault rb p a buf hf
    obtain ⟨g1, -, -, -, g5⟩ := peek_task_fault rb q b buf2 hf
    rw [h1, g1, h5, g5]
    exact ⟨rfl, rfl⟩
  · rw [peek_task_no_fault rb p a buf hf, peek_task_no_fault rb q b buf2 hf]
    exact ⟨rfl, rfl⟩

theorem tasks_ahead_succ (fuel : Nat) (rb : ringbuf) (p : inject_task) (a : Nat)
    (buf : List Nat) :
    tasks_ahead (fuel + 1) rb =
      if (peek_task rb p a buf).ret then 1 + tasks_ahead fuel (peek_task rb p a buf).rb
      else 0 := by
  obtain ⟨h1, h2⟩ := peek_task_ret_rb rb p
    { type := 0, data_len := 0, lang := 0, delay_ms := 0, p_data_u8 := 0 } a 0 buf []
  rw [h1, h2]
  rfl

theorem tasks_ahead_le (fuel : Nat) : ∀ rb : ringbuf, tasks_ahead fuel rb ≤ fuel := by
  induction fuel with
  | zero => intro rb; exact Nat.le_refl 0
  | succ n ih =>
    intro rb
    rw [tasks_ahead_succ n rb { type := 0, data_len := 0, lang := 0, delay_ms := 0, p_data_u8 := 0 }
      0 []]
    split
    · have := ih (peek_task rb
        { type := 0, data_len := 0, lang := 0, delay_ms := 0, p_data_u8 := 0 } 0 []).rb
      omega
    · omega

theorem tasks_ahead_indep (f1 : Nat) :
    ∀ (f2 : Nat) (rb : ringbuf), rb.wr_idx - rb.peek_rd_idx ≤ f1 →
      rb.wr_idx - rb.peek_rd_idx ≤ f2 → tasks_ahead f1 rb = tasks_ahead f2 rb := by
  induction f1 with
  | zero =>
    intro f2 rb h1 _
    cases f2 with
    | zero => rfl
    | succ b =>
      have hf : framing_fault rb rb.peek_rd_idx := Or.inl (by omega)
      rw [tasks_ahead_succ b rb
        { type := 0, data_len := 0, lang := 0, delay_ms := 0, p_data_u8 := 0 } 0 [],
        (peek_task_fault rb _ 0 [] hf).1]
      rfl
  | succ a ih =>
    intro f2 rb h1 h2
    cases f2 with
    | zero =>
      have hf : framing_fault rb rb.peek_rd_idx := Or.inl (by omega)
      rw [tasks_ahead_succ a rb
        { type := 0, data_len := 0, lang := 0, delay_ms := 0, p_data_u8 := 0 } 0 [],
        (peek_task_fault rb _ 0 [] hf).1]
      rfl
    | succ b =>
      rw [tasks_ahead_succ a rb
        { type := 0, data_len := 0, lang := 0, delay_ms := 0, p_data_u8 := 0 } 0 [],
        tasks_ahead_succ b rb
        { type := 0, data_len := 0, lang := 0, delay_ms := 0, p_data_u8 := 0 } 0 []]
      cases hret : (peek_task rb
          { type := 0, data_len := 0, lang := 0, delay_ms := 0, p_data_u8 := 0 } 0 []).ret with
      | false => rfl
      | true =>
        have hp := peek_task_progress rb _ 0 [] hret
        simp only [if_true]
        rw [ih b _ (by omega) (by omega)]

/-- A successful `peek_task` moves the peek cursor past one whole task: one
task fewer lies ahead. -/
theorem queued_ahead_peek (rb : ringbuf) (p : inject_task) (a : Nat) (buf : List Nat)
    (h : (peek_task rb p a buf).ret = true) :
    (peek_task rb p a buf).rb.queued_ahead + 1 = rb.queued_ahead ∧
    (peek_task rb p a buf).rb.peek_rd_idx =
      rb.peek_rd_idx + sizeof_inject_task_t + (peek_task rb p a buf).task.data_len := by
  have hp := peek_task_progress rb p a buf h
  have hf : ¬ framing_fault rb rb.peek_rd_idx := by
    intro hn
    rw [(peek_task_fault rb p a buf hn).1] at h
    exact absurd h (by simp)
  constructor
  · unfold ringbuf.queued_ahead
    have hpos : rb.wr_idx - rb.peek_rd_idx = (rb.wr_idx - rb.peek_rd_idx - 1) + 1 := by omega
    rw [hpos, tasks_ahead_succ _ rb p a buf, if_pos h]
    rw [tasks_ahead_indep _ (rb.wr_idx - rb.peek_rd_idx - 1) _ (Nat.le_refl _) (by omega)]
    omega
  · have hdl : (task_of_bytes
        (read_bytes rb.p_buffer rb.peek_rd_idx sizeof_inject_task_t)).data_len
        = stored_data_len rb rb.peek_rd_idx := by
      simp [task_of_bytes, stored_data_len]
    rw [peek_task_no_fault rb p a buf hf]
    simp only [hdl]

theorem queued_ahead_le (rb : ringbuf) :
    rb.queued_ahead * sizeof_inject_task_t ≤ rb.wr_idx - rb.peek_rd_idx := by
  have key : ∀ (n : Nat) (rb : ringbuf), rb.wr_idx - rb.peek_rd_idx ≤ n →
      rb.queued_ahead * sizeof_inject_task_t ≤ rb.wr_idx - rb.peek_rd_idx := by
    intro n
    induction n using Nat.strong_induction_on with
    | _ n ih =>
      intro rb hn
      cases hret : (peek_task rb
          { type := 0, data_len := 0, lang := 0, delay_ms := 0, p_data_u8 := 0 } 0 []).ret with
      | false =>
        have h0 : rb.queued_ahead = 0 := by
          unfold ringbuf.queued_ahead
          cases hk : rb.wr_idx - rb.peek_rd_idx with
          | zero => rfl
          | succ k =>
            rw [tasks_ahead_succ k rb
              { type := 0, data_len := 0, lang := 0, delay_ms := 0, p_data_u8 := 0 } 0 [], hret]
            rfl
        rw [h0]; omega
      | true =>
        obtain ⟨h1, h2⟩ := queued_ahead_peek rb _ 0 [] hret
        obtain ⟨-, q2, -⟩ := peek_task_frame rb
          { type := 0, data_len := 0, lang := 0, delay_ms := 0, p_data_u8 := 0 } 0 []
        have hp := peek_task_progress rb _ 0 [] hret
        have hf : ¬ framing_fault rb rb.peek_rd_idx := by
          intro hn
          rw [(peek_task_fault rb _ 0 [] hn).1] at hret
          exact absurd hret (by simp)
        simp only [framing_fault, not_or, Nat.not_lt, gt_iff_lt] at hf
        have := ih ((peek_task rb
          { type := 0, data_len := 0, lang := 0, delay_ms := 0, p_data_u8 := 0 } 0
            []).rb.wr_idx - (peek_task rb
          { type := 0, data_len := 0, lang := 0, delay_ms := 0, p_data_u8 := 0 } 0
            []).rb.peek_rd_idx) (by omega) _ (Nat.le_refl _)
        rw [q2, h2] at this
        rw [← h1]
        simp only [sizeof_inject_task_t] at *
        omega
  exact key _ rb (Nat.le_refl _)

theorem run_next_task_fuel_depth {σ : Type} (env : inject_env σ) (f1 : Nat) :
    ∀ (f2 : Nat) (w : inject_world σ), w.m_ringbuf.queued_ahead < f1 →
      w.m_ringbuf.queued_ahead < f2 →
      run_next_task_fuel env f1 w = run_next_task_fuel env f2 w := by
  induction f1 with
  | zero => intro f2 w h1; exact absurd h1 (Nat.not_lt_zero _)
  | succ a ih =>
    intro f2 w h1 h2
    cases f2 with
    | zero => exact absurd h2 (Nat.not_lt_zero _)
    | succ b =>
      obtain ⟨-, -, -, q4, -, -, -, -⟩ := call_peek_task_fields env w
      simp only [run_next_task_fuel]
      by_cases hst : w.self.state = INJECT_STATE_IDLE
      · have hn : ¬ (w.self.state ≠ INJECT_STATE_IDLE) := fun h => h hst
        simp only [if_neg hn]
        rw [hst] at q4
        cases hret : (w.call_peek_task env).1 with
        | false =>
          simp only [Bool.not_false, if_true, transfer_state_with_idle, q4]
        | true =>
          have hq := (queued_ahead_peek w.m_ringbuf w.self.current_task
            env.p_current_task_data w.self.current_task_data hret).1
          have hc : ∀ w' : inject_world σ, w'.m_ringbuf = (w.call_peek_task env).2.m_ringbuf →
              run_next_task_fuel env a w' = run_next_task_fuel env b w' := by
            intro w' hw'
            have e : w'.m_ringbuf.queued_ahead + 1 = w.m_ringbuf.queued_ahead := by
              rw [hw']; exact hq
            apply ih
            · omega
            · omega
          simp only [Bool.not_true, Bool.false_eq_true, if_false,
            process_task_press_congr env _ _ _ hc, process_task_string_congr env _ _ _ hc,
            process_task_delay_congr _ _ _ hc,
            transfer_state_with_congr _ _ _ INJECT_STATE_FAILED hc]
      · simp only [if_pos hst]

/-- C25: termination.  `run_next_task_fuel env n` is `run_next_task` cut off at
`n` nested calls.  For every buffer content, every context and every behaviour
of the provider constructors and providers, a bound above the number of tasks
between the peek cursor and the write cursor is never reached: the recursion
through `process_task_*` and `transfer_state` returns, and gives what
`run_next_task` gives.  Started in Idle it ends in Working, or in Idle with
`execute` false; started elsewhere it changes nothing.  Each nested call follows
a successful `peek_task`, which moves the peek cursor past one header and its
payload and leaves one task fewer ahead; and the tasks ahead take at least 20
bytes each of the bytes between the two cursors. -/
theorem run_next_task_terminates {σ : Type} (env : inject_env σ) (w : inject_world σ)
    (fuel : Nat) (hfuel : w.m_ringbuf.queued_ahead < fuel) :
    run_next_task_fuel env fuel w = logitacker_processor_inject_run_next_task env w ∧
    (∃ r, run_next_task_fuel env fuel w = some r ∧
      (w.self.state = INJECT_STATE_IDLE →
        r.self.state = INJECT_STATE_WORKING ∨
          (r.self.state = INJECT_STATE_IDLE ∧ r.self.execute = false)) ∧
      (w.self.state ≠ INJECT_STATE_IDLE → r = w)) ∧
    ((w.call_peek_task env).1 = true →
      (w.call_peek_task env).2.m_ringbuf.queued_ahead + 1 = w.m_ringbuf.queued_ahead ∧
      (w.call_peek_task env).2.m_ringbuf.peek_rd_idx =
        w.m_ringbuf.peek_rd_idx + sizeof_inject_task_t +
          (w.call_peek_task env).2.self.current_task.data_len) ∧
    w.m_ringbuf.queued_ahead * sizeof_inject_task_t ≤
      w.m_ringbuf.wr_idx - w.m_ringbuf.peek_rd_idx := by
  have hb : w.m_ringbuf.queued_ahead < run_next_task_bound w.m_ringbuf := by
    have := tasks_ahead_le (w.m_ringbuf.wr_idx - w.m_ringbuf.peek_rd_idx) w.m_ringbuf
    unfold ringbuf.queued_ahead run_next_task_bound
    omega
  have e : run_next_task_fuel env fuel w = logitacker_processor_inject_run_next_task env w :=
    run_next_task_fuel_depth env fuel _ w hfuel hb
  refine ⟨e, ?_, ?_, queued_ahead_le w.m_ringbuf⟩
  · rw [e]
    obtain ⟨r, hr, -, h1, -⟩ := run_next_task_total env w
    refine ⟨r, hr, ?_, h1⟩
    intro hst
    obtain ⟨r2, hr2, he⟩ := run_next_task_ends env w hst
    rw [hr] at hr2
    cases hr2
    exact he
  · intro hret
    exact queued_ahead_peek w.m_ringbuf w.self.current_task env.p_current_task_data
      w.self.current_task_data hret

theorem run_next_task_terminates_witness :
    run_next_task_fuel example_env 3 example_listing_world =
      logitacker_processor_inject_run_next_task example_env example_listing_world ∧
    (∃ r, run_next_task_fuel example_env 3 example_listing_world = some r ∧
      (example_listing_world.self.state = INJECT_STATE_IDLE →
        r.self.state = INJECT_STATE_WORKING ∨
          (r.self.state = INJECT_STATE_IDLE ∧ r.self.execute = false)) ∧
      (example_listing_world.self.state ≠ INJECT_STATE_IDLE → r = example_listing_world)) ∧
    ((example_listing_world.call_peek_task example_env).2.m_ringbuf.queued_ahead + 1 =
        example_listing_world.m_ringbuf.queued_ahead ∧
      (example_listing_world.call_peek_task example_env).2.m_ringbuf.peek_rd_idx =
        example_listing_world.m_ringbuf.peek_rd_idx + sizeof_inject_task_t +
          (example_listing_world.call_peek_task example_env).2.self.current_task.data_len) ∧
    example_listing_world.m_ringbuf.queued_ahead * sizeof_inject_task_t ≤
      example_listing_world.m_ringbuf.wr_idx - example_listing_world.m_ringbuf.peek_rd_idx :=
  ⟨(run_next_task_terminates example_env example_listing_world 3 (by decide)).1,
   (run_next_task_terminates example_env example_listing_world 3 (by decide)).2.1,
   (run_next_task_terminates example_env example_listing_world 3 (by decide)).2.2.1 rfl,
   (run_next_task_terminates example_env example_listing_world 3 (by decide)).2.2.2⟩

/-! ## The script stays queued -/

theorem inject_step_runs_script {σ : Type} (env : inject_env σ) (lenv : inject_lifecycle_env)
    (w : inject_world σ) (op : inject_op) (hop : op.runs_script = true) :
    ∃ r, inject_step env lenv w op = some r ∧
      r.m_ringbuf.rd_idx = w.m_ringbuf.rd_idx ∧ r.m_ringbuf.wr_idx = w.m_ringbuf.wr_idx ∧
      r.m_ringbuf.p_buffer = w.m_ringbuf.p_buffer := by
  cases op with
  | start_execution execute =>
    obtain ⟨r, hr, ⟨p1, p2, p3, -⟩, -⟩ := start_execution_total env w execute
    exact ⟨r, hr, p1, p2, p3⟩
  | timer_handler =>
    obtain ⟨r, hr, ⟨p1, p2, p3, -⟩, -⟩ := timer_handler_total env w
    exact ⟨r, hr, p1, p2, p3⟩
  | esb_handler evt_id =>
    obtain ⟨r, hr, p1, p2, p3, -⟩ := esb_handler_total env w evt_id
    exact ⟨r, hr, p1, p2, p3⟩
  | inject_string lang p_str str => exact absurd hop (by simp [inject_op.runs_script])
  | inject_press lang p_str combo_str => exact absurd hop (by simp [inject_op.runs_script])
  | inject_delay delay_ms => exact absurd hop (by simp [inject_op.runs_script])
  | list_tasks p_task_data task_data => exact absurd hop (by simp [inject_op.runs_script])
  | clear_tasks => exact absurd hop (by simp [inject_op.runs_script])
  | bsp_handler => exact absurd hop (by simp [inject_op.runs_script])
  | init => exact absurd hop (by simp [inject_op.runs_script])
  | deinit => exact absurd hop (by simp [inject_op.runs_script])

theorem inject_run_runs_script {σ : Type} (env : inject_env σ) (lenv : inject_lifecycle_env)
    (ops : List inject_op) :
    ∀ w : inject_world σ, (∀ op ∈ ops, op.runs_script = true) →
      ∃ r, inject_run env lenv w ops = some r ∧
        r.m_ringbuf.rd_idx = w.m_ringbuf.rd_idx ∧ r.m_ringbuf.wr_idx = w.m_ringbuf.wr_idx ∧
        r.m_ringbuf.p_buffer = w.m_ringbuf.p_buffer := by
  induction ops with
  | nil => intro w _; exact ⟨w, rfl, rfl, rfl, rfl⟩
  | cons op ops ih =>
    intro w hops
    obtain ⟨w1, hw1, a1, a2, a3⟩ := inject_step_runs_script env lenv w op
      (hops op (List.mem_cons_self _ _))
    obtain ⟨r, hr, b1, b2, b3⟩ := ih w1 (fun x hx => hops x (List.mem_cons_of_mem _ hx))
    refine ⟨r, ?_, by rw [b1, a1], by rw [b2, a2], by rw [b3, a3]⟩
    simp only [inject_run, hw1, Option.some_bind, hr]

theorem ringbuf_eq_of_cursors (a b : ringbuf) (h1 : b.rd_idx = a.rd_idx)
    (h2 : b.wr_idx = a.wr_idx) (h3 : b.p_buffer = a.p_buffer)
    (ha : a.peek_rd_idx = a.rd_idx) (hb : b.peek_rd_idx = b.rd_idx) : b = a := by
  cases a
  cases b
  simp only at h1 h2 h3 ha hb
  subst h1 h2 h3 ha
  rw [hb]

/-- C26: the script is replayable.  Every sequence of `start_execution` calls,
timer expiries and radio events returns with the consume cursor, the write
cursor and the stored bytes as they were, and so does `run_next_task`; if the
peek cursor was on the consume cursor before and is again after, the buffer is
the very same.  A script that runs to its end, in `run_next_task` from Idle or
in `transfer_state` to Succeeded or Failed with `execute` set, leaves the
engine Working or else Idle with `execute` cleared and the peek cursor on the
consume cursor.  From Idle with the peek cursor there, a
`start_execution(.., true)` is `run_next_task`, whose `peek_task` returns the
first queued task with its payload: the script starts again from its first
task. -/
theorem script_is_replayable {σ : Type} (env : inject_env σ) (lenv : inject_lifecycle_env)
    (w : inject_world σ) (ops : List inject_op)
    (hops : ∀ op ∈ ops, op.runs_script = true) :
    (∃ r, inject_run env lenv w ops = some r ∧
      r.m_ringbuf.rd_idx = w.m_ringbuf.rd_idx ∧ r.m_ringbuf.wr_idx = w.m_ringbuf.wr_idx ∧
      r.m_ringbuf.p_buffer = w.m_ringbuf.p_buffer ∧
      (w.m_ringbuf.peek_rd_idx = w.m_ringbuf.rd_idx →
        r.m_ringbuf.peek_rd_idx = r.m_ringbuf.rd_idx → r.m_ringbuf = w.m_ringbuf)) ∧
    (∃ r, logitacker_processor_inject_run_next_task env w = some r ∧
      r.m_ringbuf.rd_idx = w.m_ringbuf.rd_idx ∧ r.m_ringbuf.wr_idx = w.m_ringbuf.wr_idx ∧
      r.m_ringbuf.p_buffer = w.m_ringbuf.p_buffer) ∧
    (w.self.state = INJECT_STATE_IDLE → w.self.execute = true →
      ∃ r, logitacker_processor_inject_run_next_task env w = some r ∧
        (r.self.state = INJECT_STATE_WORKING ∨
          (r.self.state = INJECT_STATE_IDLE ∧ r.self.execute = false ∧
            r.m_ringbuf.peek_rd_idx = r.m_ringbuf.rd_idx))) ∧
    (∀ s, s = INJECT_STATE_SUCCEEDED ∨ s = INJECT_STATE_FAILED → w.self.state ≠ s →
      w.self.execute = true →
      ∃ r, transfer_state env w s = some r ∧
        (r.self.state = INJECT_STATE_WORKING ∨
          (r.self.state = INJECT_STATE_IDLE ∧ r.self.execute = false ∧
            r.m_ringbuf.peek_rd_idx = r.m_ringbuf.rd_idx))) ∧
    (∀ (td : queued_task) (ts : List queued_task), w.self.state = INJECT_STATE_IDLE →
      w.m_ringbuf.peek_rd_idx = w.m_ringbuf.rd_idx →
      w.m_ringbuf.rd_idx ≤ w.m_ringbuf.wr_idx →
      w.m_ringbuf.bytes_from w.m_ringbuf.rd_idx = tasks_bytes (td :: ts) →
      queued_task.wf td → td.1.data_len ≤ INJECT_MAX_TASK_DATA_SIZE →
      logitacker_processor_inject_start_execution env w true =
        logitacker_processor_inject_run_next_task env
          { w with self := { w.self with execute := true } } ∧
      (({ w with self := { w.self with execute := true } } : inject_world σ).call_peek_task
        env).1 = true ∧
      (({ w with self := { w.self with execute := true } } : inject_world σ).call_peek_task
        env).2.self.current_task = { td.1 with p_data_u8 := env.p_current_task_data } ∧
      (({ w with self := { w.self with execute := true } } : inject_world σ).call_peek_task
        env).2.self.current_task_data =
          td.2 ++ w.self.current_task_data.drop td.1.data_len) := by
  refine ⟨?_, ?_, ?_, ?_, ?_⟩
  · obtain ⟨r, hr, p1, p2, p3⟩ := inject_run_runs_script env lenv ops w hops
    exact ⟨r, hr, p1, p2, p3, fun ha hb => ringbuf_eq_of_cursors _ _ p1 p2 p3 ha hb⟩
  · obtain ⟨r, hr, ⟨p1, p2, p3, -⟩, -⟩ := run_next_task_total env w
    exact ⟨r, hr, p1, p2, p3⟩
  · intro hst hex
    obtain ⟨r, hr, -, -, -, -, h5⟩ := run_next_task_done env w hst hex
    refine ⟨r, hr, ?_⟩
    rcases h5 with h | h
    · exact Or.inl h.1
    · exact Or.inr h
  · intro s hs hne hex
    obtain ⟨r, hr, -, -, -, -, h5⟩ := transfer_state_done env w s hs hne
    refine ⟨r, hr, ?_⟩
    rcases h5 with h | h
    · exact Or.inl h.1
    · exact Or.inr ⟨h.1, h.2.1, h.2.2.1 hex⟩
  · intro td ts hst hpk hrd hq hwf hmax
    have hq' : w.m_ringbuf.bytes_from w.m_ringbuf.peek_rd_idx =
        task_bytes td.1 ++ td.2 ++ tasks_bytes ts := by
      rw [hpk, hq]
      rfl
    have e := peek_task_head_eq w.m_ringbuf td.1 td.2 (tasks_bytes ts) w.self.current_task
      env.p_current_task_data w.self.current_task_data (by rw [hpk]; exact hrd) hq' hwf.1
      hwf.2.1 hmax
    refine ⟨rfl, ?_, ?_, ?_⟩
    · show (peek_task w.m_ringbuf w.self.current_task env.p_current_task_data
        w.self.current_task_data).ret = true
      rw [e]
    · show (peek_task w.m_ringbuf w.self.current_task env.p_current_task_data
        w.self.current_task_data).task = _
      rw [e]
    · show (peek_task w.m_ringbuf w.self.current_task env.p_current_task_data
        w.self.current_task_data).data_buf = _
      rw [e]
theorem script_is_replayable_witness :
    (∃ r, inject_run example_env example_lifecycle_env example_string_queued
        [inject_op.start_execution true, inject_op.timer_handler,
          inject_op.esb_handler NRF_ESB_EVENT_TX_SUCCESS, inject_op.timer_handler,
          inject_op.esb_handler NRF_ESB_EVENT_TX_SUCCESS] = some r ∧
      r.m_ringbuf.rd_idx = example_string_queued.m_ringbuf.rd_idx ∧
      r.m_ringbuf.wr_idx = example_string_queued.m_ringbuf.wr_idx ∧
      r.m_ringbuf.p_buffer = example_string_queued.m_ringbuf.p_buffer ∧
      (example_string_queued.m_ringbuf.peek_rd_idx = example_string_queued.m_ringbuf.rd_idx →
        r.m_ringbuf.peek_rd_idx = r.m_ringbuf.rd_idx →
        r.m_ringbuf = example_string_queued.m_ringbuf)) ∧
    (inject_run example_env example_lifecycle_env example_string_queued
        [inject_op.start_execution true, inject_op.timer_handler,
          inject_op.esb_handler NRF_ESB_EVENT_TX_SUCCESS, inject_op.timer_handler,
          inject_op.esb_handler NRF_ESB_EVENT_TX_SUCCESS]).map
      (fun r => (r.self.state, r.self.execute, r.m_ringbuf.peek_rd_idx, r.m_ringbuf.rd_idx)) =
      some (INJECT_STATE_IDLE, false, 0, 0) ∧
    (logitacker_processor_inject_start_execution example_env example_string_queued true =
        logitacker_processor_inject_run_next_task example_env
          { example_string_queued with
            self := { example_string_queued.self with execute := true } } ∧
      (({ example_string_queued with
          self := { example_string_queued.self with execute := true } } :
        inject_world Nat).call_peek_task example_env).1 = true ∧
      (({ example_string_queued with
          self := { example_string_queued.self with execute := true } } :
        inject_world Nat).call_peek_task example_env).2.self.current_task =
        { type := INJECT_TASK_TYPE_TYPE_STRING, data_len := 2, lang := 0, delay_ms := 0,
          p_data_u8 := 0 } ∧
      (({ example_string_queued with
          self := { example_string_queued.self with execute := true } } :
        inject_world Nat).call_peek_task example_env).2.self.current_task_data =
        [120, 0] ++ example_scratch.drop 2) :=
  ⟨(script_is_replayable example_env example_lifecycle_env example_string_queued
      [inject_op.start_execution true, inject_op.timer_handler,
        inject_op.esb_handler NRF_ESB_EVENT_TX_SUCCESS, inject_op.timer_handler,
        inject_op.esb_handler NRF_ESB_EVENT_TX_SUCCESS] (by decide)).1,
   by decide!,
   (script_is_replayable example_env example_lifecycle_env example_string_queued []
      (by decide)).2.2.2.2
      ({ type := INJECT_TASK_TYPE_TYPE_STRING, data_len := 2, lang := 0, delay_ms := 0,
         p_data_u8 := 1000 }, [120, 0]) [] rfl rfl (by decide) (by decide)
      (by simp [queued_task.wf, inject_task.wf, INJECT_TASK_TYPE_TYPE_STRING])
      (by decide)⟩

/-! ## Pausing and the forced failure -/

/-- C13 fails on the code.  The engine is initialised, `string "x"` is
enqueued, execution is started and the timer expires once, so the first frame
is on the air; then `logitacker_processor_inject_start_execution(.., false)`
pauses the engine and ten `TX_FAILED` events follow.  The engine is still
Working, with `execute` false, the counter at 10, the peek cursor at 22 and 29
calls made.  The handler of the next event, a `TX_SUCCESS`, fails the task with
`transfer_state(FAILED)`, which ends in Idle without a peek, and then goes on
into its `TX_SUCCESS` case: it calls `p_get_next` of the provider just reset
and starts the timer for 8 ms.  It returns in Idle with `execute` false, the
peek cursor unchanged, and the timer start as its last call. -/
theorem paused_forced_failure_arms_timer :
    (inject_run example_env example_lifecycle_env example_initialised
        ([inject_op.inject_string 0 1000 [120, 0], inject_op.start_execution true,
          inject_op.timer_handler, inject_op.start_execution false] ++
          List.replicate 10 (inject_op.esb_handler NRF_ESB_EVENT_TX_FAILED))).map
      (fun w => (w.self.state, w.self.execute, w.self.retransmit_counter,
        w.m_ringbuf.peek_rd_idx, w.trace.length)) =
      some (INJECT_STATE_WORKING, false, 10, 22, 29) ∧
    (inject_run example_env example_lifecycle_env example_initialised
        ([inject_op.inject_string 0 1000 [120, 0], inject_op.start_execution true,
          inject_op.timer_handler, inject_op.start_execution false] ++
          List.replicate 10 (inject_op.esb_handler NRF_ESB_EVENT_TX_FAILED) ++
          [inject_op.esb_handler NRF_ESB_EVENT_TX_SUCCESS])).map
      (fun r => (r.self.state, r.self.execute, r.m_ringbuf.peek_rd_idx, r.trace.drop 29)) =
      some (INJECT_STATE_IDLE, false, 22,
        [effect.log_inject_task_failed, effect.app_timer_stop,
          effect.state_store INJECT_STATE_IDLE, effect.p_reset,
          effect.p_get_next true, effect.app_timer_start 8]) := by
  decide!

end Logitacker
